import Mathlib

/-!
# bunnycdn_exporter: a shallow embedding of the scrape pipeline

The Go program `bunnycdn_exporter.go` polls the BunnyCDN API and republishes the
figures as Prometheus metrics.  This file embeds the pure helpers
(`trafficLocations`, `extractFromMap`), the two API readers
(`listPullZones`, `rawGetStatistics`) and the coordinator (`Exporter.scrape`)
as Lean functions, and proves properties of them.

Modelling conventions

* A Go `string` is a Lean `String`; the strings handled here come out of the JSON
  decoder or are program constants, so they are sequences of Unicode code points.
* A Go `float64` is only stored, copied and compared by the code embedded here (the
  one constant is `-1`); it is represented by a rational number.
* A Go `map[string]T` is the list of its entries in the order in which a `range`
  loop visits them.  That order is not specified by Go, so general statements about
  a map are made for an arbitrary list, and statements about the two descriptor
  tables for an arbitrary permutation of them.  Where a scrape is evaluated on a
  sample input the tables are visited in the order in which the program writes
  them; another order permutes the metrics sent for a zone and nothing else.
* A Go pointer that may be `nil` is an `Option`; dereferencing `nil`, indexing a
  slice out of range and the panics raised by `MustNewConstMetric` are recorded
  as a `GoPanic`.  A panic leaves the counters and the metrics already sent as they
  were when it happened.
* `e.fetch`, the clock and `json.Unmarshal` live outside the program.  The remote
  side is a function of the requests it has received so far and of the requested
  path; the decoder is a parameter.
-/

set_option autoImplicit false

namespace BunnyCDN

/-! ## Go library functions -/

/-- Go errors, represented by their message. -/
abbrev GoError := String

/-- Go `float64` values (see the conventions above). -/
abbrev float64 := ℚ

/-- Go `map[string]float64`: the entries in iteration order. -/
abbrev SeriesMap := List (String × float64)

/-- Run-time panics that the embedded code can raise. -/
inductive GoPanic where
  | nilDereference
  | indexOutOfRange
  | inconsistentLabelCardinality
  | invalidDescriptor
  deriving DecidableEq, Repr

/-- Go `unicode.IsSpace`: the Latin-1 cases of the switch and the rest of the
`White_Space` table. -/
def unicode.IsSpace (r : Char) : Bool :=
  let n := r.toNat
  if n ≤ 0xFF then
    n = 0x09 || n = 0x0A || n = 0x0B || n = 0x0C || n = 0x0D || n = 0x20
      || n = 0x85 || n = 0xA0
  else
    n = 0x1680 || (0x2000 ≤ n && n ≤ 0x200A) || n = 0x2028 || n = 0x2029
      || n = 0x202F || n = 0x205F || n = 0x3000

/-- Go `strings.TrimSpace` on the code points of a string: leading and trailing
white space removed. -/
def trimSpaceChars (s : List Char) : List Char :=
  ((s.dropWhile unicode.IsSpace).reverse.dropWhile unicode.IsSpace).reverse

/-- Go `strings.TrimSpace`. -/
def strings.TrimSpace (s : String) : String :=
  ⟨trimSpaceChars s.data⟩

/-- Go `strings.Split(s, sep)` for a one-character separator, on code points: the
pieces between the occurrences of `sep`, one more piece than occurrences. -/
def splitChars (sep : Char) : List Char → List (List Char)
  | [] => [[]]
  | c :: cs =>
    if c = sep then [] :: splitChars sep cs
    else
      match splitChars sep cs with
      | [] => [[c]]
      | p :: ps => (c :: p) :: ps

/-- Go `strings.Split(s, sep)` with `sep` a single character. -/
def strings.Split (s : String) (sep : Char) : List String :=
  (splitChars sep s.data).map String.mk

/-- UTF-8 encoding of a code point, as the list of its bytes. -/
def utf8Bytes (c : Char) : List Nat :=
  let n := c.toNat
  if n < 0x80 then [n]
  else if n < 0x800 then [0xC0 + n / 64, 0x80 + n % 64]
  else if n < 0x10000 then [0xE0 + n / 4096, 0x80 + (n / 64) % 64, 0x80 + n % 64]
  else [0xF0 + n / 262144, 0x80 + (n / 4096) % 64, 0x80 + (n / 64) % 64, 0x80 + n % 64]

/-- Upper-case hexadecimal digit, as used by Go `url.QueryEscape`. -/
def upperHex (d : Nat) : Char :=
  "0123456789ABCDEF".data.getD d '0'

/-- Go `url.QueryEscape` on one code point: unreserved characters are kept, a space
becomes `+`, every other byte becomes `%XX`. -/
def queryEscapeChar (c : Char) : List Char :=
  if c.isAlphanum || c = '-' || c = '_' || c = '.' || c = '~' then [c]
  else if c = ' ' then ['+']
  else (utf8Bytes c).flatMap fun b => ['%', upperHex (b / 16), upperHex (b % 16)]

/-- Go `url.QueryEscape`. -/
def url.QueryEscape (s : String) : String :=
  ⟨s.data.flatMap queryEscapeChar⟩

/-- Byte-wise order of two strings (Go `sort.Strings`), on code points. -/
def stringLess : List Char → List Char → Bool
  | [], [] => false
  | [], _ :: _ => true
  | _ :: _, [] => false
  | a :: as, b :: bs =>
    if a.toNat < b.toNat then true
    else if b.toNat < a.toNat then false
    else stringLess as bs

/-- Insertion of a query parameter into a list sorted by key, after the parameters
whose key is not greater. -/
def insertParam (kv : String × String) : List (String × String) → List (String × String)
  | [] => [kv]
  | x :: xs =>
    if stringLess kv.1.data x.1.data then kv :: x :: xs
    else x :: insertParam kv xs

/-- Go `url.Values` built by successive `Add` calls: the pairs in the order added. -/
abbrev url.Values := List (String × String)

/-- Go `url.Values.Encode`: the parameters sorted by key (values of one key in the
order added), each written `key=value` with both sides escaped, joined by `&`. -/
def url.Values.Encode (p : url.Values) : String :=
  "&".intercalate
    ((p.foldl (fun acc kv => insertParam kv acc) []).map
      fun kv => url.QueryEscape kv.1 ++ "=" ++ url.QueryEscape kv.2)

/-! ## Data model of the exporter -/

/-- Go `bunnyPullZone`. -/
structure bunnyPullZone where
  ID : Int
  Name : String
  deriving DecidableEq, Repr

/-- Go `bunnyLocation`. -/
structure bunnyLocation where
  Region : String
  Location : String
  Requests : float64
  deriving DecidableEq, Repr

/-- Go `bunnyStatistics`. -/
structure bunnyStatistics where
  OriginResponseTime : SeriesMap
  BandwidthUsed : SeriesMap
  BandwidthCached : SeriesMap
  CacheHitRate : SeriesMap
  RequestsServed : SeriesMap
  PullRequestsPulled : SeriesMap
  UserBalanceHistory : SeriesMap
  UserStorageUsed : SeriesMap
  GeoTrafficDistribution : SeriesMap
  Error3Xx : SeriesMap
  Error4Xx : SeriesMap
  Error5Xx : SeriesMap
  deriving DecidableEq, Repr

/-- The zero value of `bunnyStatistics` (every map `nil`). -/
def bunnyStatistics.zero : bunnyStatistics :=
  ⟨[], [], [], [], [], [], [], [], [], [], [], []⟩

/-- The `for loc, req := range s.GeoTrafficDistribution` loop of
`trafficLocations`, with the slice built so far.  `parts[1]` panics when the key
has no colon. -/
def trafficLocationsLoop :
    SeriesMap → List bunnyLocation → Except GoPanic (List bunnyLocation)
  | [], locations => .ok locations
  | (loc, req) :: rest, locations =>
    match strings.Split loc ':' with
    | p0 :: p1 :: _ =>
      trafficLocationsLoop rest
        (locations ++ [{ Region := p0, Location := strings.TrimSpace p1, Requests := req }])
    | _ => .error .indexOutOfRange

/-- Go `bunnyStatistics.trafficLocations`. -/
def bunnyStatistics.trafficLocations (s : bunnyStatistics) :
    Except GoPanic (List bunnyLocation) :=
  trafficLocationsLoop s.GeoTrafficDistribution []

/-- Go `extractFromMap`: the value of the first entry the `range` loop visits, `-1`
when there is none. -/
def extractFromMap : SeriesMap → float64
  | [] => -1
  | (_, v) :: _ => v

/-! ## Prometheus client library -/

/-- Prometheus `Desc`: the fully qualified name, the help text, the names of the
variable labels, the constant labels, and the error recorded by `NewDesc` (if any). -/
structure Desc where
  fqName : String
  help : String
  variableLabels : List String
  constLabels : List (String × String)
  err : Option GoError
  deriving DecidableEq, Repr

/-- Prometheus constant metric: a descriptor, a value and the values of the
variable labels. -/
structure Metric where
  desc : Desc
  value : float64
  labelValues : List String
  deriving DecidableEq, Repr

/-- Prometheus `BuildFQName`: the non-empty parts joined by `_`, the empty string
when the name is empty. -/
def prometheus.BuildFQName (ns subsystem name : String) : String :=
  if name = "" then ""
  else if ns ≠ "" ∧ subsystem ≠ "" then ns ++ "_" ++ subsystem ++ "_" ++ name
  else if ns ≠ "" then ns ++ "_" ++ name
  else if subsystem ≠ "" then subsystem ++ "_" ++ name
  else name

/-- Prometheus `MustNewConstMetric` for a gauge: panics when the descriptor carries
an error or when the number of label values differs from the number of variable
labels. -/
def prometheus.MustNewConstMetric (desc : Desc) (value : float64)
    (labelValues : List String) : Except GoPanic Metric :=
  if desc.err.isSome then .error .invalidDescriptor
  else if labelValues.length ≠ desc.variableLabels.length then
    .error .inconsistentLabelCardinality
  else .ok { desc := desc, value := value, labelValues := labelValues }

/-! ## Constants and descriptor tables -/

/-- Go constant `namespace`. -/
def metricNamespace : String := "bunnycdn"

/-! The metric keys, Go constants `metricOriginResponseTime` to `metricStorageUsed`. -/

def metricOriginResponseTime : String := "OriginResponseTime"
def metricBandwidthUsed : String := "bandwidthUsed"
def metricBandwidthCached : String := "bandwidthCached"
def metricRequestsServer : String := "requestsServed"
def metricPullRequestsPulled : String := "pullRequestsPulled"
def metricErr3xx : String := "error3xx"
def metricErr4xx : String := "error4xx"
def metricErr5xx : String := "error5xx"
def metricGeoTrafficDist : String := "geoTrafficDistribution"
def metricBalance : String := "balance"
def metricStorageUsed : String := "storageUsed"

/-- Go `newMetric`.  The names and labels given to it in this program are
well-formed, so `NewDesc` records no error. -/
def newMetric (metricName docString : String) (variableLabels : List String)
    (constLabels : List (String × String)) : Desc :=
  { fqName := prometheus.BuildFQName metricNamespace "" metricName
    help := docString
    variableLabels := variableLabels
    constLabels := constLabels
    err := none }

/-- Go `metricsCollection`, a `map[string]*prometheus.Desc`: the entries in
iteration order. -/
abbrev metricsCollection := List (String × Desc)

/-- Go package variable `accountMetrics`. -/
def accountMetrics : metricsCollection :=
  [ (metricBalance, newMetric "account_balance" "Current account balance" [] []),
    (metricStorageUsed, newMetric "storage_used_bytes" "Storage usage in bytes" [] []) ]

/-- Go package variable `pullZoneMetrics`. -/
def pullZoneMetrics : metricsCollection :=
  [ (metricOriginResponseTime,
      newMetric "origin_response_time_avg" "The average origin response time."
        ["pull_zone"] []),
    (metricBandwidthUsed,
      newMetric "bandwidth_used_bytes_total"
        "Total bandwidth used in bytes serving traffic." ["pull_zone"] []),
    (metricBandwidthCached,
      newMetric "bandwidth_cached_bytes_total"
        "Total bandwidth used in bytes serving cached data." ["pull_zone"] []),
    (metricRequestsServer,
      newMetric "requests_served_total" "Number of requests served." ["pull_zone"] []),
    (metricPullRequestsPulled,
      newMetric "pull_requests_pulled" "Number of pull requests from origin."
        ["pull_zone"] []),
    (metricErr3xx,
      newMetric "request_error_count" "Request error by code." ["pull_zone"]
        [("code", "3xx")]),
    (metricErr4xx,
      newMetric "request_error_count" "Request error by code." ["pull_zone"]
        [("code", "4xx")]),
    (metricErr5xx,
      newMetric "request_error_count" "Request error by code." ["pull_zone"]
        [("code", "5xx")]),
    (metricGeoTrafficDist,
      newMetric "requests_served" "Request by location."
        ["pull_zone", "region", "location"] []) ]

/-! ## The outside world -/

/-- Go `io.ReadCloser` as consumed by `ioutil.ReadAll`: the text it delivers and
the error that ends the reading, if any. -/
structure ReadCloser where
  data : String
  err : Option GoError
  deriving DecidableEq, Repr

/-- Services outside the program: the clock (`time.Now().Format("2006-01-02")`,
as a function of the requests made so far) and `json.Unmarshal` at the two target
types, each giving the decoded value together with the error it returns. -/
structure Platform where
  today : List String → String
  unmarshalStatistics : String → bunnyStatistics × Option GoError
  unmarshalPullZones : String → List bunnyPullZone × Option GoError

/-- Go `Exporter`, its immutable part: the fetch function (the answer of the remote
side to a path, given the requests made before) and the two descriptor tables. -/
structure Exporter where
  fetch : List String → String → Except GoError ReadCloser
  accountMetrics : metricsCollection
  pullZoneMetrics : metricsCollection

/-- The mutable state around a scrape: the three counters of the `Exporter`, the
metrics sent on the channel `ch` and the paths requested from the remote side, both
oldest first. -/
structure State where
  totalScrapes : Nat
  totalErrors : Nat
  totalAPICalls : Nat
  ch : List Metric
  requests : List String
  deriving DecidableEq, Repr

/-- Result of `rawGetStatistics`: the Go pair `(*bunnyStatistics, error)` and the
request log after the call. -/
structure StatsResult where
  stats : Option bunnyStatistics
  err : Option GoError
  requests : List String
  deriving DecidableEq, Repr

/-- Result of `listPullZones`: the Go pair `([]bunnyPullZone, error)` and the request
log after the call. -/
structure ZonesResult where
  pullZones : List bunnyPullZone
  err : Option GoError
  requests : List String
  deriving DecidableEq, Repr

/-! ## API readers -/

/-- The path built by `rawGetStatistics`: `/statistics?` followed by the encoded
parameters `dateFrom`, `dateTo` (both today), `loadErrors=true` and the extra ones. -/
def statisticsPath (p : Platform) (extraParams : List (String × String))
    (requests : List String) : String :=
  "/statistics?" ++ url.Values.Encode
    ([("dateFrom", p.today requests), ("dateTo", p.today requests),
      ("loadErrors", "true")] ++ extraParams)

/-- Go `rawGetStatistics`. -/
def rawGetStatistics (fetch : List String → String → Except GoError ReadCloser)
    (p : Platform) (extraParams : List (String × String)) (requests : List String) :
    StatsResult :=
  match fetch requests (statisticsPath p extraParams requests) with
  | .error err =>
    { stats := none, err := some err
      requests := requests ++ [statisticsPath p extraParams requests] }
  | .ok body =>
    match body.err with
    | some err =>
      { stats := none, err := some err
        requests := requests ++ [statisticsPath p extraParams requests] }
    | none =>
      { stats := some (p.unmarshalStatistics body.data).1
        err := (p.unmarshalStatistics body.data).2
        requests := requests ++ [statisticsPath p extraParams requests] }

/-- Go `getStatisticsForPullZone`. -/
def getStatisticsForPullZone (fetch : List String → String → Except GoError ReadCloser)
    (p : Platform) (pz : bunnyPullZone) (requests : List String) : StatsResult :=
  rawGetStatistics fetch p [("pullZone", toString pz.ID)] requests

/-- Go `getStatistics`. -/
def getStatistics (fetch : List String → String → Except GoError ReadCloser)
    (p : Platform) (requests : List String) : StatsResult :=
  rawGetStatistics fetch p [] requests

/-- Go `listPullZones`. -/
def listPullZones (fetch : List String → String → Except GoError ReadCloser)
    (p : Platform) (requests : List String) : ZonesResult :=
  match fetch requests "/pullzone" with
  | .error err => { pullZones := [], err := some err, requests := requests ++ ["/pullzone"] }
  | .ok body =>
    match body.err with
    | some err =>
      { pullZones := [], err := some err, requests := requests ++ ["/pullzone"] }
    | none =>
      { pullZones := (p.unmarshalPullZones body.data).1
        err := (p.unmarshalPullZones body.data).2
        requests := requests ++ ["/pullzone"] }

/-! ## The scrape coordinator -/

/-- The statement `ch <- prometheus.MustNewConstMetric(metric, GaugeValue, value,
labelValues...)`: the channel afterwards and the panic, if one was raised. -/
def sendConstMetric (ch : List Metric) (metric : Desc) (value : float64)
    (labelValues : List String) : List Metric × Option GoPanic :=
  match prometheus.MustNewConstMetric metric value labelValues with
  | .ok m => (ch ++ [m], none)
  | .error pn => (ch, some pn)

/-- One `case` of the per-zone switch that reads a series through the pointer
`stats`: dereferencing `nil` panics. -/
def sendSeries (ch : List Metric) (metric : Desc) (stats : Option bunnyStatistics)
    (series : bunnyStatistics → SeriesMap) (labelValues : List String) :
    List Metric × Option GoPanic :=
  match stats with
  | none => (ch, some .nilDereference)
  | some st => sendConstMetric ch metric (extractFromMap (series st)) labelValues

/-- The loop `for _, loc := range stats.trafficLocations()` of the geo case. -/
def sendLocations (metric : Desc) (pullZone : bunnyPullZone) :
    List bunnyLocation → List Metric → List Metric × Option GoPanic
  | [], ch => (ch, none)
  | loc :: rest, ch =>
    match sendConstMetric ch metric loc.Requests [pullZone.Name, loc.Region, loc.Location] with
    | (ch1, some pn) => (ch1, some pn)
    | (ch1, none) => sendLocations metric pullZone rest ch1

/-- The `switch name` of the per-zone loop of `scrape`, for one entry of
`e.pullZoneMetrics`. -/
def pullZoneMetricCase (name : String) (metric : Desc) (stats : Option bunnyStatistics)
    (pullZone : bunnyPullZone) (ch : List Metric) : List Metric × Option GoPanic :=
  if name = metricOriginResponseTime then
    sendSeries ch metric stats (fun st => st.OriginResponseTime) [pullZone.Name]
  else if name = metricBandwidthUsed then
    sendSeries ch metric stats (fun st => st.BandwidthUsed) [pullZone.Name]
  else if name = metricBandwidthCached then
    sendSeries ch metric stats (fun st => st.BandwidthUsed) [pullZone.Name]
  else if name = metricRequestsServer then
    sendSeries ch metric stats (fun st => st.RequestsServed) [pullZone.Name]
  else if name = metricPullRequestsPulled then
    sendSeries ch metric stats (fun st => st.PullRequestsPulled) [pullZone.Name]
  else if name = metricErr3xx then
    sendSeries ch metric stats (fun st => st.Error3Xx) [pullZone.Name]
  else if name = metricErr4xx then
    sendSeries ch metric stats (fun st => st.Error4Xx) [pullZone.Name]
  else if name = metricErr5xx then
    sendSeries ch metric stats (fun st => st.Error5Xx) [pullZone.Name]
  else if name = metricGeoTrafficDist then
    match stats with
    | none => (ch, some .nilDereference)
    | some st =>
      match st.trafficLocations with
      | .error pn => (ch, some pn)
      | .ok locs => sendLocations metric pullZone locs ch
  else (ch, none)

/-- The loop `for name, metric := range e.pullZoneMetrics` of `scrape`. -/
def pullZoneMetricsLoop : metricsCollection → Option bunnyStatistics → bunnyPullZone →
    List Metric → List Metric × Option GoPanic
  | [], _, _, ch => (ch, none)
  | (name, metric) :: rest, stats, pullZone, ch =>
    match pullZoneMetricCase name metric stats pullZone ch with
    | (ch1, some pn) => (ch1, some pn)
    | (ch1, none) => pullZoneMetricsLoop rest stats pullZone ch1

/-- The `switch name` of the account loop of `scrape`, for one entry of
`e.accountMetrics`. -/
def accountMetricCase (name : String) (metric : Desc) (aStatsObj : bunnyStatistics)
    (ch : List Metric) : List Metric × Option GoPanic :=
  if name = metricBalance then
    sendConstMetric ch metric (extractFromMap aStatsObj.UserBalanceHistory) []
  else if name = metricStorageUsed then
    sendConstMetric ch metric (extractFromMap aStatsObj.UserStorageUsed) []
  else (ch, none)

/-- The loop `for name, metric := range e.accountMetrics` of `scrape`. -/
def accountMetricsLoop : metricsCollection → bunnyStatistics → List Metric →
    List Metric × Option GoPanic
  | [], _, ch => (ch, none)
  | (name, metric) :: rest, aStatsObj, ch =>
    match accountMetricCase name metric aStatsObj ch with
    | (ch1, some pn) => (ch1, some pn)
    | (ch1, none) => accountMetricsLoop rest aStatsObj ch1

/-- The block `if err != nil { log.Errorf(...); e.totalErrors.Inc() }`. -/
def countError (err : Option GoError) (s : State) : State :=
  match err with
  | some _ => { s with totalErrors := s.totalErrors + 1 }
  | none => s

/-- The loop `for _, pullZone := range pullZones` of `scrape`, started with a value
of `aStatsObj`: the state when the loop ends, and either the panic that ended it or
the final value of `aStatsObj`. -/
def scrapeZones (e : Exporter) (p : Platform) :
    List bunnyPullZone → Option bunnyStatistics → State →
      State × Except GoPanic (Option bunnyStatistics)
  | [], aStatsObj, s => (s, .ok aStatsObj)
  | pullZone :: rest, _, s =>
    let r := getStatisticsForPullZone e.fetch p pullZone s.requests
    let s1 := countError r.err
      { s with requests := r.requests, totalAPICalls := s.totalAPICalls + 1 }
    let sent := pullZoneMetricsLoop e.pullZoneMetrics r.stats pullZone s1.ch
    match sent.2 with
    | some pn => ({ s1 with ch := sent.1 }, .error pn)
    | none => scrapeZones e p rest r.stats { s1 with ch := sent.1 }

/-- The block `if aStatsObj == nil { ... }` of `scrape`, the fallback fetch: the
value of `aStatsObj` and the state after it. -/
def fallbackStatistics (e : Exporter) (p : Platform) (aStatsObj : Option bunnyStatistics)
    (s : State) : Option bunnyStatistics × State :=
  match aStatsObj with
  | some st => (some st, s)
  | none =>
    let r := getStatistics e.fetch p s.requests
    (r.stats,
      countError r.err { s with requests := r.requests, totalAPICalls := s.totalAPICalls + 1 })

/-- The block `if aStatsObj != nil { ... }` of `scrape` followed by `return 1`. -/
def sendAccountMetrics (e : Exporter) (aStatsObj : Option bunnyStatistics) (s : State) :
    State × Except GoPanic float64 :=
  match aStatsObj with
  | none => (s, .ok 1)
  | some st =>
    let sent := accountMetricsLoop e.accountMetrics st s.ch
    ({ s with ch := sent.1 },
      match sent.2 with
      | some pn => .error pn
      | none => .ok 1)

/-- Go `Exporter.scrape`: the state afterwards, and either the panic that ended the
call or the returned value `up`. -/
def Exporter.scrape (e : Exporter) (p : Platform) (s : State) :
    State × Except GoPanic float64 :=
  let r := listPullZones e.fetch p s.requests
  let s1 := { s with totalScrapes := s.totalScrapes + 1, requests := r.requests,
                     totalAPICalls := s.totalAPICalls + 1 }
  match r.err with
  | some _ => ({ s1 with totalErrors := s1.totalErrors + 1 }, .ok 0)
  | none =>
    match scrapeZones e p r.pullZones none s1 with
    | (s2, .error pn) => (s2, .error pn)
    | (s2, .ok aStatsObj) =>
      sendAccountMetrics e (fallbackStatistics e p aStatsObj s2).1
        (fallbackStatistics e p aStatsObj s2).2

/-! ## JSON decoding of the zone listing

`listPullZones` hands the body to `json.Unmarshal` with a `[]bunnyPullZone` as target.
What follows is that library call for this target: the JSON grammar as the scanner of
`encoding/json` accepts it, and the decoder's rules for a slice of structs whose
fields carry the tags `Id` and `Name`.  The text of the errors is abbreviated. -/

/-- JSON values.  A number keeps its literal, which the decoder converts according
to the type of the target. -/
inductive Json where
  | null
  | bool (b : Bool)
  | num (lit : String)
  | str (s : String)
  | arr (items : List Json)
  | obj (members : List (String × Json))

/-- JSON white space. -/
def json.isSpace (c : Char) : Bool :=
  c = ' ' || c = '\t' || c = '\r' || c = '\n'

/-- Value of a hexadecimal digit. -/
def json.hexValue (c : Char) : Option Nat :=
  if '0' ≤ c ∧ c ≤ '9' then some (c.toNat - '0'.toNat)
  else if 'a' ≤ c ∧ c ≤ 'f' then some (c.toNat - 'a'.toNat + 10)
  else if 'A' ≤ c ∧ c ≤ 'F' then some (c.toNat - 'A'.toNat + 10)
  else none

/-- The code unit written by the four hexadecimal digits of a `\u` escape. -/
def json.getu4 (a b c d : Char) : Option Nat :=
  match json.hexValue a, json.hexValue b, json.hexValue c, json.hexValue d with
  | some x, some y, some z, some w => some (((x * 16 + y) * 16 + z) * 16 + w)
  | _, _, _, _ => none

/-- The replacement character written for a surrogate that found no partner. -/
def json.flushSurrogate (pending : Option Nat) : List Char :=
  match pending with
  | some _ => [Char.ofNat 0xFFFD]
  | none => []

/-- A JSON string from the character after its opening quote on: the decoded text
and the input after the closing quote.  Control characters are refused; of the
escapes only those of the grammar are accepted; a `\u` escape that is a surrogate
is held in `pending` until the next item shows whether it completes a pair, and is
replaced by U+FFFD when it does not. -/
def json.scanString : Option Nat → List Char → Option (List Char × List Char)
  | _, [] => none
  | pending, '"' :: rest => some (json.flushSurrogate pending, rest)
  | pending, '\\' :: 'u' :: a :: b :: c :: d :: rest =>
    match json.getu4 a b c d with
    | none => none
    | some v =>
      match pending with
      | some u =>
        if u < 0xDC00 ∧ 0xDC00 ≤ v ∧ v < 0xE000 then
          (json.scanString none rest).map fun r =>
            (Char.ofNat (0x10000 + (u - 0xD800) * 0x400 + (v - 0xDC00)) :: r.1, r.2)
        else if 0xD800 ≤ v ∧ v < 0xE000 then
          (json.scanString (some v) rest).map fun r => (Char.ofNat 0xFFFD :: r.1, r.2)
        else
          (json.scanString none rest).map fun r =>
            (Char.ofNat 0xFFFD :: Char.ofNat v :: r.1, r.2)
      | none =>
        if 0xD800 ≤ v ∧ v < 0xE000 then json.scanString (some v) rest
        else (json.scanString none rest).map fun r => (Char.ofNat v :: r.1, r.2)
  | pending, '\\' :: e :: rest =>
    let unescaped : Option Char :=
      if e = '"' then some '"' else if e = '\\' then some '\\' else if e = '/' then some '/'
      else if e = 'b' then some (Char.ofNat 8) else if e = 'f' then some (Char.ofNat 12)
      else if e = 'n' then some '\n' else if e = 'r' then some '\r'
      else if e = 't' then some '\t' else none
    match unescaped with
    | none => none
    | some c =>
      (json.scanString none rest).map fun r => (json.flushSurrogate pending ++ c :: r.1, r.2)
  | pending, c :: rest =>
    if c.toNat < 0x20 ∨ c = '\\' then none
    else
      (json.scanString none rest).map fun r => (json.flushSurrogate pending ++ c :: r.1, r.2)

/-- The leading decimal digits of the input, and what follows them. -/
def json.scanDigits (cs : List Char) : List Char × List Char :=
  cs.span Char.isDigit

/-- The optional minus sign of a JSON number. -/
def json.scanSign (cs : List Char) : List Char × List Char :=
  match cs with
  | '-' :: r => (['-'], r)
  | _ => ([], cs)

/-- The integer part of a JSON number: `0`, or a digit from 1 to 9 followed by
digits. -/
def json.scanInt (cs : List Char) : Option (List Char × List Char) :=
  match cs with
  | '0' :: r => some (['0'], r)
  | c :: r =>
    if c.isDigit then some (c :: (json.scanDigits r).1, (json.scanDigits r).2) else none
  | [] => none

/-- The optional fraction of a JSON number: a point followed by at least one digit. -/
def json.scanFrac (cs : List Char) : Option (List Char × List Char) :=
  match cs with
  | '.' :: r =>
    if (json.scanDigits r).1 = [] then none
    else some ('.' :: (json.scanDigits r).1, (json.scanDigits r).2)
  | _ => some ([], cs)

/-- The optional sign of an exponent. -/
def json.scanExpSign (cs : List Char) : List Char × List Char :=
  match cs with
  | '+' :: r => (['+'], r)
  | '-' :: r => (['-'], r)
  | _ => ([], cs)

/-- The optional exponent of a JSON number: `e` or `E`, an optional sign and at least
one digit. -/
def json.scanExp (cs : List Char) : Option (List Char × List Char) :=
  match cs with
  | e :: r =>
    if e = 'e' ∨ e = 'E' then
      if (json.scanDigits (json.scanExpSign r).2).1 = [] then none
      else
        some (e :: (json.scanExpSign r).1 ++ (json.scanDigits (json.scanExpSign r).2).1,
          (json.scanDigits (json.scanExpSign r).2).2)
    else some ([], cs)
  | [] => some ([], [])

/-- A JSON number at the head of the input: its literal and the input after it. -/
def json.scanNumber (cs : List Char) : Option (List Char × List Char) :=
  match json.scanInt (json.scanSign cs).2 with
  | none => none
  | some int =>
    match json.scanFrac int.2 with
    | none => none
    | some frac =>
      match json.scanExp frac.2 with
      | none => none
      | some exp => some ((json.scanSign cs).1 ++ int.1 ++ frac.1 ++ exp.1, exp.2)

/-- The scanner's limit on the number of arrays and objects open at one time. -/
def json.maxNestingDepth : Nat := 10000

/-- The rest of a literal name (`true`, `false`, `null`) after its first letter: the
input after it when the letters are there. -/
def json.scanLiteral : List Char → List Char → Option (List Char)
  | [], cs => some cs
  | _ :: _, [] => none
  | l :: ls, c :: cs => if l = c then json.scanLiteral ls cs else none

mutual
/-- A JSON value at the head of the input (after white space): the value and the
input after it.  `fuel` bounds the number of nested calls, `depth` counts the arrays
and objects that are open. -/
def json.parseValue : Nat → Nat → List Char → Option (Json × List Char)
  | 0, _, _ => none
  | fuel + 1, depth, cs =>
    match cs.dropWhile json.isSpace with
    | [] => none
    | c :: rest =>
      if c = '{' then
        if json.maxNestingDepth ≤ depth then none
        else
          match rest.dropWhile json.isSpace with
          | [] => none
          | c1 :: rest1 =>
            if c1 = '}' then some (.obj [], rest1)
            else
              (json.parseMembers fuel (depth + 1) (c1 :: rest1)).map fun r => (.obj r.1, r.2)
      else if c = '[' then
        if json.maxNestingDepth ≤ depth then none
        else
          match rest.dropWhile json.isSpace with
          | [] => none
          | c1 :: rest1 =>
            if c1 = ']' then some (.arr [], rest1)
            else
              (json.parseElements fuel (depth + 1) (c1 :: rest1)).map fun r => (.arr r.1, r.2)
      else if c = '"' then (json.scanString none rest).map fun r => (.str ⟨r.1⟩, r.2)
      else if c = 't' then
        (json.scanLiteral ['r', 'u', 'e'] rest).map fun r => (.bool true, r)
      else if c = 'f' then
        (json.scanLiteral ['a', 'l', 's', 'e'] rest).map fun r => (.bool false, r)
      else if c = 'n' then
        (json.scanLiteral ['u', 'l', 'l'] rest).map fun r => (.null, r)
      else (json.scanNumber (c :: rest)).map fun r => (.num ⟨r.1⟩, r.2)
/-- The elements of a non-empty array from its first element on, up to and including
the closing bracket. -/
def json.parseElements : Nat → Nat → List Char → Option (List Json × List Char)
  | 0, _, _ => none
  | fuel + 1, depth, cs =>
    match json.parseValue fuel depth cs with
    | none => none
    | some r =>
      match r.2.dropWhile json.isSpace with
      | [] => none
      | c :: rest1 =>
        if c = ',' then
          (json.parseElements fuel depth rest1).map fun rs => (r.1 :: rs.1, rs.2)
        else if c = ']' then some ([r.1], rest1)
        else none
/-- The members of a non-empty object from its first key on, up to and including the
closing brace. -/
def json.parseMembers : Nat → Nat → List Char → Option (List (String × Json) × List Char)
  | 0, _, _ => none
  | fuel + 1, depth, cs =>
    match cs.dropWhile json.isSpace with
    | [] => none
    | q :: rest =>
      if q = '"' then
        match json.scanString none rest with
        | none => none
        | some key =>
          match key.2.dropWhile json.isSpace with
          | [] => none
          | c :: rest2 =>
            if c = ':' then
              match json.parseValue fuel depth rest2 with
              | none => none
              | some r =>
                match r.2.dropWhile json.isSpace with
                | [] => none
                | c1 :: rest4 =>
                  if c1 = ',' then
                    (json.parseMembers fuel depth rest4).map fun rs =>
                      ((⟨key.1⟩, r.1) :: rs.1, rs.2)
                  else if c1 = '}' then some ([(⟨key.1⟩, r.1)], rest4)
                  else none
            else none
      else none
end

/-- The fuel given to the parser for a text: a call on an input of `n` characters is
served by the fuel `2 * n + 2`. -/
def json.fuel (data : String) : Nat := 2 * data.data.length + 2

/-- The whole text as one JSON value, surrounded by optional white space; `none` is
a syntax error. -/
def json.parse (data : String) : Option Json :=
  match json.parseValue (json.fuel data) 0 data.data with
  | none => none
  | some (v, rest) => if rest.dropWhile json.isSpace = [] then some v else none

/-- The digits of a decimal numeral, added to the value read so far. -/
def strconv.parseDigits : List Char → Nat → Option Nat
  | [], n => some n
  | c :: cs, n =>
    if c.isDigit then strconv.parseDigits cs (10 * n + (c.toNat - '0'.toNat)) else none

/-- Go `strconv.ParseInt(s, 10, 64)`: an optional sign and at least one decimal
digit, the value within the range of `int64`. -/
def strconv.ParseInt (s : String) : Option Int :=
  let magnitude (ds : List Char) : Option Nat :=
    match ds with
    | [] => none
    | _ => strconv.parseDigits ds 0
  match s.data with
  | '-' :: ds =>
    match magnitude ds with
    | some n => if n ≤ 2 ^ 63 then some (-(n : Int)) else none
    | none => none
  | '+' :: ds =>
    match magnitude ds with
    | some n => if n < 2 ^ 63 then some (n : Int) else none
    | none => none
  | ds =>
    match magnitude ds with
    | some n => if n < 2 ^ 63 then some (n : Int) else none
    | none => none

/-- The decoder's test whether an object key names a struct field when it is not
equal to it: equality up to the case of ASCII letters.  (For a field name made of
ASCII letters other than `k` and `s`, as `Id` and `Name` are.) -/
def json.equalFold (name key : String) : Bool :=
  name.data.map Char.toUpper = key.data.map Char.toUpper

/-- The decoder's search of the struct field for an object key: the field whose name
is the key, otherwise the first field whose name equals the key up to case. -/
def json.findField {α : Type} : List (String × α) → String → Option α → Option α
  | [], _, f => f
  | (name, x) :: rest, key, f =>
    if name = key then some x
    else json.findField rest key (if f.isNone ∧ json.equalFold name key then some x else f)

/-- The decoder keeps the first type error and goes on. -/
def json.saveError (saved : Option GoError) (err : GoError) : Option GoError :=
  match saved with
  | some e => some e
  | none => some err

/-- The description of a JSON value in a type error. -/
def json.kind : Json → String
  | .null => "null"
  | .bool _ => "bool"
  | .num _ => "number"
  | .str _ => "string"
  | .arr _ => "array"
  | .obj _ => "object"

/-- The text of a type error. -/
def json.typeError (value goType : String) : GoError :=
  "json: cannot unmarshal " ++ value ++ " into Go value of type " ++ goType

/-- The fields of `bunnyPullZone`. -/
inductive pullZoneField where
  | ID
  | Name
  deriving DecidableEq, Repr

/-- The fields of `bunnyPullZone` with the names given by their `json` tags, in the
order of the declaration. -/
def pullZoneFields : List (String × pullZoneField) :=
  [("Id", .ID), ("Name", .Name)]

/-- One member of a JSON object decoded into a `bunnyPullZone`: the struct and the
saved error before and after.  A member whose key names no field is skipped; `null`
leaves the field as it is; a number is stored in `ID` when `strconv.ParseInt`
accepts its literal, a string is stored in `Name`; anything else is a type error and
leaves the field as it is. -/
def json.storeMember (st : bunnyPullZone × Option GoError) (kv : String × Json) :
    bunnyPullZone × Option GoError :=
  match json.findField pullZoneFields kv.1 none with
  | none => st
  | some .ID =>
    match kv.2 with
    | .null => st
    | .num lit =>
      match strconv.ParseInt lit with
      | some n => ({ st.1 with ID := n }, st.2)
      | none => (st.1, json.saveError st.2 (json.typeError ("number " ++ lit) "int64"))
    | v => (st.1, json.saveError st.2 (json.typeError (json.kind v) "int64"))
  | some .Name =>
    match kv.2 with
    | .null => st
    | .str s => ({ st.1 with Name := s }, st.2)
    | v => (st.1, json.saveError st.2 (json.typeError (json.kind v) "string"))

/-- One JSON value decoded into a fresh `bunnyPullZone`: the members of an object
are stored in order, `null` leaves the zero value, anything else is a type error. -/
def json.decodePullZone (v : Json) (saved : Option GoError) :
    bunnyPullZone × Option GoError :=
  match v with
  | .obj members => members.foldl json.storeMember ({ ID := 0, Name := "" }, saved)
  | .null => ({ ID := 0, Name := "" }, saved)
  | v =>
    ({ ID := 0, Name := "" },
      json.saveError saved (json.typeError (json.kind v) "main.bunnyPullZone"))

/-- The elements of a JSON array decoded into a `[]bunnyPullZone`, one struct per
element. -/
def json.decodeElements : List Json → Option GoError → List bunnyPullZone × Option GoError
  | [], saved => ([], saved)
  | v :: rest, saved =>
    ((json.decodePullZone v saved).1
        :: (json.decodeElements rest (json.decodePullZone v saved).2).1,
      (json.decodeElements rest (json.decodePullZone v saved).2).2)

/-- Go `json.Unmarshal(data, &pullZones)` for a `nil` slice `pullZones` of type
`[]bunnyPullZone`: the slice afterwards and the error returned.  A syntax error leaves
the slice `nil`; an array is decoded element by element; `null` leaves the slice `nil`
without error; any other value is a type error. -/
def json.unmarshalPullZones (data : String) : List bunnyPullZone × Option GoError :=
  match json.parse data with
  | none => ([], some "json: syntax error")
  | some (.arr items) => json.decodeElements items none
  | some .null => ([], none)
  | some v => ([], some (json.typeError (json.kind v) "[]main.bunnyPullZone"))

/-! ## The JSON grammar

The texts of the JSON grammar (RFC 8259), written as syntax trees that keep every
choice the grammar leaves to the writer: the white space, the way each character of
a string is written, the numeral of each number.  `JsonText.text` is the text a tree
stands for and `JsonText.value` the value it denotes.  Nothing here refers to the
scanner or the decoder of the preceding section. -/

/-- The white space of the grammar: space, tab, line feed, carriage return. -/
def whitespace : List Char := [' ', '\t', '\n', '\r']

/-- A run of white space. -/
def isWhitespace (ws : List Char) : Bool :=
  ws.all fun c => whitespace.contains c

/-- The decimal digits. -/
def decimalDigits : List Char := ['0', '1', '2', '3', '4', '5', '6', '7', '8', '9']

/-- A run of decimal digits. -/
def allDigits (ds : List Char) : Bool :=
  ds.all fun c => decimalDigits.contains c

/-- The hexadecimal digit of a value below 16, in upper or lower case. -/
def hexDigit (upper : Bool) (n : Nat) : Char :=
  if upper then ['0', '1', '2', '3', '4', '5', '6', '7', '8', '9', 'A', 'B', 'C', 'D', 'E', 'F'].getD n '0'
  else ['0', '1', '2', '3', '4', '5', '6', '7', '8', '9', 'a', 'b', 'c', 'd', 'e', 'f'].getD n '0'

/-- The four hexadecimal digits of a 16-bit code unit, each in the case chosen. -/
def hex4 (upper : Bool × Bool × Bool × Bool) (u : Nat) : List Char :=
  [hexDigit upper.1 (u / 4096 % 16), hexDigit upper.2.1 (u / 256 % 16),
    hexDigit upper.2.2.1 (u / 16 % 16), hexDigit upper.2.2.2 (u % 16)]

/-- The two-character escapes: the letter after the backslash and the character
meant. -/
def escapes : List (Char × Char) :=
  [('"', '"'), ('\\', '\\'), ('/', '/'), ('b', Char.ofNat 8), ('f', Char.ofNat 12),
    ('n', '\n'), ('r', '\r'), ('t', '\t')]

/-- Whether a 16-bit code unit is a surrogate. -/
def isSurrogate (u : Nat) : Bool := decide (0xD800 ≤ u ∧ u < 0xE000)

/-- One item of the text between the quotes of a string: a character written as it
is, a two-character escape, a `\u` escape of one code unit, or two `\u` escapes that
form a surrogate pair. -/
inductive StringItem where
  | plain (c : Char)
  | escape (e : Char)
  | unicode (upper : Bool × Bool × Bool × Bool) (u : Nat)
  | pair (upper1 : Bool × Bool × Bool × Bool) (high : Nat)
      (upper2 : Bool × Bool × Bool × Bool) (low : Nat)

/-- The text of an item. -/
def StringItem.text : StringItem → List Char
  | .plain c => [c]
  | .escape e => ['\\', e]
  | .unicode upper u => '\\' :: 'u' :: hex4 upper u
  | .pair upper1 high upper2 low =>
    '\\' :: 'u' :: hex4 upper1 high ++ '\\' :: 'u' :: hex4 upper2 low

/-- The character an item denotes.  A surrogate escape outside a pair denotes the
replacement character U+FFFD. -/
def StringItem.value : StringItem → Char
  | .plain c => c
  | .escape e => (escapes.lookup e).getD e
  | .unicode _ u => if isSurrogate u then Char.ofNat 0xFFFD else Char.ofNat u
  | .pair _ high _ low => Char.ofNat (0x10000 + (high - 0xD800) * 0x400 + (low - 0xDC00))

/-- The items the grammar admits: no control character, quote or backslash written
as it is; the eight escapes; code units below `0x10000`; a high surrogate followed by
a low surrogate in a pair. -/
def StringItem.wellFormed : StringItem → Bool
  | .plain c => decide (0x20 ≤ c.toNat) && c != '"' && c != '\\'
  | .escape e => (escapes.lookup e).isSome
  | .unicode _ u => decide (u < 0x10000)
  | .pair _ high _ low =>
    decide (0xD800 ≤ high ∧ high < 0xDC00) && decide (0xDC00 ≤ low ∧ low < 0xE000)

/-- Whether an item is the escape of a low surrogate. -/
def StringItem.isLowSurrogate : StringItem → Bool
  | .unicode _ u => decide (0xDC00 ≤ u ∧ u < 0xE000)
  | _ => false

/-- Whether an item is the escape of a high surrogate. -/
def StringItem.isHighSurrogate : StringItem → Bool
  | .unicode _ u => decide (0xD800 ≤ u ∧ u < 0xDC00)
  | _ => false

/-- The item lists that are the reading of their text: every item admitted, and no
escape of a high surrogate directly before the escape of a low surrogate (the two
are a pair). -/
def stringItemsWellFormed : List StringItem → Bool
  | [] => true
  | i :: rest =>
    i.wellFormed && stringItemsWellFormed rest &&
      !(i.isHighSurrogate && (rest.head?.map StringItem.isLowSurrogate).getD false)

/-- The text of a string: the items between quotes. -/
def stringText (items : List StringItem) : List Char :=
  '"' :: items.flatMap StringItem.text ++ ['"']

/-- The string a list of items denotes. -/
def stringValue (items : List StringItem) : String :=
  ⟨items.map StringItem.value⟩

/-- The numeral of a number: the sign, the integer part, the digits of the fraction
when there is one, and the letter, sign and digits of the exponent when there is
one. -/
structure NumberText where
  negative : Bool
  int : List Char
  frac : Option (List Char)
  exp : Option (Char × List Char × List Char)

/-- The text of the fraction of a numeral. -/
def fractionText (frac : Option (List Char)) : List Char :=
  match frac with
  | none => []
  | some ds => '.' :: ds

/-- The text of the exponent of a numeral. -/
def exponentText (exp : Option (Char × List Char × List Char)) : List Char :=
  match exp with
  | none => []
  | some (e, sign, ds) => e :: sign ++ ds

/-- The text of a numeral. -/
def NumberText.text (n : NumberText) : List Char :=
  (if n.negative then ['-'] else []) ++ n.int ++ fractionText n.frac ++ exponentText n.exp

/-- The integer parts the grammar admits: `0`, or digits that do not start with
`0`. -/
def integerWellFormed (int : List Char) : Bool :=
  int == ['0'] ||
    (match int with
      | [] => false
      | c :: ds => c != '0' && allDigits (c :: ds))

/-- The fractions the grammar admits: at least one digit. -/
def fractionWellFormed (frac : Option (List Char)) : Bool :=
  match frac with
  | none => true
  | some ds => ds != [] && allDigits ds

/-- The exponents the grammar admits: `e` or `E`, an optional sign, at least one
digit. -/
def exponentWellFormed (exp : Option (Char × List Char × List Char)) : Bool :=
  match exp with
  | none => true
  | some (e, sign, ds) =>
    (e == 'e' || e == 'E') && (sign == [] || sign == ['+'] || sign == ['-'])
      && ds != [] && allDigits ds

/-- The numerals the grammar admits. -/
def NumberText.wellFormed (n : NumberText) : Bool :=
  integerWellFormed n.int && fractionWellFormed n.frac && exponentWellFormed n.exp

mutual
/-- A JSON text: one value, without white space around it. -/
inductive JsonText where
  | null
  | bool (b : Bool)
  | number (n : NumberText)
  | string (items : List StringItem)
  | emptyArray (ws : List Char)
  | array (elements : JsonElements)
  | emptyObject (ws : List Char)
  | object (members : JsonMembers)
/-- The elements of a non-empty array, each with the white space before and after
it; the elements are separated by commas. -/
inductive JsonElements where
  | last (pre : List Char) (v : JsonText) (post : List Char)
  | more (pre : List Char) (v : JsonText) (post : List Char) (rest : JsonElements)
/-- The members of a non-empty object: white space, the key, white space, a colon,
white space, the value, white space; the members are separated by commas. -/
inductive JsonMembers where
  | last (pre : List Char) (key : List StringItem) (mid : List Char)
      (pre2 : List Char) (v : JsonText) (post : List Char)
  | more (pre : List Char) (key : List StringItem) (mid : List Char)
      (pre2 : List Char) (v : JsonText) (post : List Char) (rest : JsonMembers)
end

mutual
/-- The text of a value. -/
def JsonText.text : JsonText → List Char
  | .null => ['n', 'u', 'l', 'l']
  | .bool true => ['t', 'r', 'u', 'e']
  | .bool false => ['f', 'a', 'l', 's', 'e']
  | .number n => n.text
  | .string items => stringText items
  | .emptyArray ws => '[' :: ws ++ [']']
  | .array elements => '[' :: elements.text ++ [']']
  | .emptyObject ws => '{' :: ws ++ ['}']
  | .object members => '{' :: members.text ++ ['}']
/-- The text of the elements of an array. -/
def JsonElements.text : JsonElements → List Char
  | .last pre v post => pre ++ v.text ++ post
  | .more pre v post rest => pre ++ v.text ++ post ++ ',' :: rest.text
/-- The text of the members of an object. -/
def JsonMembers.text : JsonMembers → List Char
  | .last pre key mid pre2 v post => pre ++ stringText key ++ mid ++ ':' :: pre2 ++ v.text ++ post
  | .more pre key mid pre2 v post rest =>
    pre ++ stringText key ++ mid ++ ':' :: pre2 ++ v.text ++ post ++ ',' :: rest.text
end

mutual
/-- The value a text denotes. -/
def JsonText.value : JsonText → Json
  | .null => .null
  | .bool b => .bool b
  | .number n => .num ⟨n.text⟩
  | .string items => .str (stringValue items)
  | .emptyArray _ => .arr []
  | .array elements => .arr elements.values
  | .emptyObject _ => .obj []
  | .object members => .obj members.values
/-- The values of the elements of an array, in order. -/
def JsonElements.values : JsonElements → List Json
  | .last _ v _ => [v.value]
  | .more _ v _ rest => v.value :: rest.values
/-- The members of an object, in order. -/
def JsonMembers.values : JsonMembers → List (String × Json)
  | .last _ key _ _ v _ => [(stringValue key, v.value)]
  | .more _ key _ _ v _ rest => (stringValue key, v.value) :: rest.values
end

mutual
/-- The trees the grammar admits: white space where white space is written, numerals
and strings as the grammar has them. -/
def JsonText.wellFormed : JsonText → Bool
  | .null => true
  | .bool _ => true
  | .number n => n.wellFormed
  | .string items => stringItemsWellFormed items
  | .emptyArray ws => isWhitespace ws
  | .array elements => elements.wellFormed
  | .emptyObject ws => isWhitespace ws
  | .object members => members.wellFormed
/-- The elements the grammar admits. -/
def JsonElements.wellFormed : JsonElements → Bool
  | .last pre v post => isWhitespace pre && v.wellFormed && isWhitespace post
  | .more pre v post rest =>
    isWhitespace pre && v.wellFormed && isWhitespace post && rest.wellFormed
/-- The members the grammar admits. -/
def JsonMembers.wellFormed : JsonMembers → Bool
  | .last pre key mid pre2 v post =>
    isWhitespace pre && stringItemsWellFormed key && isWhitespace mid && isWhitespace pre2
      && v.wellFormed && isWhitespace post
  | .more pre key mid pre2 v post rest =>
    isWhitespace pre && stringItemsWellFormed key && isWhitespace mid && isWhitespace pre2
      && v.wellFormed && isWhitespace post && rest.wellFormed
end

mutual
/-- The greatest number of arrays and objects of a text that are open at one
place. -/
def JsonText.nesting : JsonText → Nat
  | .null => 0
  | .bool _ => 0
  | .number _ => 0
  | .string _ => 0
  | .emptyArray _ => 1
  | .array elements => elements.nesting + 1
  | .emptyObject _ => 1
  | .object members => members.nesting + 1
/-- The greatest nesting of the elements of an array. -/
def JsonElements.nesting : JsonElements → Nat
  | .last _ v _ => v.nesting
  | .more _ v _ rest => max v.nesting rest.nesting
/-- The greatest nesting of the values of the members of an object. -/
def JsonMembers.nesting : JsonMembers → Nat
  | .last _ _ _ _ v _ => v.nesting
  | .more _ _ _ _ v _ rest => max v.nesting rest.nesting
end

/-- A document: `data` is the text of a JSON value `v`, with white space before and
after it, nested no deeper than 10000. -/
def JsonDocument (data : String) (v : Json) : Prop :=
  ∃ (pre : List Char) (doc : JsonText) (post : List Char),
    data.data = pre ++ doc.text ++ post ∧ isWhitespace pre = true ∧
      isWhitespace post = true ∧ doc.wellFormed = true ∧ doc.nesting ≤ 10000 ∧ doc.value = v

/-- What may stand after a value in a text: nothing, white space, a comma, or the
bracket or brace that closes the enclosing array or object. -/
def mayFollow (rest : List Char) : Bool :=
  match rest with
  | [] => true
  | c :: _ => (whitespace ++ [',', ']', '}']).contains c

/-- Whether two texts are the same, character by character. -/
def sameChars : List Char → List Char → Bool
  | [], [] => true
  | a :: as, b :: bs => a == b && sameChars as bs
  | _, _ => false

/-! ## Zone records

What a zone record is, written without reference to the decoder. -/

/-- Whether an object key is the name of a field, the case of letters left aside. -/
def keyMatches (name key : String) : Bool :=
  decide (key.data.map Char.toLower = name.data.map Char.toLower)

/-- Whether a value is `null`. -/
def Json.isNull : Json → Bool
  | .null => true
  | _ => false

/-- The values, `null` apart, of the members of an object whose key is the name of
the field, the case of letters left aside, in the order of the members. -/
def fieldValues (name : String) (members : List (String × Json)) : List Json :=
  ((members.filter fun kv => keyMatches name kv.1).map Prod.snd).filter fun v => !v.isNull

/-- The number written by a run of decimal digits, the most significant first. -/
def decimalValue (ds : List Char) : Nat :=
  Nat.ofDigits 10 (ds.reverse.map fun c => c.toNat - '0'.toNat)

/-- The literal of a number is an integer numeral that denotes `n`, within the range
of `int64`: an optional minus sign and at least one decimal digit. -/
def IntegerLiteral (lit : String) (n : Int) : Prop :=
  ∃ (negative : Bool) (ds : List Char),
    lit.data = (if negative then ['-'] else []) ++ ds ∧ ds ≠ [] ∧ allDigits ds = true ∧
      n = (if negative then -(decimalValue ds : Int) else (decimalValue ds : Int)) ∧
      -(2 : Int) ^ 63 ≤ n ∧ n < (2 : Int) ^ 63

/-- A zone record: a JSON object, given by its members, in which every member keyed
`Id` (in any letter case) is an integer numeral within the range of `int64` or is
`null`, and the last of the numerals denotes `zone.ID`; and every member keyed `Name`
(in any letter case) is a string or is `null`, and the last of the strings is
`zone.Name`.  The other members are free. -/
def ZoneRecord (members : List (String × Json)) (zone : bunnyPullZone) : Prop :=
  (∀ v ∈ fieldValues "Id" members, ∃ lit n, v = .num lit ∧ IntegerLiteral lit n) ∧
    (∃ lit, (fieldValues "Id" members).getLast? = some (.num lit) ∧
      IntegerLiteral lit zone.ID) ∧
    (∀ v ∈ fieldValues "Name" members, ∃ s, v = .str s) ∧
    (fieldValues "Name" members).getLast? = some (.str zone.Name)

/-! ## Auxiliary definitions for the statements -/

/-- The location appended by one iteration of the loop of `trafficLocations`, for
an entry whose key has at least one colon. -/
def entryLocation (kv : String × float64) : bunnyLocation :=
  { Region := (strings.Split kv.1 ':').headD ""
    Location := strings.TrimSpace ((strings.Split kv.1 ':').getD 1 "")
    Requests := kv.2 }

/-- What a scraper reads of a metric: name, constant labels, value, label values. -/
def Metric.summary (m : Metric) : String × List (String × String) × float64 × List String :=
  (m.desc.fqName, m.desc.constLabels, m.value, m.labelValues)

/-! ## Sample inputs -/

/-! Three zones; the first two are those of the test `TestPullZoneList`. -/

def zoneA : bunnyPullZone := { ID := 34567, Name := "pullzonename2" }
def zoneB : bunnyPullZone := { ID := 12345, Name := "pullzonename" }
def zoneC : bunnyPullZone := { ID := 777, Name := "pullzonename3" }

/-- A statistics snapshot in which every series has one entry. -/
def sampleStatistics : bunnyStatistics :=
  { OriginResponseTime := [("2019-05-02T00:00:00Z", 35)]
    BandwidthUsed := [("2019-05-02T00:00:00Z", 28639956)]
    BandwidthCached := [("2019-05-02T00:00:00Z", 123)]
    CacheHitRate := [("2019-05-02T00:00:00Z", 0)]
    RequestsServed := [("2019-05-02T00:00:00Z", 1261)]
    PullRequestsPulled := [("2019-05-02T00:00:00Z", 7)]
    UserBalanceHistory := [("2019-05-02T00:37:51", 1000)]
    UserStorageUsed := [("2019-05-02T09:35:02", 42)]
    GeoTrafficDistribution := [("EU: London, UK", 6040860)]
    Error3Xx := [("2019-05-02T00:00:00Z", 3)]
    Error4Xx := [("2019-05-02T00:00:00Z", 4)]
    Error5Xx := [("2019-05-02T00:00:00Z", 5)] }

/-- A platform whose clock shows 2 May 2019 and whose decoder knows five bodies:
one statistics document and four zone listings.  Every other body (such as the text
`error`) is rejected with a syntax error, which leaves the target at its zero
value. -/
def samplePlatform : Platform :=
  { today := fun _ => "2019-05-02"
    unmarshalStatistics := fun body =>
      if body = "statistics" then (sampleStatistics, none)
      else (bunnyStatistics.zero, some "invalid character")
    unmarshalPullZones := fun body =>
      if body = "three zones" then ([zoneA, zoneB, zoneC], none)
      else if body = "two zones" then ([zoneA, zoneB], none)
      else if body = "one zone" then ([zoneA], none)
      else if body = "no zone" then ([], none)
      else ([], some "invalid character") }

/-- The path of the statistics request for one zone on 2 May 2019. -/
def sampleStatisticsPath (pz : bunnyPullZone) : String :=
  "/statistics?dateFrom=2019-05-02&dateTo=2019-05-02&loadErrors=true&pullZone="
    ++ toString pz.ID

/-- An exporter built as `main` builds it, against a remote side that answers the
listing request with the given body and every other request as `statistics` says. -/
def sampleExporter (listing : String) (statistics : String → Except GoError ReadCloser) :
    Exporter :=
  { fetch := fun _ path =>
      if path = "/pullzone" then .ok { data := listing, err := none } else statistics path
    accountMetrics := accountMetrics
    pullZoneMetrics := pullZoneMetrics }

/-- Three zones; the statistics request of the second one gets HTTP status 500. -/
def secondZoneFails : Exporter :=
  sampleExporter "three zones" fun path =>
    if path = sampleStatisticsPath zoneB then .error "HTTP status 500"
    else .ok { data := "statistics", err := none }

/-- One zone, whose statistics request gets HTTP status 500. -/
def oneZoneFails : Exporter :=
  sampleExporter "one zone" fun _ => .error "HTTP status 500"

/-- One zone, whose statistics request is answered with a body that is not JSON. -/
def oneZoneUndecodable : Exporter :=
  sampleExporter "one zone" fun _ => .ok { data := "error", err := none }

/-- One zone, whose statistics request is answered with the sample document. -/
def oneZoneServed : Exporter :=
  sampleExporter "one zone" fun _ => .ok { data := "statistics", err := none }

/-- No zone; the account-wide statistics request is answered with a body that is
not JSON. -/
def noZoneUndecodable : Exporter :=
  sampleExporter "no zone" fun _ => .ok { data := "error", err := none }

/-- No zone; the account-wide statistics request is answered with the sample
document. -/
def noZoneServed : Exporter :=
  sampleExporter "no zone" fun _ => .ok { data := "statistics", err := none }

/-- Two zones; the statistics request of the first is answered with the sample
document, that of the second with a body that is not JSON. -/
def secondZoneUndecodable : Exporter :=
  sampleExporter "two zones" fun path =>
    if path = sampleStatisticsPath zoneB then .ok { data := "error", err := none }
    else .ok { data := "statistics", err := none }

/-- The state before the first scrape. -/
def State.initial : State :=
  { totalScrapes := 0, totalErrors := 0, totalAPICalls := 0, ch := [], requests := [] }

/-- The geo-traffic map of the statistics document of the test `TestStatistics`:
eight entries with distinct keys. -/
def sampleGeoTraffic : SeriesMap :=
  [ ("EU: London, UK", 6040860), ("NA: Los Angeles, CA", 5719265),
    ("NA: Atlanta, GA", 2864106), ("NA: New York City, NY", 2861460),
    ("EU: Amsterdam, NL", 2566343), ("NA: Chicago, IL", 2864106),
    ("EU: Oslo, NO", 2884170), ("EU: Frankfurt, DE", 2839646) ]

/-- The body of the test `TestPullZoneList`: a JSON array of two zone records. -/
def pullZonesBody : String :=
    "[\x7b\"Id\": 34567,\"Name\": \"pullzonename2\",\"OriginUrl\": \"https://storage.googleapis.com/gcs-bucket-example\"," ++
    "\"Enabled\": true,\"Hostnames\": [\x7b\"Id\": 43217," ++
    "\"Value\": \"pullzonename2.b-cdn.net\",\"ForceSSL\": true," ++
    "\"IsSystemHostname\": true,\"HasCertificate\": true\x7d]," ++
    "\"StorageZoneId\": 0,\"AllowedReferrers\": []," ++
    "\"BlockedReferrers\": [],\"BlockedIps\": []," ++
    "\"EnableGeoZoneUS\": true,\"EnableGeoZoneEU\": true," ++
    "\"EnableGeoZoneASIA\": true,\"EnableGeoZoneSA\": true," ++
    "\"EnableGeoZoneAF\": true,\"ZoneSecurityEnabled\": false," ++
    "\"ZoneSecurityKey\": \"72730e8f-08ff-4db3-8fa7-965097a1755f\"," ++
    "\"ZoneSecurityIncludeHashRemoteIP\": false," ++
    "\"IgnoreQueryStrings\": true,\"MonthlyBandwidthLimit\": 0," ++
    "\"MonthlyBandwidthUsed\": 74309996,\"MonthlyCharges\": 0.000831675729999988," ++
    "\"AddHostHeader\": false,\"Type\": 0,\"CustomNginxConfig\": \"\"," ++
    "\"AccessControlOriginHeaderExtensions\": [\"eot\"," ++
    "\"ttf\",\"woff\",\"woff2\",\"css\"],\"EnableAccessControlOriginHeader\": true," ++
    "\"DisableCookies\": true,\"BudgetRedirectedCountries\": []," ++
    "\"BlockedCountries\": [],\"EnableOriginShield\": false," ++
    "\"CacheControlMaxAgeOverride\": -1,\"BurstSize\": 0," ++
    "\"RequestLimit\": 0,\"BlockRootPathAccess\": false," ++
    "\"CacheQuality\": 75,\"LimitRatePerSecond\": 0," ++
    "\"LimitRateAfter\": 0,\"ConnectionLimitPerIPCount\": 0," ++
    "\"PriceOverride\": 0,\"AddCanonicalHeader\": false," ++
    "\"EnableLogging\": true,\"IgnoreVaryHeader\": true," ++
    "\"EnableCacheSlice\": false,\"EdgeRules\": [\x7b\"Guid\": \"82730e8f-08ff-4db3-8fa7-965097a1755f\"," ++
    "\"ActionType\": 2,\"ActionParameter1\": \"https://storage.googleapis.com/gcs-bucket/folder/\"," ++
    "\"ActionParameter2\": \"\",\"Triggers\": [\x7b\"Type\": 0," ++
    "\"PatternMatches\": [\"https://pullzonename2.b-cdn.net/folder/*\"]," ++
    "\"PatternMatchingType\": 0,\"Parameter1\": \"\"\x7d]," ++
    "\"TriggerMatchingType\": 0,\"Description\": \"models\"," ++
    "\"Enabled\": true\x7d],\"EnableWebPVary\": false," ++
    "\"EnableCountryCodeVary\": false,\"EnableMobileVary\": false," ++
    "\"EnableHostnameVary\": false,\"CnameDomain\": \"b-cdn.net\"\x7d," ++
    "\x7b\"Id\": 12345,\"Name\": \"pullzonename\",\"OriginUrl\": \"http://origin.url.com\"," ++
    "\"Enabled\": true,\"Hostnames\": [\x7b\"Id\": 54321," ++
    "\"Value\": \"pullzonename.b-cdn.net\",\"ForceSSL\": false," ++
    "\"IsSystemHostname\": true,\"HasCertificate\": true\x7d]," ++
    "\"StorageZoneId\": 0,\"AllowedReferrers\": []," ++
    "\"BlockedReferrers\": [],\"BlockedIps\": []," ++
    "\"EnableGeoZoneUS\": true,\"EnableGeoZoneEU\": true," ++
    "\"EnableGeoZoneASIA\": true,\"EnableGeoZoneSA\": true," ++
    "\"EnableGeoZoneAF\": true,\"ZoneSecurityEnabled\": false," ++
    "\"ZoneSecurityKey\": \"92730e8f-08ff-4db3-8fa7-965097a1755f\"," ++
    "\"ZoneSecurityIncludeHashRemoteIP\": false," ++
    "\"IgnoreQueryStrings\": true,\"MonthlyBandwidthLimit\": 0," ++
    "\"MonthlyBandwidthUsed\": 0,\"MonthlyCharges\": 0," ++
    "\"AddHostHeader\": false,\"Type\": 0,\"CustomNginxConfig\": \"\"," ++
    "\"AccessControlOriginHeaderExtensions\": [\"eot\"," ++
    "\"ttf\",\"woff\",\"woff2\",\"css\"],\"EnableAccessControlOriginHeader\": true," ++
    "\"DisableCookies\": true,\"BudgetRedirectedCountries\": []," ++
    "\"BlockedCountries\": [],\"EnableOriginShield\": false," ++
    "\"CacheControlMaxAgeOverride\": -1,\"BurstSize\": 0," ++
    "\"RequestLimit\": 0,\"BlockRootPathAccess\": false," ++
    "\"CacheQuality\": 75,\"LimitRatePerSecond\": 0," ++
    "\"LimitRateAfter\": 0,\"ConnectionLimitPerIPCount\": 0," ++
    "\"PriceOverride\": 0,\"AddCanonicalHeader\": false," ++
    "\"EnableLogging\": true,\"IgnoreVaryHeader\": true," ++
    "\"EnableCacheSlice\": false,\"EdgeRules\": []," ++
    "\"EnableWebPVary\": false,\"EnableCountryCodeVary\": false," ++
    "\"EnableMobileVary\": false,\"EnableHostnameVary\": false," ++
    "\"CnameDomain\": \"b-cdn.net\"\x7d]"

/-- The members of the two records of `pullZonesBody`, as the JSON grammar reads
them. -/
def pullZonesRecords : List (List (String × Json)) :=
  [ [ ("Id", .num "34567"),
      ("Name", .str "pullzonename2"),
      ("OriginUrl", .str "https://storage.googleapis.com/gcs-bucket-example"),
      ("Enabled", .bool true),
      ("Hostnames", .arr
          [ .obj
              [ ("Id", .num "43217"),
                ("Value", .str "pullzonename2.b-cdn.net"),
                ("ForceSSL", .bool true),
                ("IsSystemHostname", .bool true),
                ("HasCertificate", .bool true) ] ]),
      ("StorageZoneId", .num "0"),
      ("AllowedReferrers", .arr []),
      ("BlockedReferrers", .arr []),
      ("BlockedIps", .arr []),
      ("EnableGeoZoneUS", .bool true),
      ("EnableGeoZoneEU", .bool true),
      ("EnableGeoZoneASIA", .bool true),
      ("EnableGeoZoneSA", .bool true),
      ("EnableGeoZoneAF", .bool true),
      ("ZoneSecurityEnabled", .bool false),
      ("ZoneSecurityKey", .str "72730e8f-08ff-4db3-8fa7-965097a1755f"),
      ("ZoneSecurityIncludeHashRemoteIP", .bool false),
      ("IgnoreQueryStrings", .bool true),
      ("MonthlyBandwidthLimit", .num "0"),
      ("MonthlyBandwidthUsed", .num "74309996"),
      ("MonthlyCharges", .num "0.000831675729999988"),
      ("AddHostHeader", .bool false),
      ("Type", .num "0"),
      ("CustomNginxConfig", .str ""),
      ("AccessControlOriginHeaderExtensions", .arr
          [ .str "eot",
            .str "ttf",
            .str "woff",
            .str "woff2",
            .str "css" ]),
      ("EnableAccessControlOriginHeader", .bool true),
      ("DisableCookies", .bool true),
      ("BudgetRedirectedCountries", .arr []),
      ("BlockedCountries", .arr []),
      ("EnableOriginShield", .bool false),
      ("CacheControlMaxAgeOverride", .num "-1"),
      ("BurstSize", .num "0"),
      ("RequestLimit", .num "0"),
      ("BlockRootPathAccess", .bool false),
      ("CacheQuality", .num "75"),
      ("LimitRatePerSecond", .num "0"),
      ("LimitRateAfter", .num "0"),
      ("ConnectionLimitPerIPCount", .num "0"),
      ("PriceOverride", .num "0"),
      ("AddCanonicalHeader", .bool false),
      ("EnableLogging", .bool true),
      ("IgnoreVaryHeader", .bool true),
      ("EnableCacheSlice", .bool false),
      ("EdgeRules", .arr
          [ .obj
              [ ("Guid", .str "82730e8f-08ff-4db3-8fa7-965097a1755f"),
                ("ActionType", .num "2"),
                ("ActionParameter1", .str "https://storage.googleapis.com/gcs-bucket/folder/"),
                ("ActionParameter2", .str ""),
                ("Triggers", .arr
                  [ .obj
                      [ ("Type", .num "0"),
                        ("PatternMatches", .arr
                          [ .str "https://pullzonename2.b-cdn.net/folder/*" ]),
                        ("PatternMatchingType", .num "0"),
                        ("Parameter1", .str "") ] ]),
                ("TriggerMatchingType", .num "0"),
                ("Description", .str "models"),
                ("Enabled", .bool true) ] ]),
      ("EnableWebPVary", .bool false),
      ("EnableCountryCodeVary", .bool false),
      ("EnableMobileVary", .bool false),
      ("EnableHostnameVary", .bool false),
      ("CnameDomain", .str "b-cdn.net") ],
    [ ("Id", .num "12345"),
      ("Name", .str "pullzonename"),
      ("OriginUrl", .str "http://origin.url.com"),
      ("Enabled", .bool true),
      ("Hostnames", .arr
          [ .obj
              [ ("Id", .num "54321"),
                ("Value", .str "pullzonename.b-cdn.net"),
                ("ForceSSL", .bool false),
                ("IsSystemHostname", .bool true),
                ("HasCertificate", .bool true) ] ]),
      ("StorageZoneId", .num "0"),
      ("AllowedReferrers", .arr []),
      ("BlockedReferrers", .arr []),
      ("BlockedIps", .arr []),
      ("EnableGeoZoneUS", .bool true),
      ("EnableGeoZoneEU", .bool true),
      ("EnableGeoZoneASIA", .bool true),
      ("EnableGeoZoneSA", .bool true),
      ("EnableGeoZoneAF", .bool true),
      ("ZoneSecurityEnabled", .bool false),
      ("ZoneSecurityKey", .str "92730e8f-08ff-4db3-8fa7-965097a1755f"),
      ("ZoneSecurityIncludeHashRemoteIP", .bool false),
      ("IgnoreQueryStrings", .bool true),
      ("MonthlyBandwidthLimit", .num "0"),
      ("MonthlyBandwidthUsed", .num "0"),
      ("MonthlyCharges", .num "0"),
      ("AddHostHeader", .bool false),
      ("Type", .num "0"),
      ("CustomNginxConfig", .str ""),
      ("AccessControlOriginHeaderExtensions", .arr
          [ .str "eot",
            .str "ttf",
            .str "woff",
            .str "woff2",
            .str "css" ]),
      ("EnableAccessControlOriginHeader", .bool true),
      ("DisableCookies", .bool true),
      ("BudgetRedirectedCountries", .arr []),
      ("BlockedCountries", .arr []),
      ("EnableOriginShield", .bool false),
      ("CacheControlMaxAgeOverride", .num "-1"),
      ("BurstSize", .num "0"),
      ("RequestLimit", .num "0"),
      ("BlockRootPathAccess", .bool false),
      ("CacheQuality", .num "75"),
      ("LimitRatePerSecond", .num "0"),
      ("LimitRateAfter", .num "0"),
      ("ConnectionLimitPerIPCount", .num "0"),
      ("PriceOverride", .num "0"),
      ("AddCanonicalHeader", .bool false),
      ("EnableLogging", .bool true),
      ("IgnoreVaryHeader", .bool true),
      ("EnableCacheSlice", .bool false),
      ("EdgeRules", .arr []),
      ("EnableWebPVary", .bool false),
      ("EnableCountryCodeVary", .bool false),
      ("EnableMobileVary", .bool false),
      ("EnableHostnameVary", .bool false),
      ("CnameDomain", .str "b-cdn.net") ] ]

/-- The sample platform with the decoder of the zone listing in place. -/
def jsonPlatform : Platform :=
  { samplePlatform with unmarshalPullZones := json.unmarshalPullZones }

/-- A remote side that answers the listing request with the given body, as the
handler of the tests does. -/
def listingServer (body : String) : List String → String → Except GoError ReadCloser :=
  fun _ path =>
    if path = "/pullzone" then .ok { data := body, err := none }
    else .ok { data := "error", err := none }

/-- A string written without escapes. -/
def plainString (s : String) : JsonText :=
  .string (s.data.map StringItem.plain)

/-- An integer numeral. -/
def integerNumber (negative : Bool) (int : String) : JsonText :=
  .number { negative := negative, int := int.data, frac := none, exp := none }

/-- A numeral with a fraction. -/
def decimalNumber (negative : Bool) (int frac : String) : JsonText :=
  .number { negative := negative, int := int.data, frac := some frac.data, exp := none }

/-- The elements of an array written without white space. -/
def compactElements : JsonText → List JsonText → JsonElements
  | v, [] => .last [] v []
  | v, w :: rest => .more [] v [] (compactElements w rest)

/-- An array written without white space. -/
def compactArray (elements : List JsonText) : JsonText :=
  match elements with
  | [] => .emptyArray []
  | v :: rest => .array (compactElements v rest)

/-- The members of an object written with one space after each colon and no other
white space, the keys without escapes. -/
def compactMembers : String × JsonText → List (String × JsonText) → JsonMembers
  | kv, [] => .last [] (kv.1.data.map StringItem.plain) [] [' '] kv.2 []
  | kv, m :: rest =>
    .more [] (kv.1.data.map StringItem.plain) [] [' '] kv.2 [] (compactMembers m rest)

/-- An object written with one space after each colon and no other white space. -/
def compactObject (members : List (String × JsonText)) : JsonText :=
  match members with
  | [] => .emptyObject []
  | kv :: rest => .object (compactMembers kv rest)

/-- The syntax tree of `pullZonesBody`. -/
def pullZonesDocument : JsonText :=
  compactArray
      [ compactObject
          [ ("Id", integerNumber false "34567"),
            ("Name", plainString "pullzonename2"),
            ("OriginUrl", plainString "https://storage.googleapis.com/gcs-bucket-example"),
            ("Enabled", .bool true),
            ("Hostnames", compactArray
              [ compactObject
                  [ ("Id", integerNumber false "43217"),
                    ("Value", plainString "pullzonename2.b-cdn.net"),
                    ("ForceSSL", .bool true),
                    ("IsSystemHostname", .bool true),
                    ("HasCertificate", .bool true) ] ]),
            ("StorageZoneId", integerNumber false "0"),
            ("AllowedReferrers", compactArray []),
            ("BlockedReferrers", compactArray []),
            ("BlockedIps", compactArray []),
            ("EnableGeoZoneUS", .bool true),
            ("EnableGeoZoneEU", .bool true),
            ("EnableGeoZoneASIA", .bool true),
            ("EnableGeoZoneSA", .bool true),
            ("EnableGeoZoneAF", .bool true),
            ("ZoneSecurityEnabled", .bool false),
            ("ZoneSecurityKey", plainString "72730e8f-08ff-4db3-8fa7-965097a1755f"),
            ("ZoneSecurityIncludeHashRemoteIP", .bool false),
            ("IgnoreQueryStrings", .bool true),
            ("MonthlyBandwidthLimit", integerNumber false "0"),
            ("MonthlyBandwidthUsed", integerNumber false "74309996"),
            ("MonthlyCharges", decimalNumber false "0" "000831675729999988"),
            ("AddHostHeader", .bool false),
            ("Type", integerNumber false "0"),
            ("CustomNginxConfig", plainString ""),
            ("AccessControlOriginHeaderExtensions", compactArray
              [ plainString "eot",
                plainString "ttf",
                plainString "woff",
                plainString "woff2",
                plainString "css" ]),
            ("EnableAccessControlOriginHeader", .bool true),
            ("DisableCookies", .bool true),
            ("BudgetRedirectedCountries", compactArray []),
            ("BlockedCountries", compactArray []),
            ("EnableOriginShield", .bool false),
            ("CacheControlMaxAgeOverride", integerNumber true "1"),
            ("BurstSize", integerNumber false "0"),
            ("RequestLimit", integerNumber false "0"),
            ("BlockRootPathAccess", .bool false),
            ("CacheQuality", integerNumber false "75"),
            ("LimitRatePerSecond", integerNumber false "0"),
            ("LimitRateAfter", integerNumber false "0"),
            ("ConnectionLimitPerIPCount", integerNumber false "0"),
            ("PriceOverride", integerNumber false "0"),
            ("AddCanonicalHeader", .bool false),
            ("EnableLogging", .bool true),
            ("IgnoreVaryHeader", .bool true),
            ("EnableCacheSlice", .bool false),
            ("EdgeRules", compactArray
              [ compactObject
                  [ ("Guid", plainString "82730e8f-08ff-4db3-8fa7-965097a1755f"),
                    ("ActionType", integerNumber false "2"),
                    ("ActionParameter1", plainString "https://storage.googleapis.com/gcs-bucket/folder/"),
                    ("ActionParameter2", plainString ""),
                    ("Triggers", compactArray
                      [ compactObject
                          [ ("Type", integerNumber false "0"),
                            ("PatternMatches", compactArray
                              [ plainString "https://pullzonename2.b-cdn.net/folder/*" ]),
                            ("PatternMatchingType", integerNumber false "0"),
                            ("Parameter1", plainString "") ] ]),
                    ("TriggerMatchingType", integerNumber false "0"),
                    ("Description", plainString "models"),
                    ("Enabled", .bool true) ] ]),
            ("EnableWebPVary", .bool false),
            ("EnableCountryCodeVary", .bool false),
            ("EnableMobileVary", .bool false),
            ("EnableHostnameVary", .bool false),
            ("CnameDomain", plainString "b-cdn.net") ],
        compactObject
          [ ("Id", integerNumber false "12345"),
            ("Name", plainString "pullzonename"),
            ("OriginUrl", plainString "http://origin.url.com"),
            ("Enabled", .bool true),
            ("Hostnames", compactArray
              [ compactObject
                  [ ("Id", integerNumber false "54321"),
                    ("Value", plainString "pullzonename.b-cdn.net"),
                    ("ForceSSL", .bool false),
                    ("IsSystemHostname", .bool true),
                    ("HasCertificate", .bool true) ] ]),
            ("StorageZoneId", integerNumber false "0"),
            ("AllowedReferrers", compactArray []),
            ("BlockedReferrers", compactArray []),
            ("BlockedIps", compactArray []),
            ("EnableGeoZoneUS", .bool true),
            ("EnableGeoZoneEU", .bool true),
            ("EnableGeoZoneASIA", .bool true),
            ("EnableGeoZoneSA", .bool true),
            ("EnableGeoZoneAF", .bool true),
            ("ZoneSecurityEnabled", .bool false),
            ("ZoneSecurityKey", plainString "92730e8f-08ff-4db3-8fa7-965097a1755f"),
            ("ZoneSecurityIncludeHashRemoteIP", .bool false),
            ("IgnoreQueryStrings", .bool true),
            ("MonthlyBandwidthLimit", integerNumber false "0"),
            ("MonthlyBandwidthUsed", integerNumber false "0"),
            ("MonthlyCharges", integerNumber false "0"),
            ("AddHostHeader", .bool false),
            ("Type", integerNumber false "0"),
            ("CustomNginxConfig", plainString ""),
            ("AccessControlOriginHeaderExtensions", compactArray
              [ plainString "eot",
                plainString "ttf",
                plainString "woff",
                plainString "woff2",
                plainString "css" ]),
            ("EnableAccessControlOriginHeader", .bool true),
            ("DisableCookies", .bool true),
            ("BudgetRedirectedCountries", compactArray []),
            ("BlockedCountries", compactArray []),
            ("EnableOriginShield", .bool false),
            ("CacheControlMaxAgeOverride", integerNumber true "1"),
            ("BurstSize", integerNumber false "0"),
            ("RequestLimit", integerNumber false "0"),
            ("BlockRootPathAccess", .bool false),
            ("CacheQuality", integerNumber false "75"),
            ("LimitRatePerSecond", integerNumber false "0"),
            ("LimitRateAfter", integerNumber false "0"),
            ("ConnectionLimitPerIPCount", integerNumber false "0"),
            ("PriceOverride", integerNumber false "0"),
            ("AddCanonicalHeader", .bool false),
            ("EnableLogging", .bool true),
            ("IgnoreVaryHeader", .bool true),
            ("EnableCacheSlice", .bool false),
            ("EdgeRules", compactArray []),
            ("EnableWebPVary", .bool false),
            ("EnableCountryCodeVary", .bool false),
            ("EnableMobileVary", .bool false),
            ("EnableHostnameVary", .bool false),
            ("CnameDomain", plainString "b-cdn.net") ] ]

/-- A listing of one zone record with a second member keyed `id`. -/
def caseVariantBody : String := "[\x7b\"Id\":1,\"Name\":\"a\",\"id\":2\x7d]"

/-- The syntax tree of `caseVariantBody`. -/
def caseVariantDocument : JsonText :=
  .array (.last []
    (.object
      (.more [] [.plain 'I', .plain 'd'] [] [] (integerNumber false "1") []
        (.more [] [.plain 'N', .plain 'a', .plain 'm', .plain 'e'] [] []
          (plainString "a") []
          (.last [] [.plain 'i', .plain 'd'] [] [] (integerNumber false "2") []))))
    [])

/-! ## Splitting a key at its colons -/

theorem splitChars_ne_nil (sep : Char) (s : List Char) : splitChars sep s ≠ [] := by
  cases s with
  | nil => simp [splitChars]
  | cons c cs =>
    simp only [splitChars]
    split
    · simp
    · split <;> simp

theorem splitChars_of_not_mem (sep : Char) (s : List Char) (h : sep ∉ s) :
    splitChars sep s = [s] := by
  induction s with
  | nil => rfl
  | cons c cs ih =>
    have hc : c ≠ sep := fun hc => h (hc ▸ List.mem_cons_self _ _)
    have hcs : sep ∉ cs := fun hm => h (List.mem_cons_of_mem _ hm)
    simp [splitChars, hc, ih hcs]

theorem splitChars_append_sep (sep : Char) (r l : List Char) (h : sep ∉ r) :
    splitChars sep (r ++ sep :: l) = r :: splitChars sep l := by
  induction r with
  | nil => simp [splitChars]
  | cons c cs ih =>
    have hc : c ≠ sep := fun hc => h (hc ▸ List.mem_cons_self _ _)
    have hcs : sep ∉ cs := fun hm => h (List.mem_cons_of_mem _ hm)
    simp [splitChars, hc, ih hcs]

theorem splitChars_two_parts (sep : Char) (s : List Char) (h : sep ∈ s) :
    ∃ p0 p1 ps, splitChars sep s = p0 :: p1 :: ps := by
  induction s with
  | nil => simp at h
  | cons c cs ih =>
    by_cases hc : c = sep
    · cases hcs : splitChars sep cs with
      | nil => exact absurd hcs (splitChars_ne_nil sep cs)
      | cons q qs => exact ⟨[], q, qs, by simp [splitChars, hc, hcs]⟩
    · have hcs : sep ∈ cs := by
        rcases List.mem_cons.mp h with h1 | h1
        · exact absurd h1.symm hc
        · exact h1
      obtain ⟨p0, p1, ps, hp⟩ := ih hcs
      exact ⟨c :: p0, p1, ps, by simp [splitChars, hc, hp]⟩

/-- When every key has a colon the loop of `trafficLocations` runs to its end and
appends one location per entry, in iteration order. -/
theorem trafficLocationsLoop_ok (m : SeriesMap) (locations : List bunnyLocation)
    (h : ∀ kv ∈ m, ':' ∈ kv.1.data) :
    trafficLocationsLoop m locations = .ok (locations ++ m.map entryLocation) := by
  induction m generalizing locations with
  | nil => simp [trafficLocationsLoop]
  | cons kv rest ih =>
    obtain ⟨loc, req⟩ := kv
    obtain ⟨p0, p1, ps, hp⟩ :=
      splitChars_two_parts ':' loc.data (h (loc, req) (List.mem_cons_self _ _))
    have hs : strings.Split loc ':' = String.mk p0 :: String.mk p1 :: ps.map String.mk := by
      simp [strings.Split, hp]
    have hrest : ∀ kv ∈ rest, ':' ∈ kv.1.data :=
      fun kv hkv => h kv (List.mem_cons_of_mem _ hkv)
    simp [trafficLocationsLoop, hs, ih _ hrest, entryLocation]

/-- The location built from a key with exactly one colon. -/
theorem entryLocation_single_colon (r l : String) (req : float64)
    (hr : ':' ∉ r.data) (hl : ':' ∉ l.data) :
    entryLocation (r ++ ":" ++ l, req) =
      { Region := r, Location := strings.TrimSpace l, Requests := req } := by
  have hd : (r ++ ":" ++ l).data = r.data ++ ':' :: l.data := by
    simp [String.data_append]
  simp [entryLocation, strings.Split, hd, splitChars_append_sep _ _ _ hr,
    splitChars_of_not_mem _ _ hl]

/-! ## C1: `trafficLocations` on one entry -/

/-- C1, as the code has it.  In a geo-traffic map all of whose keys contain a colon,
an entry whose key is `r`, one colon, `l` (no colon in `r` or in `l`) gives a location
whose Region is `r` as written, whose Location is `l` with surrounding white space
trimmed and whose Requests is the value of the entry. -/
theorem trafficLocations_single_colon_entry (s : bunnyStatistics) (r l : String)
    (req : float64)
    (hkeys : ∀ kv ∈ s.GeoTrafficDistribution, ':' ∈ kv.1.data)
    (hr : ':' ∉ r.data) (hl : ':' ∉ l.data)
    (hmem : (r ++ ":" ++ l, req) ∈ s.GeoTrafficDistribution) :
    ∃ locs, s.trafficLocations = .ok locs ∧
      ({ Region := r, Location := strings.TrimSpace l, Requests := req } : bunnyLocation)
        ∈ locs := by
  refine ⟨s.GeoTrafficDistribution.map entryLocation, ?_, ?_⟩
  · simpa [bunnyStatistics.trafficLocations] using
      trafficLocationsLoop_ok s.GeoTrafficDistribution [] hkeys
  · rw [← entryLocation_single_colon r l req hr hl]
    exact List.mem_map_of_mem _ hmem

/-- C1 at the key of the test `TestTrafficLocationSplit`: `EU: London, UK` with
6040860 requests gives Region `EU`, Location `London, UK`, Requests 6040860. -/
theorem trafficLocations_london :
    (("EU" : String) ++ ":" ++ " London, UK" = "EU: London, UK") ∧
      (∀ kv ∈ [(("EU" : String) ++ ":" ++ " London, UK", (6040860 : float64))],
        ':' ∈ kv.1.data) ∧
      ':' ∉ ("EU" : String).data ∧ ':' ∉ (" London, UK" : String).data ∧
      strings.TrimSpace " London, UK" = "London, UK" ∧
      ∃ locs,
        bunnyStatistics.trafficLocations
            { bunnyStatistics.zero with
              GeoTrafficDistribution := [("EU" ++ ":" ++ " London, UK", 6040860)] }
          = .ok locs ∧
        ({ Region := "EU", Location := strings.TrimSpace " London, UK",
           Requests := 6040860 } : bunnyLocation) ∈ locs :=
  ⟨by decide, by decide, by decide, by decide, by decide,
    trafficLocations_single_colon_entry
      { bunnyStatistics.zero with
        GeoTrafficDistribution := [("EU" ++ ":" ++ " London, UK", 6040860)] }
      "EU" " London, UK" 6040860 (by decide) (by decide) (by decide)
      (List.mem_singleton.mpr rfl)⟩

/-- C1 as stated fails in three ways.  A Region written with white space around it
is kept untrimmed (`EU : Oslo` gives Region `EU` followed by a space); a Location
that contains a colon is cut at that colon (`NA: New York: NY` gives Location
`New York`, not `New York: NY`); and an entry with a well-formed key gives no
location at all when another key of the map has no colon, because the call panics. -/
theorem trafficLocations_splits_at_every_colon :
    bunnyStatistics.trafficLocations
        { bunnyStatistics.zero with
          GeoTrafficDistribution := [("EU : Oslo", 2884170), ("NA: New York: NY", 2861460)] }
      = .ok [ { Region := "EU ", Location := "Oslo", Requests := 2884170 },
              { Region := "NA", Location := "New York", Requests := 2861460 } ] ∧
    strings.TrimSpace "EU " = "EU" ∧ ("EU " : String) ≠ "EU" ∧
    strings.TrimSpace " New York: NY" = "New York: NY" ∧
    ("New York" : String) ≠ "New York: NY" ∧
    bunnyStatistics.trafficLocations
        { bunnyStatistics.zero with
          GeoTrafficDistribution := [("EU: London, UK", 6040860), ("unknown", 1)] }
      = .error .indexOutOfRange :=
  ⟨rfl, by decide, by decide, by decide, by decide, rfl⟩

/-! ## C2: `extractFromMap` -/

/-- C2.  `extractFromMap` returns `-1` on the empty map, the value of some entry of
the map on every other map, and the value of the entry on a map with one entry; on
the series of the test `TestStatistics` it returns 28639956. -/
theorem extractFromMap_spec :
    extractFromMap [] = -1 ∧
      (∀ data : SeriesMap, data ≠ [] → ∃ kv ∈ data, extractFromMap data = kv.2) ∧
      (∀ (k : String) (v : float64), extractFromMap [(k, v)] = v) ∧
      extractFromMap [("2019-05-02T00:00:00Z", 28639956)] = 28639956 := by
  refine ⟨rfl, ?_, fun _ _ => rfl, rfl⟩
  intro data hdata
  cases data with
  | nil => exact absurd rfl hdata
  | cons kv rest => exact ⟨kv, List.mem_cons_self _ _, rfl⟩

/-- C2 on a series with two entries: the value returned is that of an entry. -/
theorem extractFromMap_spec_two_entries :
    ([("2019-05-02T00:00:00Z", 28639956), ("2019-05-03T00:00:00Z", 7)] : SeriesMap) ≠ [] ∧
      ∃ kv ∈ ([("2019-05-02T00:00:00Z", 28639956), ("2019-05-03T00:00:00Z", 7)] : SeriesMap),
        extractFromMap [("2019-05-02T00:00:00Z", 28639956), ("2019-05-03T00:00:00Z", 7)]
          = kv.2 :=
  ⟨by simp, extractFromMap_spec.2.1 _ (by simp)⟩

/-! ## Facts about the parts of `scrape` -/

theorem perm_pair {α : Type} (l : List α) (a b : α) (h : l.Perm [a, b]) :
    l = [a, b] ∨ l = [b, a] := by
  have hlen := h.length_eq
  match l, hlen with
  | [x, y], _ =>
    have hx : x ∈ [a, b] := h.subset (List.mem_cons_self _ _)
    rcases List.mem_cons.mp hx with hxa | hxb
    · subst hxa
      have := List.perm_singleton.mp (List.Perm.cons_inv h)
      left; simpa using this
    · have hxb : x = b := by simpa using hxb
      subst hxb
      have h2 : [x, y].Perm [x, a] := h.trans (List.Perm.swap _ _ _)
      have := List.perm_singleton.mp (List.Perm.cons_inv h2)
      right; simpa using this

theorem listPullZones_requests (fetch : List String → String → Except GoError ReadCloser)
    (p : Platform) (requests : List String) :
    (listPullZones fetch p requests).requests = requests ++ ["/pullzone"] := by
  unfold listPullZones
  split
  · rfl
  · split <;> rfl

theorem rawGetStatistics_requests (fetch : List String → String → Except GoError ReadCloser)
    (p : Platform) (extraParams : List (String × String)) (requests : List String) :
    (rawGetStatistics fetch p extraParams requests).requests =
      requests ++ [statisticsPath p extraParams requests] := by
  unfold rawGetStatistics
  split
  · rfl
  · split <;> rfl

/-- A statistics call that returns no error returns a snapshot. -/
theorem rawGetStatistics_stats_of_ok
    (fetch : List String → String → Except GoError ReadCloser)
    (p : Platform) (extraParams : List (String × String)) (requests : List String)
    (h : (rawGetStatistics fetch p extraParams requests).err = none) :
    ∃ st, (rawGetStatistics fetch p extraParams requests).stats = some st := by
  unfold rawGetStatistics at h ⊢
  split
  · simp_all
  · split
    · simp_all
    · exact ⟨_, rfl⟩

theorem countError_requests (err : Option GoError) (s : State) :
    (countError err s).requests = s.requests := by
  cases err <;> rfl

theorem countError_ch (err : Option GoError) (s : State) :
    (countError err s).ch = s.ch := by
  cases err <;> rfl

theorem countError_totalAPICalls (err : Option GoError) (s : State) :
    (countError err s).totalAPICalls = s.totalAPICalls := by
  cases err <;> rfl

theorem countError_totalScrapes (err : Option GoError) (s : State) :
    (countError err s).totalScrapes = s.totalScrapes := by
  cases err <;> rfl

theorem sendAccountMetrics_requests (e : Exporter)
    (aStatsObj : Option bunnyStatistics) (s : State) :
    (sendAccountMetrics e aStatsObj s).1.requests = s.requests := by
  cases aStatsObj <;> rfl

theorem sendAccountMetrics_totalAPICalls (e : Exporter)
    (aStatsObj : Option bunnyStatistics) (s : State) :
    (sendAccountMetrics e aStatsObj s).1.totalAPICalls = s.totalAPICalls := by
  cases aStatsObj <;> rfl

theorem sendAccountMetrics_totalScrapes (e : Exporter)
    (aStatsObj : Option bunnyStatistics) (s : State) :
    (sendAccountMetrics e aStatsObj s).1.totalScrapes = s.totalScrapes := by
  cases aStatsObj <;> rfl

/-- The account loop over the table of the program, in either iteration order, sends
the balance and the storage metric and raises no panic. -/
theorem accountMetricsLoop_table (tbl : metricsCollection) (h : tbl.Perm accountMetrics)
    (st : bunnyStatistics) (ch : List Metric) :
    ∃ ms, accountMetricsLoop tbl st ch = (ch ++ ms, none) ∧
      ms.Perm
        [ { desc := newMetric "account_balance" "Current account balance" [] []
            value := extractFromMap st.UserBalanceHistory, labelValues := [] },
          { desc := newMetric "storage_used_bytes" "Storage usage in bytes" [] []
            value := extractFromMap st.UserStorageUsed, labelValues := [] } ] := by
  rcases perm_pair _ _ _ h with h1 | h1
  · subst h1
    refine ⟨_, ?_, List.Perm.refl _⟩
    simp [accountMetricsLoop, accountMetricCase, sendConstMetric,
      prometheus.MustNewConstMetric, newMetric, metricBalance, metricStorageUsed]
  · subst h1
    refine ⟨_, ?_, List.Perm.swap _ _ _⟩
    simp [accountMetricsLoop, accountMetricCase, sendConstMetric,
      prometheus.MustNewConstMetric, newMetric, metricBalance, metricStorageUsed]

/-- With the table of the program, in any iteration order, the per-zone loop on a
`nil` snapshot panics before it sends anything. -/
theorem pullZoneMetricsLoop_nil (tbl : metricsCollection) (h : tbl.Perm pullZoneMetrics)
    (pullZone : bunnyPullZone) (ch : List Metric) :
    pullZoneMetricsLoop tbl none pullZone ch = (ch, some .nilDereference) := by
  match tbl, h with
  | [], h => exact absurd h.length_eq (by simp [pullZoneMetrics])
  | (name, metric) :: rest, h =>
    have hm : (name, metric) ∈ pullZoneMetrics := h.subset (List.mem_cons_self _ _)
    simp only [pullZoneMetrics, List.mem_cons, Prod.mk.injEq, List.mem_singleton,
      List.not_mem_nil, or_false] at hm
    rcases hm with h1 | h1 | h1 | h1 | h1 | h1 | h1 | h1 | h1 <;>
      obtain ⟨hn, _⟩ := h1 <;> subst hn <;>
      simp [pullZoneMetricsLoop, pullZoneMetricCase, sendSeries, metricOriginResponseTime,
        metricBandwidthUsed, metricBandwidthCached, metricRequestsServer,
        metricPullRequestsPulled, metricErr3xx, metricErr4xx, metricErr5xx,
        metricGeoTrafficDist]


/-- With the table of the program, a zone whose statistics call returns a `nil`
snapshot ends the zone loop with a panic: nothing is sent for it and the zones after
it are not requested. -/
theorem scrapeZones_nil_snapshot (e : Exporter) (p : Platform)
    (h : e.pullZoneMetrics.Perm pullZoneMetrics) (z : bunnyPullZone)
    (rest : List bunnyPullZone) (aStatsObj : Option bunnyStatistics) (s : State)
    (hnil : (getStatisticsForPullZone e.fetch p z s.requests).stats = none) :
    (scrapeZones e p (z :: rest) aStatsObj s).2 = .error .nilDereference ∧
      (scrapeZones e p (z :: rest) aStatsObj s).1.ch = s.ch ∧
      (scrapeZones e p (z :: rest) aStatsObj s).1.requests
        = s.requests ++ [statisticsPath p [("pullZone", toString z.ID)] s.requests] := by
  simp only [scrapeZones, hnil, pullZoneMetricsLoop_nil _ h, countError_ch,
    countError_requests]
  simp [getStatisticsForPullZone, rawGetStatistics_requests]

/-- What `scrape` returns: 0 when the listing fails; when the listing succeeds, 1
unless the call panics. -/
theorem scrape_returns (e : Exporter) (p : Platform) (s : State) :
    ((listPullZones e.fetch p s.requests).err ≠ none → (e.scrape p s).2 = .ok 0) ∧
      ((listPullZones e.fetch p s.requests).err = none →
        (e.scrape p s).2 = .ok 1 ∨ ∃ pn, (e.scrape p s).2 = .error pn) := by
  simp only [Exporter.scrape]
  split
  · rename_i err herr
    exact ⟨fun _ => rfl, fun h => by simp [h] at herr⟩
  · rename_i herr
    refine ⟨fun h => absurd herr h, fun _ => ?_⟩
    split
    · exact Or.inr ⟨_, rfl⟩
    · rename_i s2 aStatsObj hz
      generalize (fallbackStatistics e p aStatsObj s2).1 = a
      generalize (fallbackStatistics e p aStatsObj s2).2 = s3
      cases a with
      | none => exact Or.inl rfl
      | some st =>
        simp only [sendAccountMetrics]
        split
        · exact Or.inr ⟨_, rfl⟩
        · exact Or.inl rfl

/-- The zone loop leaves the total-scrapes counter alone, makes at most one request
per zone, and adds the number of its requests to the API-call counter. -/
theorem scrapeZones_counters (e : Exporter) (p : Platform) (zones : List bunnyPullZone)
    (aStatsObj : Option bunnyStatistics) (s : State) :
    (scrapeZones e p zones aStatsObj s).1.totalScrapes = s.totalScrapes ∧
      ∃ reqs, (scrapeZones e p zones aStatsObj s).1.requests = s.requests ++ reqs ∧
        (scrapeZones e p zones aStatsObj s).1.totalAPICalls
          = s.totalAPICalls + reqs.length ∧
        reqs.length ≤ zones.length := by
  induction zones generalizing aStatsObj s with
  | nil => exact ⟨rfl, [], by simp [scrapeZones]⟩
  | cons z rest ih =>
    simp only [scrapeZones]
    split
    · refine ⟨by simp [countError_totalScrapes],
        [statisticsPath p [("pullZone", toString z.ID)] s.requests], ?_⟩
      simp [countError_requests, countError_totalAPICalls, getStatisticsForPullZone,
        rawGetStatistics_requests]
    · obtain ⟨h1, reqs, h2, h3, h4⟩ := ih
        (getStatisticsForPullZone e.fetch p z s.requests).stats
        { countError (getStatisticsForPullZone e.fetch p z s.requests).err
            { s with requests := (getStatisticsForPullZone e.fetch p z s.requests).requests,
                     totalAPICalls := s.totalAPICalls + 1 } with
          ch := (pullZoneMetricsLoop e.pullZoneMetrics
            (getStatisticsForPullZone e.fetch p z s.requests).stats z
            (countError (getStatisticsForPullZone e.fetch p z s.requests).err
              { s with requests := (getStatisticsForPullZone e.fetch p z s.requests).requests,
                       totalAPICalls := s.totalAPICalls + 1 }).ch).1 }
      refine ⟨by simpa [countError_totalScrapes] using h1,
        statisticsPath p [("pullZone", toString z.ID)] s.requests :: reqs, ?_, ?_, ?_⟩
      · rw [h2]
        simp [countError_requests, getStatisticsForPullZone, rawGetStatistics_requests]
      · rw [h3]
        simp only [countError_totalAPICalls, List.length_cons]
        omega
      · simp only [List.length_cons]
        omega

/-- The counters over one scrape, whatever happens in it: the total-scrapes counter
grows by one, and the API-call counter grows by the number of requests made, of which
the first is the listing; when the listing fails it is the only one. -/
theorem scrape_counters (e : Exporter) (p : Platform) (s : State) :
    (e.scrape p s).1.totalScrapes = s.totalScrapes + 1 ∧
      ∃ reqs, (e.scrape p s).1.requests = s.requests ++ "/pullzone" :: reqs ∧
        (e.scrape p s).1.totalAPICalls = s.totalAPICalls + 1 + reqs.length ∧
        ((listPullZones e.fetch p s.requests).err ≠ none → reqs = []) := by
  have hreq := listPullZones_requests e.fetch p s.requests
  simp only [Exporter.scrape]
  split
  · exact ⟨rfl, [], by simp [hreq], rfl, fun _ => rfl⟩
  · rename_i herr
    obtain ⟨h1, reqs, h2, h3, _⟩ := scrapeZones_counters e p
      (listPullZones e.fetch p s.requests).pullZones none
      { s with totalScrapes := s.totalScrapes + 1,
               requests := (listPullZones e.fetch p s.requests).requests,
               totalAPICalls := s.totalAPICalls + 1 }
    split
    · rename_i s2 pn hz
      rw [hz] at h1 h2 h3
      exact ⟨h1, reqs, by simpa [hreq] using h2, h3, fun h => absurd herr h⟩
    · rename_i s2 aStatsObj hz
      rw [hz] at h1 h2 h3
      simp only [] at h1 h2 h3
      cases aStatsObj with
      | some st =>
        refine ⟨?_, reqs, ?_, ?_, fun h => absurd herr h⟩
        · simpa [sendAccountMetrics_totalScrapes, fallbackStatistics] using h1
        · simpa [sendAccountMetrics_requests, fallbackStatistics, hreq] using h2
        · simpa [sendAccountMetrics_totalAPICalls, fallbackStatistics] using h3
      | none =>
        refine ⟨?_, reqs ++ [statisticsPath p [] s2.requests], ?_, ?_,
          fun h => absurd herr h⟩
        · simpa [sendAccountMetrics_totalScrapes, countError_totalScrapes,
            fallbackStatistics] using h1
        · simp [sendAccountMetrics_requests, countError_requests, fallbackStatistics,
            getStatistics, rawGetStatistics_requests, h2, hreq]
        · simp only [sendAccountMetrics_totalAPICalls, countError_totalAPICalls,
            fallbackStatistics, h3, List.length_append, List.length_singleton]
          omega

/-! ## C3: a zone whose statistics fetch fails -/

/-- C3 fails on the code.  Three zones are listed and the fetch of the second returns
an error: `rawGetStatistics` returns a `nil` snapshot, the error is counted, and the
per-zone loop then reads a series through the `nil` pointer.  The scrape panics instead
of returning 1; the third zone is never requested and none of its metrics is sent. -/
theorem scrape_second_zone_fetch_fails :
    (listPullZones secondZoneFails.fetch samplePlatform []).err = none ∧
      (listPullZones secondZoneFails.fetch samplePlatform []).pullZones
        = [zoneA, zoneB, zoneC] ∧
      (getStatisticsForPullZone secondZoneFails.fetch samplePlatform zoneB
          ["/pullzone", sampleStatisticsPath zoneA]).err = some "HTTP status 500" ∧
      (getStatisticsForPullZone secondZoneFails.fetch samplePlatform zoneB
          ["/pullzone", sampleStatisticsPath zoneA]).stats = none ∧
      (getStatisticsForPullZone secondZoneFails.fetch samplePlatform zoneC
          ["/pullzone", sampleStatisticsPath zoneA, sampleStatisticsPath zoneB]).err = none ∧
      (secondZoneFails.scrape samplePlatform State.initial).2 = .error .nilDereference ∧
      (secondZoneFails.scrape samplePlatform State.initial).1.totalErrors = 1 ∧
      (secondZoneFails.scrape samplePlatform State.initial).1.requests
        = ["/pullzone", sampleStatisticsPath zoneA, sampleStatisticsPath zoneB] ∧
      (secondZoneFails.scrape samplePlatform State.initial).1.ch.map Metric.summary =
        [ ("bunnycdn_origin_response_time_avg", [], 35, ["pullzonename2"]),
          ("bunnycdn_bandwidth_used_bytes_total", [], 28639956, ["pullzonename2"]),
          ("bunnycdn_bandwidth_cached_bytes_total", [], 28639956, ["pullzonename2"]),
          ("bunnycdn_requests_served_total", [], 1261, ["pullzonename2"]),
          ("bunnycdn_pull_requests_pulled", [], 7, ["pullzonename2"]),
          ("bunnycdn_request_error_count", [("code", "3xx")], 3, ["pullzonename2"]),
          ("bunnycdn_request_error_count", [("code", "4xx")], 4, ["pullzonename2"]),
          ("bunnycdn_request_error_count", [("code", "5xx")], 5, ["pullzonename2"]),
          ("bunnycdn_requests_served", [], 6040860, ["pullzonename2", "EU", "London, UK"]) ] :=
  ⟨rfl, rfl, rfl, rfl, rfl, rfl, rfl, rfl, rfl⟩

/-! ## C4: metrics of a zone whose statistics did not decode -/

/-- C4 fails on the code.  One zone is listed and its statistics body does not decode:
`rawGetStatistics` returns the error together with a non-`nil` snapshot at its zero
value, the error is counted, and the scrape completes having sent the eight per-zone
metrics of that zone, each with the value `-1`. -/
theorem scrape_undecodable_zone_emits :
    (listPullZones oneZoneUndecodable.fetch samplePlatform []).err = none ∧
      (listPullZones oneZoneUndecodable.fetch samplePlatform []).pullZones = [zoneA] ∧
      (getStatisticsForPullZone oneZoneUndecodable.fetch samplePlatform zoneA
          ["/pullzone"]).err = some "invalid character" ∧
      (getStatisticsForPullZone oneZoneUndecodable.fetch samplePlatform zoneA
          ["/pullzone"]).stats = some bunnyStatistics.zero ∧
      (oneZoneUndecodable.scrape samplePlatform State.initial).2 = .ok 1 ∧
      (oneZoneUndecodable.scrape samplePlatform State.initial).1.totalErrors = 1 ∧
      (oneZoneUndecodable.scrape samplePlatform State.initial).1.ch.map Metric.summary =
        [ ("bunnycdn_origin_response_time_avg", [], -1, ["pullzonename2"]),
          ("bunnycdn_bandwidth_used_bytes_total", [], -1, ["pullzonename2"]),
          ("bunnycdn_bandwidth_cached_bytes_total", [], -1, ["pullzonename2"]),
          ("bunnycdn_requests_served_total", [], -1, ["pullzonename2"]),
          ("bunnycdn_pull_requests_pulled", [], -1, ["pullzonename2"]),
          ("bunnycdn_request_error_count", [("code", "3xx")], -1, ["pullzonename2"]),
          ("bunnycdn_request_error_count", [("code", "4xx")], -1, ["pullzonename2"]),
          ("bunnycdn_request_error_count", [("code", "5xx")], -1, ["pullzonename2"]),
          ("bunnycdn_account_balance", [], -1, []),
          ("bunnycdn_storage_used_bytes", [], -1, []) ] :=
  ⟨rfl, rfl, rfl, rfl, rfl, rfl, rfl⟩

/-! ## C5: the series behind each per-zone metric -/

/-- C5 fails on the code at one of the eight metrics.  The case `metricBandwidthCached`
of the switch reads `stats.BandwidthUsed`: for every snapshot the metric
`bandwidth_cached_bytes_total` is sent with the representative value of the
bandwidth-used series.  On the sample snapshot (bandwidth used 28639956, bandwidth
cached 123) the scrape sends `bandwidth_cached_bytes_total` = 28639956. -/
theorem scrape_bandwidth_cached_reads_bandwidth_used :
    (∀ (metric : Desc) (st : bunnyStatistics) (pullZone : bunnyPullZone) (ch : List Metric),
        pullZoneMetricCase metricBandwidthCached metric (some st) pullZone ch
          = sendConstMetric ch metric (extractFromMap st.BandwidthUsed) [pullZone.Name]) ∧
      (getStatisticsForPullZone oneZoneServed.fetch samplePlatform zoneA
          ["/pullzone"]).err = none ∧
      (getStatisticsForPullZone oneZoneServed.fetch samplePlatform zoneA
          ["/pullzone"]).stats = some sampleStatistics ∧
      extractFromMap sampleStatistics.BandwidthCached = 123 ∧
      extractFromMap sampleStatistics.BandwidthUsed = 28639956 ∧
      (oneZoneServed.scrape samplePlatform State.initial).2 = .ok 1 ∧
      (oneZoneServed.scrape samplePlatform State.initial).1.ch.map Metric.summary =
        [ ("bunnycdn_origin_response_time_avg", [], 35, ["pullzonename2"]),
          ("bunnycdn_bandwidth_used_bytes_total", [], 28639956, ["pullzonename2"]),
          ("bunnycdn_bandwidth_cached_bytes_total", [], 28639956, ["pullzonename2"]),
          ("bunnycdn_requests_served_total", [], 1261, ["pullzonename2"]),
          ("bunnycdn_pull_requests_pulled", [], 7, ["pullzonename2"]),
          ("bunnycdn_request_error_count", [("code", "3xx")], 3, ["pullzonename2"]),
          ("bunnycdn_request_error_count", [("code", "4xx")], 4, ["pullzonename2"]),
          ("bunnycdn_request_error_count", [("code", "5xx")], 5, ["pullzonename2"]),
          ("bunnycdn_requests_served", [], 6040860, ["pullzonename2", "EU", "London, UK"]),
          ("bunnycdn_account_balance", [], 1000, []),
          ("bunnycdn_storage_used_bytes", [], 42, []) ] :=
  ⟨fun _ _ _ _ => rfl, rfl, rfl, rfl, rfl, rfl, rfl⟩

/-! ## C6: the value returned by `scrape` -/

/-- C6 fails on the code.  The listing succeeds with one zone and the fetch of its
statistics returns an error: the scrape does not return 1, it panics on the `nil`
snapshot. -/
theorem scrape_listing_ok_not_up :
    (listPullZones oneZoneFails.fetch samplePlatform []).err = none ∧
      (listPullZones oneZoneFails.fetch samplePlatform []).pullZones = [zoneA] ∧
      (getStatisticsForPullZone oneZoneFails.fetch samplePlatform zoneA
          ["/pullzone"]).err = some "HTTP status 500" ∧
      (oneZoneFails.scrape samplePlatform State.initial).2 = .error .nilDereference :=
  ⟨rfl, rfl, rfl, rfl⟩

/-! ## C7: a fallback fetch that fails -/

/-- C7 fails on the code when the fallback body does not decode.  No zone is listed,
the account-wide statistics body is not JSON: `rawGetStatistics` returns the error
together with a non-`nil` snapshot, the error is counted, and both account metrics
are sent with the value `-1`. -/
theorem scrape_undecodable_fallback_emits :
    (listPullZones noZoneUndecodable.fetch samplePlatform []).err = none ∧
      (listPullZones noZoneUndecodable.fetch samplePlatform []).pullZones = [] ∧
      (getStatistics noZoneUndecodable.fetch samplePlatform ["/pullzone"]).err
        = some "invalid character" ∧
      (noZoneUndecodable.scrape samplePlatform State.initial).2 = .ok 1 ∧
      (noZoneUndecodable.scrape samplePlatform State.initial).1.totalErrors = 1 ∧
      (noZoneUndecodable.scrape samplePlatform State.initial).1.ch.map Metric.summary =
        [ ("bunnycdn_account_balance", [], -1, []),
          ("bunnycdn_storage_used_bytes", [], -1, []) ] :=
  ⟨rfl, rfl, rfl, rfl, rfl, rfl⟩

/-! ## C8: no zone listed -/

/-- C8.  When the listing succeeds with zero zones, the scrape makes exactly two
requests, the listing and one statistics request whose parameters are `dateFrom`,
`dateTo` and `loadErrors` (no `pullZone`); and when that statistics call returns no
error, the scrape returns 1 and sends exactly the balance and the storage metric,
each with the representative value of its series in the fallback snapshot. -/
theorem scrape_no_zone (e : Exporter) (p : Platform) (s : State)
    (hacc : e.accountMetrics.Perm accountMetrics)
    (hlist : (listPullZones e.fetch p s.requests).err = none)
    (hzero : (listPullZones e.fetch p s.requests).pullZones = []) :
    (e.scrape p s).1.requests =
        s.requests ++
          [ "/pullzone",
            "/statistics?" ++ url.Values.Encode
              [ ("dateFrom", p.today (s.requests ++ ["/pullzone"])),
                ("dateTo", p.today (s.requests ++ ["/pullzone"])),
                ("loadErrors", "true") ] ] ∧
      ((getStatistics e.fetch p (s.requests ++ ["/pullzone"])).err = none →
        ∃ st ms,
          (getStatistics e.fetch p (s.requests ++ ["/pullzone"])).stats = some st ∧
          (e.scrape p s).2 = .ok 1 ∧
          (e.scrape p s).1.ch = s.ch ++ ms ∧
          ms.Perm
            [ { desc := newMetric "account_balance" "Current account balance" [] []
                value := extractFromMap st.UserBalanceHistory, labelValues := [] },
              { desc := newMetric "storage_used_bytes" "Storage usage in bytes" [] []
                value := extractFromMap st.UserStorageUsed, labelValues := [] } ]) := by
  have hreq := listPullZones_requests e.fetch p s.requests
  have hscr : e.scrape p s =
      sendAccountMetrics e
        (fallbackStatistics e p none
          { s with totalScrapes := s.totalScrapes + 1,
                   requests := s.requests ++ ["/pullzone"],
                   totalAPICalls := s.totalAPICalls + 1 }).1
        (fallbackStatistics e p none
          { s with totalScrapes := s.totalScrapes + 1,
                   requests := s.requests ++ ["/pullzone"],
                   totalAPICalls := s.totalAPICalls + 1 }).2 := by
    simp [Exporter.scrape, hlist, hzero, hreq, scrapeZones]
  rw [hscr]
  constructor
  · simp [sendAccountMetrics_requests, countError_requests, fallbackStatistics,
      getStatistics, rawGetStatistics_requests, statisticsPath]
  · intro herr
    obtain ⟨st, hst⟩ := rawGetStatistics_stats_of_ok e.fetch p [] _ herr
    obtain ⟨ms, hms, hperm⟩ := accountMetricsLoop_table _ hacc st s.ch
    simp only [getStatistics] at herr hst
    refine ⟨st, ms, hst, ?_, ?_, hperm⟩ <;>
      simp [fallbackStatistics, sendAccountMetrics, getStatistics, herr, hst, hms,
        countError]

/-- C8 on a remote side that lists no zone and serves the sample document: two
requests, the second without a `pullZone` parameter, and the two account metrics. -/
theorem scrape_no_zone_served :
    noZoneServed.accountMetrics.Perm accountMetrics ∧
      (listPullZones noZoneServed.fetch samplePlatform State.initial.requests).err = none ∧
      (listPullZones noZoneServed.fetch samplePlatform State.initial.requests).pullZones = [] ∧
      (noZoneServed.scrape samplePlatform State.initial).1.requests =
        ["/pullzone", "/statistics?dateFrom=2019-05-02&dateTo=2019-05-02&loadErrors=true"] ∧
      (noZoneServed.scrape samplePlatform State.initial).1.ch.map Metric.summary =
        [ ("bunnycdn_account_balance", [], 1000, []),
          ("bunnycdn_storage_used_bytes", [], 42, []) ] ∧
      ∃ st ms,
        (getStatistics noZoneServed.fetch samplePlatform
            (State.initial.requests ++ ["/pullzone"])).stats = some st ∧
        (noZoneServed.scrape samplePlatform State.initial).2 = .ok 1 ∧
        (noZoneServed.scrape samplePlatform State.initial).1.ch = State.initial.ch ++ ms ∧
        ms.Perm
          [ { desc := newMetric "account_balance" "Current account balance" [] []
              value := extractFromMap st.UserBalanceHistory, labelValues := [] },
            { desc := newMetric "storage_used_bytes" "Storage usage in bytes" [] []
              value := extractFromMap st.UserStorageUsed, labelValues := [] } ] :=
  ⟨List.Perm.refl _, rfl, rfl,
    (scrape_no_zone noZoneServed samplePlatform State.initial (List.Perm.refl _) rfl rfl).1.trans
      rfl,
    rfl,
    (scrape_no_zone noZoneServed samplePlatform State.initial (List.Perm.refl _) rfl rfl).2 rfl⟩

/-! ## C9: the snapshot behind the account metrics -/

/-- C9 fails on the code.  Two zones are listed; the statistics of the first are
fetched (balance 1000, storage 42), those of the second do not decode.  The assignment
`aStatsObj = stats` is made whatever the error, so the account metrics are read from
the snapshot of the failed second zone: both are sent with the value `-1`. -/
theorem scrape_failed_zone_replaces_snapshot :
    (listPullZones secondZoneUndecodable.fetch samplePlatform []).pullZones
        = [zoneA, zoneB] ∧
      (getStatisticsForPullZone secondZoneUndecodable.fetch samplePlatform zoneA
          ["/pullzone"]).err = none ∧
      (getStatisticsForPullZone secondZoneUndecodable.fetch samplePlatform zoneA
          ["/pullzone"]).stats = some sampleStatistics ∧
      extractFromMap sampleStatistics.UserBalanceHistory = 1000 ∧
      extractFromMap sampleStatistics.UserStorageUsed = 42 ∧
      (getStatisticsForPullZone secondZoneUndecodable.fetch samplePlatform zoneB
          ["/pullzone", sampleStatisticsPath zoneA]).err = some "invalid character" ∧
      (secondZoneUndecodable.scrape samplePlatform State.initial).2 = .ok 1 ∧
      ((secondZoneUndecodable.scrape samplePlatform State.initial).1.ch.filter
          fun m => m.labelValues = []).map Metric.summary =
        [ ("bunnycdn_account_balance", [], -1, []),
          ("bunnycdn_storage_used_bytes", [], -1, []) ] :=
  ⟨rfl, rfl, rfl, rfl, rfl, rfl, rfl, rfl⟩

/-! ## C10: the counters -/

/-- C10 fails on the code in its account of the fallback.  One zone is listed and the
fetch of its statistics returns an error: no snapshot is retained, yet the fallback
request is not made, because the scrape panics on the `nil` snapshot.  The requests
are the listing and the request of the zone, and the API-call counter grows by 2. -/
theorem scrape_failed_zone_no_fallback :
    (listPullZones oneZoneFails.fetch samplePlatform []).err = none ∧
      (listPullZones oneZoneFails.fetch samplePlatform []).pullZones = [zoneA] ∧
      (getStatisticsForPullZone oneZoneFails.fetch samplePlatform zoneA
          ["/pullzone"]).stats = none ∧
      (oneZoneFails.scrape samplePlatform State.initial).2 = .error .nilDereference ∧
      (oneZoneFails.scrape samplePlatform State.initial).1.requests
        = ["/pullzone", sampleStatisticsPath zoneA] ∧
      (oneZoneFails.scrape samplePlatform State.initial).1.totalAPICalls = 2 ∧
      (oneZoneFails.scrape samplePlatform State.initial).1.totalScrapes = 1 :=
  ⟨rfl, rfl, rfl, rfl, rfl, rfl, rfl⟩

/-! ## C11: one location per entry -/

/-- C11.  On a geo-traffic map all of whose keys contain a colon, `trafficLocations`
returns as many locations as the map has entries, the location at each position being
the one built from the entry at that position; so two returned locations are equal
only if their entries gave the same region, the same location and the same value.
The empty map gives the empty list. -/
theorem trafficLocations_one_per_entry (s : bunnyStatistics)
    (hkeys : ∀ kv ∈ s.GeoTrafficDistribution, ':' ∈ kv.1.data) :
    ∃ locs, s.trafficLocations = .ok locs ∧
      locs.length = s.GeoTrafficDistribution.length ∧
      (∀ i : Nat, locs[i]? = (s.GeoTrafficDistribution[i]?).map entryLocation) ∧
      (∀ (i j : Nat) (e1 e2 : String × float64), s.GeoTrafficDistribution[i]? = some e1 →
        s.GeoTrafficDistribution[j]? = some e2 → locs[i]? = locs[j]? →
          (strings.Split e1.1 ':').headD "" = (strings.Split e2.1 ':').headD "" ∧
          strings.TrimSpace ((strings.Split e1.1 ':').getD 1 "")
            = strings.TrimSpace ((strings.Split e2.1 ':').getD 1 "") ∧
          e1.2 = e2.2) ∧
      bunnyStatistics.zero.trafficLocations = .ok [] := by
  refine ⟨s.GeoTrafficDistribution.map entryLocation, ?_, by simp, ?_, ?_, rfl⟩
  · simpa [bunnyStatistics.trafficLocations] using
      trafficLocationsLoop_ok s.GeoTrafficDistribution [] hkeys
  · intro i
    simp
  · intro i j e1 e2 h1 h2 h
    simp only [List.getElem?_map, h1, h2, Option.map_some', Option.some.injEq] at h
    have hR := congrArg bunnyLocation.Region h
    have hL := congrArg bunnyLocation.Location h
    have hQ := congrArg bunnyLocation.Requests h
    exact ⟨hR, hL, hQ⟩

/-- C11 on the eight entries of the test document: eight locations, one per key, in
the order of the entries. -/
theorem trafficLocations_eight_entries :
    (∀ kv ∈ sampleGeoTraffic, ':' ∈ kv.1.data) ∧
      sampleGeoTraffic.length = 8 ∧
      (sampleGeoTraffic.map Prod.fst).Nodup ∧
      bunnyStatistics.trafficLocations
          { bunnyStatistics.zero with GeoTrafficDistribution := sampleGeoTraffic }
        = .ok
          [ { Region := "EU", Location := "London, UK", Requests := 6040860 },
            { Region := "NA", Location := "Los Angeles, CA", Requests := 5719265 },
            { Region := "NA", Location := "Atlanta, GA", Requests := 2864106 },
            { Region := "NA", Location := "New York City, NY", Requests := 2861460 },
            { Region := "EU", Location := "Amsterdam, NL", Requests := 2566343 },
            { Region := "NA", Location := "Chicago, IL", Requests := 2864106 },
            { Region := "EU", Location := "Oslo, NO", Requests := 2884170 },
            { Region := "EU", Location := "Frankfurt, DE", Requests := 2839646 } ] ∧
      ∃ locs,
        bunnyStatistics.trafficLocations
            { bunnyStatistics.zero with GeoTrafficDistribution := sampleGeoTraffic }
          = .ok locs ∧
        locs.length = 8 :=
  ⟨by decide, rfl, by decide, rfl,
    (trafficLocations_one_per_entry
      { bunnyStatistics.zero with GeoTrafficDistribution := sampleGeoTraffic }
      (by decide)).imp fun _ h => ⟨h.1, h.2.1⟩⟩

/-! ## The fuel of the JSON parser -/

theorem json.dropWhile_length (cs : List Char) :
    (cs.dropWhile json.isSpace).length ≤ cs.length :=
  (List.dropWhile_sublist _).length_le

theorem json.scanDigits_length (cs : List Char) :
    (json.scanDigits cs).2.length ≤ cs.length := by
  simp only [json.scanDigits, List.span_eq_take_drop]
  exact (List.dropWhile_sublist _).length_le

/-- A result mapped without touching the remaining input comes from a result with the
same remaining input. -/
theorem json.map_snd {α β γ : Type} (o : Option (α × β)) (f : α × β → γ × β)
    (r : γ × β) (h : o.map f = some r) (hf : ∀ r0, (f r0).2 = r0.2) :
    ∃ r0, o = some r0 ∧ r0.2 = r.2 := by
  cases o with
  | none => simp at h
  | some r0 =>
    simp only [Option.map_some', Option.some.injEq] at h
    exact ⟨r0, rfl, by rw [← h, hf]⟩

theorem json.map_snd_eq {α β γ : Type} (o : Option (α × β)) (f : α × β → γ × β)
    (x : γ) (y : β) (h : o.map f = some (x, y)) (hf : ∀ r, (f r).2 = r.2) :
    ∃ x0, o = some (x0, y) := by
  obtain ⟨⟨r1, r2⟩, h1, h2⟩ := json.map_snd o f (x, y) h hf
  exact ⟨r1, by rw [h1]; simp only at h2; rw [h2]⟩

theorem json.scanString_length_aux (n : Nat) :
    ∀ cs : List Char, cs.length = n → ∀ (p : Option Nat) (s rest : List Char),
      json.scanString p cs = some (s, rest) → rest.length < cs.length := by
  induction n using Nat.strong_induction_on with
  | _ n ih =>
    intro cs hn p s rest h
    subst hn
    unfold json.scanString at h
    split at h
    · exact absurd h (by simp)
    · simp only [Option.some.injEq, Prod.mk.injEq] at h
      rw [← h.2]
      simp
    · rename_i pending a b c d rest0
      have hrec : ∀ (q : Option Nat) (s0 : List Char),
          json.scanString q rest0 = some (s0, rest) → rest.length < rest0.length + 6 := by
        intro q s0 h0
        have := ih rest0.length (by simp; omega) rest0 rfl q s0 rest h0
        omega
      simp only [List.length_cons]
      split at h
      · exact absurd h (by simp)
      · split at h
        · split at h
          · obtain ⟨s0, h0⟩ := json.map_snd_eq _ _ _ _ h (fun _ => rfl)
            exact hrec _ _ h0
          · split at h
            · obtain ⟨s0, h0⟩ := json.map_snd_eq _ _ _ _ h (fun _ => rfl)
              exact hrec _ _ h0
            · obtain ⟨s0, h0⟩ := json.map_snd_eq _ _ _ _ h (fun _ => rfl)
              exact hrec _ _ h0
        · split at h
          · exact hrec _ _ h
          · obtain ⟨s0, h0⟩ := json.map_snd_eq _ _ _ _ h (fun _ => rfl)
            exact hrec _ _ h0
    · rename_i pending e rest0 _
      simp only [List.length_cons]
      simp only [] at h
      split at h
      · exact absurd h (by simp)
      · obtain ⟨s0, h0⟩ := json.map_snd_eq _ _ _ _ h (fun _ => rfl)
        have := ih rest0.length (by simp; omega) rest0 rfl _ s0 rest h0
        omega
    · rename_i pending c rest0 _ _ _
      simp only [List.length_cons]
      split at h
      · exact absurd h (by simp)
      · obtain ⟨s0, h0⟩ := json.map_snd_eq _ _ _ _ h (fun _ => rfl)
        have := ih rest0.length (by simp) rest0 rfl _ s0 rest h0
        omega

theorem json.scanString_length (p : Option Nat) (cs s rest : List Char)
    (h : json.scanString p cs = some (s, rest)) : rest.length < cs.length :=
  json.scanString_length_aux cs.length cs rfl p s rest h

theorem json.scanSign_length (cs : List Char) : (json.scanSign cs).2.length ≤ cs.length := by
  unfold json.scanSign
  split <;> simp

theorem json.scanExpSign_length (cs : List Char) :
    (json.scanExpSign cs).2.length ≤ cs.length := by
  unfold json.scanExpSign
  split <;> simp

theorem json.scanInt_length (cs : List Char) (r : List Char × List Char)
    (h : json.scanInt cs = some r) : r.2.length < cs.length := by
  unfold json.scanInt at h
  split at h
  · simp only [Option.some.injEq] at h
    subst h
    simp
  · split at h
    · simp only [Option.some.injEq] at h
      subst h
      rename_i c r0 _ _
      have := json.scanDigits_length r0
      simp only [List.length_cons]
      omega
    · exact absurd h (by simp)
  · exact absurd h (by simp)

theorem json.scanFrac_length (cs : List Char) (r : List Char × List Char)
    (h : json.scanFrac cs = some r) : r.2.length ≤ cs.length := by
  unfold json.scanFrac at h
  split at h
  · split at h
    · exact absurd h (by simp)
    · simp only [Option.some.injEq] at h
      subst h
      rename_i r0 _
      have := json.scanDigits_length r0
      simp only [List.length_cons]
      omega
  · simp only [Option.some.injEq] at h
    subst h
    exact Nat.le_refl _

theorem json.scanExp_length (cs : List Char) (r : List Char × List Char)
    (h : json.scanExp cs = some r) : r.2.length ≤ cs.length := by
  unfold json.scanExp at h
  split at h
  · split at h
    · split at h
      · exact absurd h (by simp)
      · simp only [Option.some.injEq] at h
        subst h
        rename_i e r0 _ _
        have h1 := json.scanDigits_length (json.scanExpSign r0).2
        have h2 := json.scanExpSign_length r0
        simp only [List.length_cons]
        omega
    · simp only [Option.some.injEq] at h
      subst h
      exact Nat.le_refl _
  · simp only [Option.some.injEq] at h
    subst h
    exact Nat.le_refl _

theorem json.scanNumber_length (cs : List Char) (r : List Char × List Char)
    (h : json.scanNumber cs = some r) : r.2.length < cs.length := by
  unfold json.scanNumber at h
  split at h
  · exact absurd h (by simp)
  · rename_i int hint
    split at h
    · exact absurd h (by simp)
    · rename_i frac hfrac
      split at h
      · exact absurd h (by simp)
      · rename_i exp hexp
        simp only [Option.some.injEq] at h
        subst h
        have h1 := json.scanSign_length cs
        have h2 := json.scanInt_length _ _ hint
        have h3 := json.scanFrac_length _ _ hfrac
        have h4 := json.scanExp_length _ _ hexp
        simp only
        omega


theorem json.scanLiteral_length (lit cs rest : List Char)
    (h : json.scanLiteral lit cs = some rest) : rest.length ≤ cs.length := by
  induction lit generalizing cs with
  | nil =>
    simp only [json.scanLiteral, Option.some.injEq] at h
    subst h
    exact Nat.le_refl _
  | cons l ls ih =>
    cases cs with
    | nil => simp [json.scanLiteral] at h
    | cons c cs =>
      simp only [json.scanLiteral] at h
      split at h
      · have := ih cs h
        simp only [List.length_cons]
        omega
      · exact absurd h (by simp)

/-- A successful parse consumes at least one character. -/
theorem json.parse_consumes (fuel : Nat) :
    (∀ depth cs r, json.parseValue fuel depth cs = some r → r.2.length < cs.length) ∧
      (∀ depth cs r, json.parseElements fuel depth cs = some r → r.2.length < cs.length) ∧
      (∀ depth cs r, json.parseMembers fuel depth cs = some r → r.2.length < cs.length) := by
  induction fuel with
  | zero =>
    refine ⟨?_, ?_, ?_⟩ <;> intro depth cs r h
    · simp [json.parseValue] at h
    · simp [json.parseElements] at h
    · simp [json.parseMembers] at h
  | succ fuel ih =>
    obtain ⟨ihV, ihE, ihM⟩ := ih
    refine ⟨?_, ?_, ?_⟩ <;> intro depth cs r h
    · have hd := json.dropWhile_length cs
      unfold json.parseValue at h
      split at h
      · exact absurd h (by simp)
      · rename_i c rest heq
        rw [heq] at hd
        have hd2 := json.dropWhile_length rest
        simp only [List.length_cons] at hd
        split at h
        · split at h
          · exact absurd h (by simp)
          · split at h
            · exact absurd h (by simp)
            · rename_i c1 rest1 heq1
              rw [heq1] at hd2
              simp only [List.length_cons] at hd2
              split at h
              · simp only [Option.some.injEq] at h
                subst h
                simp only
                omega
              · obtain ⟨r0, h0, h1⟩ := json.map_snd _ _ _ h (fun _ => rfl)
                rw [← h1]
                have := ihM _ _ _ h0
                simp only [List.length_cons] at this
                omega
        · split at h
          · split at h
            · exact absurd h (by simp)
            · split at h
              · exact absurd h (by simp)
              · rename_i c1 rest1 heq1
                rw [heq1] at hd2
                simp only [List.length_cons] at hd2
                split at h
                · simp only [Option.some.injEq] at h
                  subst h
                  simp only
                  omega
                · obtain ⟨r0, h0, h1⟩ := json.map_snd _ _ _ h (fun _ => rfl)
                  rw [← h1]
                  have := ihE _ _ _ h0
                  simp only [List.length_cons] at this
                  omega
          · split at h
            · obtain ⟨r0, h0, h1⟩ := json.map_snd _ _ _ h (fun _ => rfl)
              rw [← h1]
              have := json.scanString_length _ _ _ _ h0
              omega
            · have hlit : ∀ (lit : List Char) (o : Json),
                  (json.scanLiteral lit rest).map (fun r => (o, r)) = some r →
                    r.2.length < cs.length := by
                intro lit o hl
                cases hs : json.scanLiteral lit rest with
                | none => rw [hs] at hl; simp at hl
                | some r1 =>
                  rw [hs] at hl
                  simp only [Option.map_some', Option.some.injEq] at hl
                  subst hl
                  have := json.scanLiteral_length _ _ _ hs
                  simp only
                  omega
              split at h
              · exact hlit _ _ h
              · split at h
                · exact hlit _ _ h
                · split at h
                  · exact hlit _ _ h
                  · obtain ⟨r0, h0, h1⟩ := json.map_snd _ _ _ h (fun _ => rfl)
                    rw [← h1]
                    have := json.scanNumber_length _ _ h0
                    simp only [List.length_cons] at this
                    omega
    · unfold json.parseElements at h
      split at h
      · exact absurd h (by simp)
      · rename_i r1 hv
        have h1 := ihV _ _ _ hv
        have hd := json.dropWhile_length r1.2
        split at h
        · exact absurd h (by simp)
        · rename_i c rest1 heq
          rw [heq] at hd
          simp only [List.length_cons] at hd
          split at h
          · obtain ⟨r0, h0, h2⟩ := json.map_snd _ _ _ h (fun _ => rfl)
            rw [← h2]
            have := ihE _ _ _ h0
            omega
          · split at h
            · simp only [Option.some.injEq] at h
              subst h
              simp only
              omega
            · exact absurd h (by simp)
    · have hd := json.dropWhile_length cs
      unfold json.parseMembers at h
      split at h
      · exact absurd h (by simp)
      · rename_i q rest heq
        rw [heq] at hd
        simp only [List.length_cons] at hd
        split at h
        · split at h
          · exact absurd h (by simp)
          · rename_i key hkey
            have hk := json.scanString_length _ _ _ _ hkey
            have hd2 := json.dropWhile_length key.2
            split at h
            · exact absurd h (by simp)
            · rename_i c rest2 heq2
              rw [heq2] at hd2
              simp only [List.length_cons] at hd2
              split at h
              · split at h
                · exact absurd h (by simp)
                · rename_i r1 hv
                  have h1 := ihV _ _ _ hv
                  have hd3 := json.dropWhile_length r1.2
                  split at h
                  · exact absurd h (by simp)
                  · rename_i c1 rest4 heq4
                    rw [heq4] at hd3
                    simp only [List.length_cons] at hd3
                    split at h
                    · obtain ⟨r0, h0, h2⟩ := json.map_snd _ _ _ h (fun _ => rfl)
                      rw [← h2]
                      have := ihM _ _ _ h0
                      omega
                    · split at h
                      · simp only [Option.some.injEq] at h
                        subst h
                        simp only
                        omega
                      · exact absurd h (by simp)
              · exact absurd h (by simp)
        · exact absurd h (by simp)


/-- Past twice the length of the input (and a little), one more unit of fuel changes
nothing. -/
theorem json.parse_stable (fuel : Nat) :
    (∀ depth cs, 2 * cs.length + 2 ≤ fuel →
        json.parseValue (fuel + 1) depth cs = json.parseValue fuel depth cs) ∧
      (∀ depth cs, 2 * cs.length + 3 ≤ fuel →
        json.parseElements (fuel + 1) depth cs = json.parseElements fuel depth cs) ∧
      (∀ depth cs, 2 * cs.length + 3 ≤ fuel →
        json.parseMembers (fuel + 1) depth cs = json.parseMembers fuel depth cs) := by
  induction fuel with
  | zero =>
    refine ⟨?_, ?_, ?_⟩ <;> intro depth cs h <;> omega
  | succ fuel ih =>
    obtain ⟨ihV, ihE, ihM⟩ := ih
    refine ⟨?_, ?_, ?_⟩ <;> intro depth cs hf
    · have hd := json.dropWhile_length cs
      conv_lhs => unfold json.parseValue
      conv_rhs => unfold json.parseValue
      cases hdc : cs.dropWhile json.isSpace with
      | nil => rfl
      | cons c rest =>
        rw [hdc] at hd
        simp only [List.length_cons] at hd
        have hd2 := json.dropWhile_length rest
        dsimp only
        cases hdr : rest.dropWhile json.isSpace with
        | nil => rfl
        | cons c1 rest1 =>
          rw [hdr] at hd2
          simp only [List.length_cons] at hd2
          have hM := ihM (depth + 1) (c1 :: rest1) (by simp only [List.length_cons]; omega)
          have hE := ihE (depth + 1) (c1 :: rest1) (by simp only [List.length_cons]; omega)
          simp only [hM, hE]
    · conv_lhs => unfold json.parseElements
      conv_rhs => unfold json.parseElements
      rw [ihV depth cs (by omega)]
      cases hv : json.parseValue fuel depth cs with
      | none => rfl
      | some r =>
        have h1 := (json.parse_consumes fuel).1 _ _ _ hv
        have hd := json.dropWhile_length r.2
        dsimp only
        cases hdr : r.2.dropWhile json.isSpace with
        | nil => rfl
        | cons c rest1 =>
          rw [hdr] at hd
          simp only [List.length_cons] at hd
          have hE := ihE depth rest1 (by omega)
          simp only [hE]
    · have hd := json.dropWhile_length cs
      conv_lhs => unfold json.parseMembers
      conv_rhs => unfold json.parseMembers
      cases hdc : cs.dropWhile json.isSpace with
      | nil => rfl
      | cons q rest =>
        rw [hdc] at hd
        simp only [List.length_cons] at hd
        dsimp only
        cases hk : json.scanString none rest with
        | none => rfl
        | some key =>
          obtain ⟨key1, key2⟩ := key
          have hkl := json.scanString_length _ _ _ _ hk
          have hd2 := json.dropWhile_length key2
          dsimp only
          cases hdk : key2.dropWhile json.isSpace with
          | nil => rfl
          | cons c rest2 =>
            rw [hdk] at hd2
            simp only [List.length_cons] at hd2
            dsimp only
            rw [ihV depth rest2 (by omega)]
            cases hv : json.parseValue fuel depth rest2 with
            | none => rfl
            | some r =>
              have h1 := (json.parse_consumes fuel).1 _ _ _ hv
              have hd3 := json.dropWhile_length r.2
              dsimp only
              cases hdr : r.2.dropWhile json.isSpace with
              | nil => rfl
              | cons c1 rest4 =>
                rw [hdr] at hd3
                simp only [List.length_cons] at hd3
                have hM := ihM depth rest4 (by omega)
                simp only [hM]

theorem json.parseValue_fuel (depth : Nat) (cs : List Char) (extra fuel : Nat)
    (h : 2 * cs.length + 2 ≤ fuel) :
    json.parseValue (fuel + extra) depth cs = json.parseValue fuel depth cs := by
  induction extra with
  | zero => rfl
  | succ n ih =>
    rw [← ih, ← Nat.add_assoc]
    exact (json.parse_stable (fuel + n)).1 depth cs (by omega)

/-- The fuel of `json.parse` never runs out: more fuel gives the same result. -/
theorem json.parse_fuel_adequate (data : String) (fuel : Nat)
    (hfuel : json.fuel data ≤ fuel) :
    json.parseValue fuel 0 data.data = json.parseValue (json.fuel data) 0 data.data := by
  obtain ⟨extra, rfl⟩ := Nat.exists_eq_add_of_le hfuel
  exact json.parseValue_fuel 0 data.data extra (json.fuel data) (Nat.le_refl _)

/-! ## The scanner reads the texts of the grammar -/

theorem json.isSpace_of_whitespace (c : Char) (h : whitespace.contains c = true) :
    json.isSpace c = true := by
  simp only [whitespace, List.contains_iff_exists_mem_beq, List.mem_cons, List.mem_singleton,
    List.not_mem_nil, or_false, beq_iff_eq] at h
  obtain ⟨x, hx, rfl⟩ := h
  rcases hx with rfl | rfl | rfl | rfl <;> rfl

theorem json.dropWhile_whitespace (ws t : List Char) (h : isWhitespace ws = true) :
    (ws ++ t).dropWhile json.isSpace = t.dropWhile json.isSpace := by
  induction ws with
  | nil => rfl
  | cons c cs ih =>
    simp only [isWhitespace, List.all_cons, Bool.and_eq_true] at h
    simp only [List.cons_append, List.dropWhile_cons, json.isSpace_of_whitespace c h.1, if_true]
    exact ih h.2

theorem json.isDigit_of_decimalDigit (c : Char) (h : decimalDigits.contains c = true) :
    c.isDigit = true := by
  simp only [decimalDigits, List.contains_iff_exists_mem_beq, List.mem_cons, List.mem_singleton,
    List.not_mem_nil, or_false, beq_iff_eq] at h
  obtain ⟨x, hx, rfl⟩ := h
  rcases hx with rfl | rfl | rfl | rfl | rfl | rfl | rfl | rfl | rfl | rfl <;> rfl

/-- The head of what follows a value is no digit, point, exponent letter or sign. -/
theorem json.mayFollow_head (c : Char) (rest : List Char) (h : mayFollow (c :: rest) = true) :
    c.isDigit = false ∧ c ≠ '.' ∧ c ≠ 'e' ∧ c ≠ 'E' ∧ c ≠ '+' ∧ c ≠ '-' := by
  simp only [mayFollow, whitespace, List.cons_append, List.nil_append,
    List.contains_iff_exists_mem_beq, List.mem_cons, List.mem_singleton,
    List.not_mem_nil, or_false, beq_iff_eq] at h
  obtain ⟨x, hx, rfl⟩ := h
  rcases hx with rfl | rfl | rfl | rfl | rfl | rfl | rfl <;> decide

theorem json.scanDigits_append (ds rest : List Char) (h : allDigits ds = true)
    (hrest : ∀ c r, rest = c :: r → c.isDigit = false) :
    json.scanDigits (ds ++ rest) = (ds, rest) := by
  induction ds with
  | nil =>
    cases rest with
    | nil => rfl
    | cons c r => simp [json.scanDigits, List.span_eq_take_drop, hrest c r rfl]
  | cons d ds ih =>
    simp only [allDigits, List.all_cons, Bool.and_eq_true] at h
    have hd := json.isDigit_of_decimalDigit d h.1
    have ih2 := ih h.2
    simp only [json.scanDigits, List.span_eq_take_drop, Prod.mk.injEq] at ih2 ⊢
    simp [List.takeWhile_cons, List.dropWhile_cons, hd, ih2.1, ih2.2]

theorem json.hexValue_hexDigit :
    ∀ n, n < 16 → ∀ upper : Bool, json.hexValue (hexDigit upper n) = some n := by
  decide

theorem json.getu4_hex4 (upper : Bool × Bool × Bool × Bool) (u : Nat) (h : u < 0x10000) :
    json.getu4 (hexDigit upper.1 (u / 4096 % 16)) (hexDigit upper.2.1 (u / 256 % 16))
      (hexDigit upper.2.2.1 (u / 16 % 16)) (hexDigit upper.2.2.2 (u % 16)) = some u := by
  simp only [json.getu4, json.hexValue_hexDigit _ (Nat.mod_lt _ (by decide : 16 > 0)),
    Option.some.injEq]
  omega

theorem json.scanString_plain (pending : Option Nat) (c : Char) (rest : List Char)
    (h : (StringItem.plain c).wellFormed = true) :
    json.scanString pending (c :: rest)
      = (json.scanString none rest).map fun r =>
          (json.flushSurrogate pending ++ c :: r.1, r.2) := by
  simp only [StringItem.wellFormed, Bool.and_eq_true, decide_eq_true_eq, bne_iff_ne, ne_eq] at h
  obtain ⟨⟨h1, h2⟩, h3⟩ := h
  conv_lhs => unfold json.scanString
  split
  · simp_all
  · simp_all
  · simp_all
  · simp_all
  · rename_i heq
    simp only [List.cons.injEq] at heq
    obtain ⟨⟨rfl, rfl⟩, rfl⟩ := heq
    have h4 : ¬ c.toNat < 32 := by omega
    simp [h3, h4]

theorem json.scanString_escape (pending : Option Nat) (e : Char) (rest : List Char)
    (h : (StringItem.escape e).wellFormed = true) :
    json.scanString pending ('\\' :: e :: rest)
      = (json.scanString none rest).map fun r =>
          (json.flushSurrogate pending ++ (StringItem.escape e).value :: r.1, r.2) := by
  have he : e = '"' ∨ e = '\\' ∨ e = '/' ∨ e = 'b' ∨ e = 'f' ∨ e = 'n' ∨ e = 'r' ∨ e = 't' := by
    simp only [StringItem.wellFormed, escapes, List.lookup] at h
    by_contra hne
    simp only [not_or] at hne
    obtain ⟨h1, h2, h3, h4, h5, h6, h7, h8⟩ := hne
    simp [beq_eq_false_iff_ne.mpr h1, beq_eq_false_iff_ne.mpr h2, beq_eq_false_iff_ne.mpr h3,
      beq_eq_false_iff_ne.mpr h4, beq_eq_false_iff_ne.mpr h5, beq_eq_false_iff_ne.mpr h6,
      beq_eq_false_iff_ne.mpr h7, beq_eq_false_iff_ne.mpr h8] at h
  rcases he with rfl | rfl | rfl | rfl | rfl | rfl | rfl | rfl <;>
    (conv_lhs => unfold json.scanString) <;> rfl

theorem json.scanString_unicode (pending : Option Nat) (upper : Bool × Bool × Bool × Bool)
    (u : Nat) (rest : List Char) (h : u < 0x10000) :
    json.scanString pending ('\\' :: 'u' :: (hex4 upper u ++ rest))
      = match pending with
        | some w =>
          if w < 0xDC00 ∧ 0xDC00 ≤ u ∧ u < 0xE000 then
            (json.scanString none rest).map fun r =>
              (Char.ofNat (0x10000 + (w - 0xD800) * 0x400 + (u - 0xDC00)) :: r.1, r.2)
          else if 0xD800 ≤ u ∧ u < 0xE000 then
            (json.scanString (some u) rest).map fun r => (Char.ofNat 0xFFFD :: r.1, r.2)
          else
            (json.scanString none rest).map fun r =>
              (Char.ofNat 0xFFFD :: Char.ofNat u :: r.1, r.2)
        | none =>
          if 0xD800 ≤ u ∧ u < 0xE000 then json.scanString (some u) rest
          else (json.scanString none rest).map fun r => (Char.ofNat u :: r.1, r.2) := by
  simp only [hex4, List.cons_append, List.nil_append]
  conv_lhs => unfold json.scanString
  simp only [json.getu4_hex4 upper u h]

/-- The scanner reads the items of a string of the grammar: from the character after
the opening quote it returns the characters the items denote and the input after the
closing quote. -/
theorem json.scanString_items (items : List StringItem) :
    ∀ (pending : Option Nat) (rest : List Char), stringItemsWellFormed items = true →
      (∀ w, pending = some w → w < 0xDC00 →
        (items.head?.map StringItem.isLowSurrogate).getD false = false) →
      json.scanString pending (items.flatMap StringItem.text ++ '"' :: rest)
        = some (json.flushSurrogate pending ++ items.map StringItem.value, rest) := by
  induction items with
  | nil =>
    intro pending rest _ _
    simp [json.scanString]
  | cons i tail ih =>
    intro pending rest hwf hp
    simp only [stringItemsWellFormed, Bool.and_eq_true, Bool.not_eq_true', Bool.and_eq_false_iff]
      at hwf
    obtain ⟨⟨hi, htail⟩, hpair⟩ := hwf
    simp only [List.flatMap_cons, List.append_assoc, List.map_cons]
    cases i with
    | plain c =>
      simp only [StringItem.text, List.singleton_append]
      rw [json.scanString_plain pending c _ hi, ih none rest htail (by simp)]
      simp [json.flushSurrogate, StringItem.value]
    | escape e =>
      simp only [StringItem.text, List.cons_append, List.nil_append]
      rw [json.scanString_escape pending e _ hi, ih none rest htail (by simp)]
      simp [json.flushSurrogate]
    | unicode upper u =>
      simp only [StringItem.wellFormed, decide_eq_true_eq] at hi
      simp only [StringItem.text, List.cons_append, List.append_assoc]
      rw [json.scanString_unicode pending upper u _ hi]
      have hnext : ∀ w, w = u → w < 0xDC00 → 0xD800 ≤ u → u < 0xE000 →
          (tail.head?.map StringItem.isLowSurrogate).getD false = false := by
        intro w hw hlt h1 h2
        subst hw
        rcases hpair with hh | hh
        · simp only [StringItem.isHighSurrogate, decide_eq_false_iff_not] at hh
          omega
        · exact hh
      cases pending with
      | none =>
        by_cases hs : 0xD800 ≤ u ∧ u < 0xE000
        · rw [if_pos hs, ih (some u) rest htail
            (fun w hw hlt => hnext w (Option.some.inj hw).symm hlt hs.1 hs.2)]
          simp [json.flushSurrogate, StringItem.value, isSurrogate, hs]
        · rw [if_neg hs, ih none rest htail (by simp)]
          simp [json.flushSurrogate, StringItem.value, isSurrogate, hs]
      | some w =>
        have hlow : ¬ (w < 0xDC00 ∧ 0xDC00 ≤ u ∧ u < 0xE000) := by
          intro hc
          have := hp w rfl hc.1
          simp only [List.head?_cons, Option.map_some', StringItem.isLowSurrogate,
            Option.getD_some, decide_eq_false_iff_not] at this
          exact this hc.2
        simp only [if_neg hlow]
        by_cases hs : 0xD800 ≤ u ∧ u < 0xE000
        · rw [if_pos hs, ih (some u) rest htail
            (fun w hw hlt => hnext w (Option.some.inj hw).symm hlt hs.1 hs.2)]
          simp [json.flushSurrogate, StringItem.value, isSurrogate, hs]
        · rw [if_neg hs, ih none rest htail (by simp)]
          simp [json.flushSurrogate, StringItem.value, isSurrogate, hs]
    | pair upper1 high upper2 low =>
      simp only [StringItem.wellFormed, Bool.and_eq_true, decide_eq_true_eq] at hi
      obtain ⟨⟨h1, h2⟩, h3, h4⟩ := hi
      simp only [StringItem.text, List.cons_append, List.append_assoc]
      rw [json.scanString_unicode pending upper1 high _ (by omega)]
      have hrest : json.scanString (some high)
          ('\\' :: 'u' :: (hex4 upper2 low ++ (tail.flatMap StringItem.text ++ '"' :: rest)))
          = some (Char.ofNat (0x10000 + (high - 0xD800) * 0x400 + (low - 0xDC00))
              :: tail.map StringItem.value, rest) := by
        rw [json.scanString_unicode (some high) upper2 low _ (by omega)]
        simp only [if_pos (show high < 0xDC00 ∧ 0xDC00 ≤ low ∧ low < 0xE000 from ⟨h2, h3, h4⟩)]
        rw [ih none rest htail (by simp)]
        simp [json.flushSurrogate]
      have hsur : 0xD800 ≤ high ∧ high < 0xE000 := ⟨h1, by omega⟩
      cases pending with
      | none =>
        simp only [if_pos hsur, hrest]
        simp [json.flushSurrogate, StringItem.value]
      | some w =>
        have hlow : ¬ (w < 0xDC00 ∧ 0xDC00 ≤ high ∧ high < 0xE000) := by omega
        simp only [if_neg hlow, if_pos hsur, hrest]
        simp [json.flushSurrogate, StringItem.value]

theorem json.scanExp_text (exp : Option (Char × List Char × List Char)) (rest : List Char)
    (h : exponentWellFormed exp = true) (hrest : mayFollow rest = true) :
    json.scanExp (exponentText exp ++ rest) = some (exponentText exp, rest) := by
  have hfollow : ∀ c r, rest = c :: r → c.isDigit = false := fun c r hc =>
    (json.mayFollow_head c r (hc ▸ hrest)).1
  cases exp with
  | none =>
    cases rest with
    | nil => rfl
    | cons c r =>
      have hc := json.mayFollow_head c r hrest
      simp [exponentText, json.scanExp, hc.2.2.1, hc.2.2.2.1]
  | some x =>
    obtain ⟨e, sign, ds⟩ := x
    simp only [exponentWellFormed, Bool.and_eq_true, Bool.or_eq_true, beq_iff_eq, bne_iff_ne,
      ne_eq] at h
    obtain ⟨⟨⟨he, hsign⟩, hne⟩, hds⟩ := h
    have hdigits : ∀ tail, tail = ds ++ rest → json.scanDigits tail = (ds, rest) :=
      fun tail ht => ht ▸ json.scanDigits_append ds rest hds hfollow
    have hsigned : json.scanExpSign (sign ++ (ds ++ rest)) = (sign, ds ++ rest) := by
      rcases hsign with (rfl | rfl) | rfl
      · cases ds with
        | nil => exact absurd rfl hne
        | cons d ds2 =>
          simp only [allDigits, List.all_cons, Bool.and_eq_true] at hds
          have hd := hds.1
          simp only [decimalDigits, List.contains_iff_exists_mem_beq, List.mem_cons,
            List.mem_singleton, List.not_mem_nil, or_false, beq_iff_eq] at hd
          obtain ⟨x, hx, rfl⟩ := hd
          rcases hx with rfl | rfl | rfl | rfl | rfl | rfl | rfl | rfl | rfl | rfl <;> rfl
      · rfl
      · rfl
    simp only [exponentText, List.cons_append, List.append_assoc, json.scanExp, he, if_true,
      hsigned, hdigits _ rfl]
    simp [hne]

theorem json.scanFrac_text (frac : Option (List Char)) (rest : List Char)
    (h : fractionWellFormed frac = true)
    (hrest : ∀ c r, rest = c :: r → c.isDigit = false ∧ c ≠ '.') :
    json.scanFrac (fractionText frac ++ rest) = some (fractionText frac, rest) := by
  cases frac with
  | none =>
    cases rest with
    | nil => rfl
    | cons c r =>
      have hc := (hrest c r rfl).2
      simp only [fractionText, List.nil_append]
      unfold json.scanFrac
      split
      · rename_i heq
        simp only [List.cons.injEq] at heq
        exact absurd heq.1 hc
      · rfl
  | some ds =>
    simp only [fractionWellFormed, Bool.and_eq_true, bne_iff_ne, ne_eq] at h
    have hdigits := json.scanDigits_append ds rest h.2 (fun c r hc => (hrest c r hc).1)
    simp only [fractionText, List.cons_append, json.scanFrac, hdigits]
    simp [h.1]

theorem json.decimalDigit_ne_minus (c : Char) (h : decimalDigits.contains c = true) :
    c ≠ '-' := by
  intro hc
  subst hc
  exact absurd h (by decide)

theorem json.scanInt_text (int rest : List Char) (h : integerWellFormed int = true)
    (hrest : ∀ c r, rest = c :: r → c.isDigit = false) :
    json.scanInt (int ++ rest) = some (int, rest) ∧
      ∃ c ds, int = c :: ds ∧ decimalDigits.contains c = true := by
  simp only [integerWellFormed, Bool.or_eq_true, beq_iff_eq] at h
  rcases h with rfl | h
  · exact ⟨rfl, '0', [], rfl, by decide⟩
  · cases int with
    | nil => exact absurd h (by simp)
    | cons c ds =>
      simp only [Bool.and_eq_true, bne_iff_ne, ne_eq, allDigits, List.all_cons] at h
      obtain ⟨hc, hd, hds⟩ := h
      refine ⟨?_, c, ds, rfl, hd⟩
      have hdigits := json.scanDigits_append ds rest hds hrest
      simp only [List.cons_append]
      unfold json.scanInt
      split
      · rename_i heq
        simp only [List.cons.injEq] at heq
        exact absurd heq.1 hc
      · rename_i heq
        simp only [List.cons.injEq] at heq
        obtain ⟨rfl, rfl⟩ := heq
        simp [json.isDigit_of_decimalDigit _ hd, hdigits]
      · rename_i heq
        exact absurd heq (by simp)

/-- The scanner reads a numeral of the grammar: it returns the numeral and the input
after it. -/
theorem json.scanNumber_text (n : NumberText) (rest : List Char)
    (h : n.wellFormed = true) (hrest : mayFollow rest = true) :
    json.scanNumber (n.text ++ rest) = some (n.text, rest) ∧
      ∃ c t, n.text = c :: t ∧ (c = '-' ∨ decimalDigits.contains c = true) := by
  obtain ⟨negative, int, frac, exp⟩ := n
  simp only [NumberText.wellFormed, Bool.and_eq_true] at h
  obtain ⟨⟨hint, hfrac⟩, hexp⟩ := h
  simp only [NumberText.text]
  have hE := json.scanExp_text exp rest hexp hrest
  have hfollowE : ∀ c r, exponentText exp ++ rest = c :: r → c.isDigit = false ∧ c ≠ '.' := by
    intro c r hc
    cases exp with
    | none =>
      have := json.mayFollow_head c r (by simpa [exponentText] using hc ▸ hrest)
      exact ⟨this.1, this.2.1⟩
    | some x =>
      obtain ⟨e, sign, ds⟩ := x
      simp only [exponentWellFormed, Bool.and_eq_true, Bool.or_eq_true, beq_iff_eq] at hexp
      simp only [exponentText, List.cons_append, List.cons.injEq] at hc
      rcases hexp.1.1.1 with he | he <;> (rw [← hc.1, he]; decide)
  have hF := json.scanFrac_text frac _ hfrac hfollowE
  have hfollowF : ∀ c r, fractionText frac ++ (exponentText exp ++ rest) = c :: r →
      c.isDigit = false := by
    intro c r hc
    cases frac with
    | none => exact (hfollowE c r (by simpa [fractionText] using hc)).1
    | some ds =>
      simp only [fractionText, List.cons_append, List.cons.injEq] at hc
      rw [← hc.1]
      decide
  obtain ⟨hI, c, ds, hcds, hc⟩ := json.scanInt_text int _ hint hfollowF
  have hsign : ∀ tail, json.scanSign ((if negative = true then ['-'] else []) ++ (int ++ tail))
      = ((if negative = true then ['-'] else []), int ++ tail) := by
    intro tail
    cases negative with
    | true => rfl
    | false =>
      subst hcds
      simp only [Bool.false_eq_true, if_false, List.nil_append, List.cons_append]
      unfold json.scanSign
      split
      · rename_i heq
        simp only [List.cons.injEq] at heq
        exact absurd heq.1 (json.decimalDigit_ne_minus c hc)
      · rfl
  constructor
  · simp only [List.append_assoc]
    simp only [json.scanNumber, hsign, hI, hF, hE]
    simp
  · cases negative with
    | true => exact ⟨'-', _, rfl, Or.inl rfl⟩
    | false =>
      subst hcds
      exact ⟨c, _, rfl, Or.inr hc⟩

theorem json.mayFollow_whitespace (post : List Char) (c : Char) (x : List Char)
    (h : isWhitespace post = true) (hc : c = ',' ∨ c = ']' ∨ c = '}') :
    mayFollow (post ++ c :: x) = true := by
  cases post with
  | nil => rcases hc with rfl | rfl | rfl <;> rfl
  | cons w ws =>
    simp only [isWhitespace, List.all_cons, Bool.and_eq_true] at h
    simp only [mayFollow, List.cons_append, List.contains_iff_exists_mem_beq, List.mem_append,
      beq_iff_eq] at h ⊢
    obtain ⟨a, ha, hw⟩ := h.1
    exact ⟨a, Or.inl ha, hw⟩

theorem json.mayFollow_of_whitespace (post : List Char) (h : isWhitespace post = true) :
    mayFollow post = true := by
  cases post with
  | nil => rfl
  | cons w ws =>
    simp only [isWhitespace, List.all_cons, Bool.and_eq_true] at h
    simp only [mayFollow, List.contains_iff_exists_mem_beq, List.mem_append,
      beq_iff_eq] at h ⊢
    obtain ⟨a, ha, hw⟩ := h.1
    exact ⟨a, Or.inl ha, hw⟩

theorem json.dropWhile_head (ws : List Char) (c : Char) (t : List Char)
    (h : isWhitespace ws = true) (hc : json.isSpace c = false) :
    (ws ++ c :: t).dropWhile json.isSpace = c :: t := by
  rw [json.dropWhile_whitespace ws _ h, List.dropWhile_cons, hc]
  rfl

theorem json.parseValue_dropWhile (fuel depth : Nat) (cs : List Char) :
    json.parseValue fuel depth (cs.dropWhile json.isSpace) = json.parseValue fuel depth cs := by
  cases fuel with
  | zero => rfl
  | succ k =>
    unfold json.parseValue
    rw [List.dropWhile_idempotent]

theorem json.parseElements_dropWhile (fuel depth : Nat) (cs : List Char) :
    json.parseElements fuel depth (cs.dropWhile json.isSpace)
      = json.parseElements fuel depth cs := by
  cases fuel with
  | zero => rfl
  | succ k =>
    unfold json.parseElements
    rw [json.parseValue_dropWhile]

theorem json.parseMembers_dropWhile (fuel depth : Nat) (cs : List Char) :
    json.parseMembers fuel depth (cs.dropWhile json.isSpace)
      = json.parseMembers fuel depth cs := by
  cases fuel with
  | zero => rfl
  | succ k =>
    unfold json.parseMembers
    rw [List.dropWhile_idempotent]

theorem json.parseElements_nil (fuel depth : Nat) :
    json.parseElements fuel depth [] = none := by
  cases fuel with
  | zero => rfl
  | succ k =>
    cases k with
    | zero => rfl
    | succ j => rfl

theorem json.parseElements_bracket (fuel depth : Nat) (t : List Char) :
    json.parseElements fuel depth (']' :: t) = none := by
  cases fuel with
  | zero => rfl
  | succ k =>
    cases k with
    | zero => rfl
    | succ j => rfl

theorem json.parseMembers_nil (fuel depth : Nat) :
    json.parseMembers fuel depth [] = none := by
  cases fuel with
  | zero => rfl
  | succ k => rfl

theorem json.parseMembers_brace (fuel depth : Nat) (t : List Char) :
    json.parseMembers fuel depth ('}' :: t) = none := by
  cases fuel with
  | zero => rfl
  | succ k => rfl

theorem json.parseValue_null (fuel depth : Nat) (pre rest : List Char)
    (hpre : isWhitespace pre = true) :
    json.parseValue (fuel + 1) depth (pre ++ ['n', 'u', 'l', 'l'] ++ rest)
      = some (.null, rest) := by
  have hdw : (pre ++ ['n', 'u', 'l', 'l'] ++ rest).dropWhile json.isSpace
      = 'n' :: ('u' :: 'l' :: 'l' :: rest) := by
    rw [List.append_assoc]
    exact json.dropWhile_head pre 'n' _ hpre rfl
  unfold json.parseValue
  rw [hdw]
  rfl

theorem json.parseValue_true (fuel depth : Nat) (pre rest : List Char)
    (hpre : isWhitespace pre = true) :
    json.parseValue (fuel + 1) depth (pre ++ ['t', 'r', 'u', 'e'] ++ rest)
      = some (.bool true, rest) := by
  have hdw : (pre ++ ['t', 'r', 'u', 'e'] ++ rest).dropWhile json.isSpace
      = 't' :: ('r' :: 'u' :: 'e' :: rest) := by
    rw [List.append_assoc]
    exact json.dropWhile_head pre 't' _ hpre rfl
  unfold json.parseValue
  rw [hdw]
  rfl

theorem json.parseValue_false (fuel depth : Nat) (pre rest : List Char)
    (hpre : isWhitespace pre = true) :
    json.parseValue (fuel + 1) depth (pre ++ ['f', 'a', 'l', 's', 'e'] ++ rest)
      = some (.bool false, rest) := by
  have hdw : (pre ++ ['f', 'a', 'l', 's', 'e'] ++ rest).dropWhile json.isSpace
      = 'f' :: ('a' :: 'l' :: 's' :: 'e' :: rest) := by
    rw [List.append_assoc]
    exact json.dropWhile_head pre 'f' _ hpre rfl
  unfold json.parseValue
  rw [hdw]
  rfl

theorem json.parseValue_number (fuel depth : Nat) (pre rest : List Char) (n : NumberText)
    (hpre : isWhitespace pre = true) (h : n.wellFormed = true)
    (hrest : mayFollow rest = true) :
    json.parseValue (fuel + 1) depth (pre ++ n.text ++ rest)
      = some (.num ⟨n.text⟩, rest) := by
  obtain ⟨hscan, c, t, hct, hc⟩ := json.scanNumber_text n rest h hrest
  have hfacts : json.isSpace c = false ∧ c ≠ '{' ∧ c ≠ '[' ∧ c ≠ '"' ∧ c ≠ 't' ∧ c ≠ 'f'
      ∧ c ≠ 'n' := by
    rcases hc with rfl | hc
    · decide
    · simp only [decimalDigits, List.contains_iff_exists_mem_beq, List.mem_cons,
        List.mem_singleton, List.not_mem_nil, or_false, beq_iff_eq] at hc
      obtain ⟨x, hx, rfl⟩ := hc
      rcases hx with rfl | rfl | rfl | rfl | rfl | rfl | rfl | rfl | rfl | rfl <;> decide
  obtain ⟨h0, h1, h2, h3, h4, h5, h6⟩ := hfacts
  have hdw : (pre ++ n.text ++ rest).dropWhile json.isSpace = c :: (t ++ rest) := by
    rw [List.append_assoc, hct]
    exact json.dropWhile_head pre c _ hpre h0
  rw [hct] at hscan
  unfold json.parseValue
  rw [hdw]
  simp only [h1, h2, h3, h4, h5, h6, if_false]
  rw [← List.cons_append, hscan]
  simp [hct]

theorem json.parseValue_string (fuel depth : Nat) (pre rest : List Char)
    (items : List StringItem) (hpre : isWhitespace pre = true)
    (h : stringItemsWellFormed items = true) :
    json.parseValue (fuel + 1) depth (pre ++ stringText items ++ rest)
      = some (.str (stringValue items), rest) := by
  have hdw : (pre ++ stringText items ++ rest).dropWhile json.isSpace
      = '"' :: (items.flatMap StringItem.text ++ '"' :: rest) := by
    rw [List.append_assoc]
    simp only [stringText, List.cons_append, List.append_assoc, List.nil_append]
    exact json.dropWhile_head pre '"' _ hpre rfl
  unfold json.parseValue
  rw [hdw]
  simp only [Char.reduceEq, if_false, if_true]
  rw [json.scanString_items items none rest h (by simp)]
  simp [json.flushSurrogate, stringValue]

theorem json.parseValue_emptyArray (fuel depth : Nat) (pre ws rest : List Char)
    (hpre : isWhitespace pre = true) (hws : isWhitespace ws = true)
    (hdepth : depth < 10000) :
    json.parseValue (fuel + 1) depth (pre ++ ('[' :: ws ++ [']']) ++ rest)
      = some (.arr [], rest) := by
  have hdw : (pre ++ ('[' :: ws ++ [']']) ++ rest).dropWhile json.isSpace
      = '[' :: (ws ++ ']' :: rest) := by
    simp only [List.append_assoc, List.cons_append, List.nil_append]
    exact json.dropWhile_head pre '[' _ hpre rfl
  have hd : ¬ json.maxNestingDepth ≤ depth := by
    simp only [json.maxNestingDepth]
    omega
  unfold json.parseValue
  rw [hdw]
  simp only [Char.reduceEq, if_false, if_true, hd, json.dropWhile_head ws ']' rest hws rfl]

theorem json.parseValue_emptyObject (fuel depth : Nat) (pre ws rest : List Char)
    (hpre : isWhitespace pre = true) (hws : isWhitespace ws = true)
    (hdepth : depth < 10000) :
    json.parseValue (fuel + 1) depth (pre ++ ('{' :: ws ++ ['}']) ++ rest)
      = some (.obj [], rest) := by
  have hdw : (pre ++ ('{' :: ws ++ ['}']) ++ rest).dropWhile json.isSpace
      = '{' :: (ws ++ '}' :: rest) := by
    simp only [List.append_assoc, List.cons_append, List.nil_append]
    exact json.dropWhile_head pre '{' _ hpre rfl
  have hd : ¬ json.maxNestingDepth ≤ depth := by
    simp only [json.maxNestingDepth]
    omega
  unfold json.parseValue
  rw [hdw]
  simp only [Char.reduceEq, if_false, if_true, hd, json.dropWhile_head ws '}' rest hws rfl]

theorem json.parseValue_array (fuel depth : Nat) (pre cs rest : List Char) (items : List Json)
    (hpre : isWhitespace pre = true) (hdepth : depth < 10000)
    (h : json.parseElements fuel (depth + 1) cs = some (items, rest)) :
    json.parseValue (fuel + 1) depth (pre ++ '[' :: cs) = some (.arr items, rest) := by
  have hd : ¬ json.maxNestingDepth ≤ depth := by
    simp only [json.maxNestingDepth]
    omega
  rw [← json.parseElements_dropWhile] at h
  unfold json.parseValue
  rw [json.dropWhile_head pre '[' cs hpre rfl]
  simp only [Char.reduceEq, if_false, if_true, hd]
  cases hdw : cs.dropWhile json.isSpace with
  | nil =>
    rw [hdw, json.parseElements_nil] at h
    exact Option.noConfusion h
  | cons c1 rest1 =>
    rw [hdw] at h
    have hc1 : c1 ≠ ']' := by
      intro hc
      rw [hc, json.parseElements_bracket] at h
      exact Option.noConfusion h
    simp only [hc1, if_false, h, Option.map_some']

theorem json.parseValue_object (fuel depth : Nat) (pre cs rest : List Char)
    (members : List (String × Json))
    (hpre : isWhitespace pre = true) (hdepth : depth < 10000)
    (h : json.parseMembers fuel (depth + 1) cs = some (members, rest)) :
    json.parseValue (fuel + 1) depth (pre ++ '{' :: cs) = some (.obj members, rest) := by
  have hd : ¬ json.maxNestingDepth ≤ depth := by
    simp only [json.maxNestingDepth]
    omega
  rw [← json.parseMembers_dropWhile] at h
  unfold json.parseValue
  rw [json.dropWhile_head pre '{' cs hpre rfl]
  simp only [Char.reduceEq, if_false, if_true, hd]
  cases hdw : cs.dropWhile json.isSpace with
  | nil =>
    rw [hdw, json.parseMembers_nil] at h
    exact Option.noConfusion h
  | cons c1 rest1 =>
    rw [hdw] at h
    have hc1 : c1 ≠ '}' := by
      intro hc
      rw [hc, json.parseMembers_brace] at h
      exact Option.noConfusion h
    simp only [hc1, if_false, h, Option.map_some']

theorem json.parseElements_last (fuel depth : Nat) (cs post rest : List Char) (v : Json)
    (hpost : isWhitespace post = true)
    (h : json.parseValue fuel depth cs = some (v, post ++ ']' :: rest)) :
    json.parseElements (fuel + 1) depth cs = some ([v], rest) := by
  unfold json.parseElements
  simp only [h, json.dropWhile_head post ']' rest hpost rfl, Char.reduceEq, if_false, if_true]

theorem json.parseElements_more (fuel depth : Nat) (cs post more rest : List Char) (v : Json)
    (vs : List Json) (hpost : isWhitespace post = true)
    (h : json.parseValue fuel depth cs = some (v, post ++ ',' :: more))
    (hmore : json.parseElements fuel depth more = some (vs, rest)) :
    json.parseElements (fuel + 1) depth cs = some (v :: vs, rest) := by
  unfold json.parseElements
  simp only [h, json.dropWhile_head post ',' more hpost rfl, if_true, hmore, Option.map_some']

theorem json.parseMembers_key (fuel depth : Nat) (pre mid cs : List Char)
    (key : List StringItem) (hpre : isWhitespace pre = true) (hmid : isWhitespace mid = true)
    (hkey : stringItemsWellFormed key = true) :
    json.parseMembers (fuel + 1) depth (pre ++ stringText key ++ mid ++ ':' :: cs)
      = match json.parseValue fuel depth cs with
        | none => none
        | some r =>
          match r.2.dropWhile json.isSpace with
          | [] => none
          | c1 :: rest4 =>
            if c1 = ',' then
              (json.parseMembers fuel depth rest4).map fun rs =>
                ((stringValue key, r.1) :: rs.1, rs.2)
            else if c1 = '}' then some ([(stringValue key, r.1)], rest4)
            else none := by
  have hdw : (pre ++ stringText key ++ mid ++ ':' :: cs).dropWhile json.isSpace
      = '"' :: (key.flatMap StringItem.text ++ '"' :: (mid ++ ':' :: cs)) := by
    simp only [stringText, List.append_assoc, List.cons_append, List.nil_append]
    exact json.dropWhile_head pre '"' _ hpre rfl
  conv_lhs => unfold json.parseMembers
  rw [hdw]
  simp only [if_true, json.scanString_items key none _ hkey (by simp),
    json.dropWhile_head mid ':' cs hmid rfl]
  rfl

theorem json.parseMembers_last (fuel depth : Nat) (pre mid cs post rest : List Char)
    (key : List StringItem) (v : Json) (hpre : isWhitespace pre = true)
    (hmid : isWhitespace mid = true) (hkey : stringItemsWellFormed key = true)
    (hpost : isWhitespace post = true)
    (h : json.parseValue fuel depth cs = some (v, post ++ '}' :: rest)) :
    json.parseMembers (fuel + 1) depth (pre ++ stringText key ++ mid ++ ':' :: cs)
      = some ([(stringValue key, v)], rest) := by
  rw [json.parseMembers_key fuel depth pre mid cs key hpre hmid hkey]
  simp only [h, json.dropWhile_head post '}' rest hpost rfl, Char.reduceEq, if_false, if_true]

theorem json.parseMembers_more (fuel depth : Nat) (pre mid cs post more rest : List Char)
    (key : List StringItem) (v : Json) (ms : List (String × Json))
    (hpre : isWhitespace pre = true)
    (hmid : isWhitespace mid = true) (hkey : stringItemsWellFormed key = true)
    (hpost : isWhitespace post = true)
    (h : json.parseValue fuel depth cs = some (v, post ++ ',' :: more))
    (hmore : json.parseMembers fuel depth more = some (ms, rest)) :
    json.parseMembers (fuel + 1) depth (pre ++ stringText key ++ mid ++ ':' :: cs)
      = some ((stringValue key, v) :: ms, rest) := by
  rw [json.parseMembers_key fuel depth pre mid cs key hpre hmid hkey]
  simp only [h, json.dropWhile_head post ',' more hpost rfl, if_true, hmore, Option.map_some']

mutual
/-- The scanner reads every text of the grammar: given enough fuel, it returns the
value the text denotes and the input after the text. -/
theorem JsonText.parseValue_complete (v : JsonText) (depth : Nat) (pre rest : List Char)
    (hwf : v.wellFormed = true) (hdepth : depth + v.nesting ≤ 10000)
    (hpre : isWhitespace pre = true) (hrest : mayFollow rest = true) :
    ∃ f0, ∀ fuel, f0 ≤ fuel →
      json.parseValue fuel depth (pre ++ v.text ++ rest) = some (v.value, rest) :=
  match v with
  | .null => ⟨1, fun fuel hf => by
      obtain ⟨k, rfl⟩ := Nat.exists_eq_add_of_le hf
      rw [Nat.add_comm]
      exact json.parseValue_null k depth pre rest hpre⟩
  | .bool true => ⟨1, fun fuel hf => by
      obtain ⟨k, rfl⟩ := Nat.exists_eq_add_of_le hf
      rw [Nat.add_comm]
      exact json.parseValue_true k depth pre rest hpre⟩
  | .bool false => ⟨1, fun fuel hf => by
      obtain ⟨k, rfl⟩ := Nat.exists_eq_add_of_le hf
      rw [Nat.add_comm]
      exact json.parseValue_false k depth pre rest hpre⟩
  | .number n => ⟨1, fun fuel hf => by
      obtain ⟨k, rfl⟩ := Nat.exists_eq_add_of_le hf
      rw [Nat.add_comm]
      exact json.parseValue_number k depth pre rest n hpre hwf hrest⟩
  | .string items => ⟨1, fun fuel hf => by
      obtain ⟨k, rfl⟩ := Nat.exists_eq_add_of_le hf
      rw [Nat.add_comm]
      exact json.parseValue_string k depth pre rest items hpre hwf⟩
  | .emptyArray ws => ⟨1, fun fuel hf => by
      obtain ⟨k, rfl⟩ := Nat.exists_eq_add_of_le hf
      rw [Nat.add_comm]
      simp only [JsonText.nesting] at hdepth
      exact json.parseValue_emptyArray k depth pre ws rest hpre hwf (by omega)⟩
  | .emptyObject ws => ⟨1, fun fuel hf => by
      obtain ⟨k, rfl⟩ := Nat.exists_eq_add_of_le hf
      rw [Nat.add_comm]
      simp only [JsonText.nesting] at hdepth
      exact json.parseValue_emptyObject k depth pre ws rest hpre hwf (by omega)⟩
  | .array elements => by
    simp only [JsonText.nesting] at hdepth
    simp only [JsonText.wellFormed] at hwf
    obtain ⟨f1, h1⟩ := JsonElements.parseElements_complete elements (depth + 1) rest hwf (by omega)
    refine ⟨f1 + 1, fun fuel hf => ?_⟩
    obtain ⟨k, rfl⟩ := Nat.exists_eq_add_of_le hf
    have hk := h1 (f1 + k) (by omega)
    have htext : pre ++ (JsonText.array elements).text ++ rest
        = pre ++ '[' :: (elements.text ++ ']' :: rest) := by
      simp [JsonText.text]
    rw [htext, show f1 + 1 + k = f1 + k + 1 by omega]
    exact json.parseValue_array (f1 + k) depth pre _ rest _ hpre (by omega) hk
  | .object members => by
    simp only [JsonText.nesting] at hdepth
    simp only [JsonText.wellFormed] at hwf
    obtain ⟨f1, h1⟩ := JsonMembers.parseMembers_complete members (depth + 1) rest hwf (by omega)
    refine ⟨f1 + 1, fun fuel hf => ?_⟩
    obtain ⟨k, rfl⟩ := Nat.exists_eq_add_of_le hf
    have hk := h1 (f1 + k) (by omega)
    have htext : pre ++ (JsonText.object members).text ++ rest
        = pre ++ '{' :: (members.text ++ '}' :: rest) := by
      simp [JsonText.text]
    rw [htext, show f1 + 1 + k = f1 + k + 1 by omega]
    exact json.parseValue_object (f1 + k) depth pre _ rest _ hpre (by omega) hk
/-- The scanner reads the elements of an array of the grammar up to the closing
bracket. -/
theorem JsonElements.parseElements_complete (elements : JsonElements) (depth : Nat)
    (rest : List Char) (hwf : elements.wellFormed = true)
    (hdepth : depth + elements.nesting ≤ 10000) :
    ∃ f0, ∀ fuel, f0 ≤ fuel →
      json.parseElements fuel depth (elements.text ++ ']' :: rest)
        = some (elements.values, rest) :=
  match elements with
  | .last pre v post => by
    simp only [JsonElements.nesting] at hdepth
    simp only [JsonElements.wellFormed, Bool.and_eq_true] at hwf
    obtain ⟨⟨hpre, hv⟩, hpost⟩ := hwf
    obtain ⟨f1, h1⟩ := JsonText.parseValue_complete v depth pre (post ++ ']' :: rest) hv hdepth hpre
      (json.mayFollow_whitespace post ']' rest hpost (Or.inr (Or.inl rfl)))
    refine ⟨f1 + 1, fun fuel hf => ?_⟩
    obtain ⟨k, rfl⟩ := Nat.exists_eq_add_of_le hf
    have hk := h1 (f1 + k) (by omega)
    have htext : (JsonElements.last pre v post).text ++ ']' :: rest
        = pre ++ v.text ++ (post ++ ']' :: rest) := by
      simp [JsonElements.text]
    rw [htext, show f1 + 1 + k = f1 + k + 1 by omega]
    exact json.parseElements_last (f1 + k) depth _ post rest _ hpost hk
  | .more pre v post more => by
    simp only [JsonElements.nesting] at hdepth
    simp only [JsonElements.wellFormed, Bool.and_eq_true] at hwf
    obtain ⟨⟨⟨hpre, hv⟩, hpost⟩, hmore⟩ := hwf
    obtain ⟨f1, h1⟩ := JsonText.parseValue_complete v depth pre
      (post ++ ',' :: (more.text ++ ']' :: rest)) hv (by omega) hpre
      (json.mayFollow_whitespace post ',' _ hpost (Or.inl rfl))
    obtain ⟨f2, h2⟩ := JsonElements.parseElements_complete more depth rest hmore (by omega)
    refine ⟨f1 + f2 + 1, fun fuel hf => ?_⟩
    obtain ⟨k, rfl⟩ := Nat.exists_eq_add_of_le hf
    have hk1 := h1 (f1 + f2 + k) (by omega)
    have hk2 := h2 (f1 + f2 + k) (by omega)
    have htext : (JsonElements.more pre v post more).text ++ ']' :: rest
        = pre ++ v.text ++ (post ++ ',' :: (more.text ++ ']' :: rest)) := by
      simp [JsonElements.text]
    rw [htext, show f1 + f2 + 1 + k = f1 + f2 + k + 1 by omega]
    exact json.parseElements_more (f1 + f2 + k) depth _ post _ rest _ _ hpost hk1 hk2
/-- The scanner reads the members of an object of the grammar up to the closing
brace. -/
theorem JsonMembers.parseMembers_complete (members : JsonMembers) (depth : Nat)
    (rest : List Char) (hwf : members.wellFormed = true)
    (hdepth : depth + members.nesting ≤ 10000) :
    ∃ f0, ∀ fuel, f0 ≤ fuel →
      json.parseMembers fuel depth (members.text ++ '}' :: rest)
        = some (members.values, rest) :=
  match members with
  | .last pre key mid pre2 v post => by
    simp only [JsonMembers.nesting] at hdepth
    simp only [JsonMembers.wellFormed, Bool.and_eq_true] at hwf
    obtain ⟨⟨⟨⟨⟨hpre, hkey⟩, hmid⟩, hpre2⟩, hv⟩, hpost⟩ := hwf
    obtain ⟨f1, h1⟩ := JsonText.parseValue_complete v depth pre2 (post ++ '}' :: rest) hv hdepth
      hpre2 (json.mayFollow_whitespace post '}' rest hpost (Or.inr (Or.inr rfl)))
    refine ⟨f1 + 1, fun fuel hf => ?_⟩
    obtain ⟨k, rfl⟩ := Nat.exists_eq_add_of_le hf
    have hk := h1 (f1 + k) (by omega)
    have htext : (JsonMembers.last pre key mid pre2 v post).text ++ '}' :: rest
        = pre ++ stringText key ++ mid ++ ':' :: (pre2 ++ v.text ++ (post ++ '}' :: rest)) := by
      simp [JsonMembers.text]
    rw [htext, show f1 + 1 + k = f1 + k + 1 by omega]
    exact json.parseMembers_last (f1 + k) depth pre mid _ post rest key _ hpre hmid hkey
      hpost hk
  | .more pre key mid pre2 v post more => by
    simp only [JsonMembers.nesting] at hdepth
    simp only [JsonMembers.wellFormed, Bool.and_eq_true] at hwf
    obtain ⟨⟨⟨⟨⟨⟨hpre, hkey⟩, hmid⟩, hpre2⟩, hv⟩, hpost⟩, hmore⟩ := hwf
    obtain ⟨f1, h1⟩ := JsonText.parseValue_complete v depth pre2
      (post ++ ',' :: (more.text ++ '}' :: rest)) hv (by omega) hpre2
      (json.mayFollow_whitespace post ',' _ hpost (Or.inl rfl))
    obtain ⟨f2, h2⟩ := JsonMembers.parseMembers_complete more depth rest hmore (by omega)
    refine ⟨f1 + f2 + 1, fun fuel hf => ?_⟩
    obtain ⟨k, rfl⟩ := Nat.exists_eq_add_of_le hf
    have hk1 := h1 (f1 + f2 + k) (by omega)
    have hk2 := h2 (f1 + f2 + k) (by omega)
    have htext : (JsonMembers.more pre key mid pre2 v post more).text ++ '}' :: rest
        = pre ++ stringText key ++ mid
          ++ ':' :: (pre2 ++ v.text ++ (post ++ ',' :: (more.text ++ '}' :: rest))) := by
      simp [JsonMembers.text]
    rw [htext, show f1 + f2 + 1 + k = f1 + f2 + k + 1 by omega]
    exact json.parseMembers_more (f1 + f2 + k) depth pre mid _ post _ rest key _ _ hpre hmid
      hkey hpost hk1 hk2
end

/-- The parser reads a document as the value it denotes. -/
theorem json.parse_document (data : String) (v : Json) (h : JsonDocument data v) :
    json.parse data = some v := by
  obtain ⟨pre, doc, post, hdata, hpre, hpost, hwf, hnest, hvalue⟩ := h
  obtain ⟨f0, h0⟩ := JsonText.parseValue_complete doc 0 pre post hwf (by omega) hpre
    (json.mayFollow_of_whitespace post hpost)
  have hfuel := json.parseValue_fuel 0 data.data f0 (json.fuel data) (Nat.le_refl _)
  rw [hdata, h0 (json.fuel data + f0) (by omega)] at hfuel
  have hpostws : post.dropWhile json.isSpace = [] := by
    have := json.dropWhile_whitespace post [] hpost
    simpa using this
  simp only [json.parse, hdata, ← hfuel, hpostws, if_true, hvalue]

set_option maxRecDepth 1000000

/-! ## Decoding zone records -/

theorem json.equalFold_self (name : String) : json.equalFold name name = true := by
  simp [json.equalFold]

theorem json.equalFold_id_name (key : String) (h : json.equalFold "Id" key = true) :
    json.equalFold "Name" key = false := by
  simp only [json.equalFold, decide_eq_true_eq, decide_eq_false_iff_not] at h ⊢
  intro h2
  have h3 := congrArg List.length (h.trans h2.symm)
  simp at h3

theorem json.findField_id (key : String) (h : json.equalFold "Id" key = true) :
    json.findField pullZoneFields key none = some .ID := by
  have hn : json.equalFold "Name" key = false := json.equalFold_id_name key h
  have hne : "Name" ≠ key := by
    intro he
    rw [← he, json.equalFold_self] at hn
    exact Bool.noConfusion hn
  by_cases hk : "Id" = key
  · simp [json.findField, pullZoneFields, hk]
  · simp [json.findField, pullZoneFields, hk, hne, h, hn]

theorem json.findField_name (key : String) (h : json.equalFold "Name" key = true) :
    json.findField pullZoneFields key none = some .Name := by
  have hn : json.equalFold "Id" key = false := by
    cases hi : json.equalFold "Id" key with
    | false => rfl
    | true => rw [json.equalFold_id_name key hi] at h; exact Bool.noConfusion h
  have hne : "Id" ≠ key := by
    intro he
    rw [← he, json.equalFold_self] at hn
    exact Bool.noConfusion hn
  by_cases hk : "Name" = key
  · simp [json.findField, pullZoneFields, hk, hne]
  · simp [json.findField, pullZoneFields, hk, hne, h, hn]

theorem json.findField_other (key : String) (h1 : json.equalFold "Id" key = false)
    (h2 : json.equalFold "Name" key = false) :
    json.findField pullZoneFields key none = none := by
  have hne1 : "Id" ≠ key := by
    intro he
    rw [← he, json.equalFold_self] at h1
    exact Bool.noConfusion h1
  have hne2 : "Name" ≠ key := by
    intro he
    rw [← he, json.equalFold_self] at h2
    exact Bool.noConfusion h2
  simp [json.findField, pullZoneFields, hne1, hne2, h1, h2]

theorem json.toNat_ofNat (k : Nat) (h : k < 0xD800) : (Char.ofNat k).toNat = k := by
  have hv : k.isValidChar := Or.inl h
  simp only [Char.ofNat, hv, dif_pos, Char.toNat, Char.ofNatAux]
  rfl

theorem json.toNat_inj (a c : Char) (h : a.toNat = c.toNat) : a = c := by
  rw [← Char.ofNat_toNat a, ← Char.ofNat_toNat c, h]

theorem json.toNat_toUpper (a : Char) :
    a.toUpper.toNat = if 97 ≤ a.toNat ∧ a.toNat ≤ 122 then a.toNat - 32 else a.toNat := by
  unfold Char.toUpper
  simp only [ge_iff_le]
  split
  · rename_i h
    exact json.toNat_ofNat _ (by omega)
  · rfl

theorem json.toNat_toLower (a : Char) :
    a.toLower.toNat = if 65 ≤ a.toNat ∧ a.toNat ≤ 90 then a.toNat + 32 else a.toNat := by
  unfold Char.toLower
  simp only [ge_iff_le]
  split
  · rename_i h
    exact json.toNat_ofNat _ (by omega)
  · rfl

theorem json.toUpper_eq_iff (a c : Char) : a.toUpper = c.toUpper ↔ c.toLower = a.toLower := by
  constructor
  · intro h
    apply json.toNat_inj
    have h2 := congrArg Char.toNat h
    rw [json.toNat_toUpper, json.toNat_toUpper] at h2
    rw [json.toNat_toLower, json.toNat_toLower]
    split_ifs at h2 ⊢ <;> omega
  · intro h
    apply json.toNat_inj
    have h2 := congrArg Char.toNat h
    rw [json.toNat_toLower, json.toNat_toLower] at h2
    rw [json.toNat_toUpper, json.toNat_toUpper]
    split_ifs at h2 ⊢ <;> omega

theorem json.map_toUpper_eq_iff (l1 l2 : List Char) :
    l1.map Char.toUpper = l2.map Char.toUpper ↔ l2.map Char.toLower = l1.map Char.toLower := by
  induction l1 generalizing l2 with
  | nil => cases l2 <;> simp
  | cons a l1 ih =>
    cases l2 with
    | nil => simp
    | cons c l2 => simp [json.toUpper_eq_iff a c, ih l2]

/-- The decoder's comparison of a key with a field name is the comparison of the
two with the case of letters left aside. -/
theorem json.equalFold_eq_keyMatches (name key : String) :
    json.equalFold name key = keyMatches name key := by
  simp only [json.equalFold, keyMatches]
  exact decide_eq_decide.mpr (json.map_toUpper_eq_iff name.data key.data)

theorem json.parseDigits_value (ds : List Char) (h : allDigits ds = true) (n : Nat) :
    strconv.parseDigits ds n = some (n * 10 ^ ds.length + decimalValue ds) := by
  induction ds generalizing n with
  | nil => simp [strconv.parseDigits, decimalValue]
  | cons c cs ih =>
    simp only [allDigits, List.all_cons, Bool.and_eq_true] at h
    have hvalue : decimalValue (c :: cs) = (c.toNat - '0'.toNat) * 10 ^ cs.length + decimalValue cs := by
      simp only [decimalValue, List.reverse_cons, List.map_append, List.map_cons, List.map_nil,
        Nat.ofDigits_append, Nat.ofDigits_singleton, List.length_map, List.length_reverse]
      ring
    simp only [strconv.parseDigits, json.isDigit_of_decimalDigit c h.1, if_true, ih h.2, hvalue,
      List.length_cons, Option.some.injEq]
    ring

/-- Go `strconv.ParseInt` reads an integer numeral within the range of `int64` as
the number it denotes. -/
theorem json.parseInt_integerLiteral (lit : String) (n : Int) (h : IntegerLiteral lit n) :
    strconv.ParseInt lit = some n := by
  obtain ⟨negative, ds, hlit, hne, hds, hn, hlow, hhigh⟩ := h
  have hdigits := json.parseDigits_value ds hds 0
  simp only [Nat.zero_mul, Nat.zero_add] at hdigits
  cases ds with
  | nil => exact absurd rfl hne
  | cons d ds =>
    cases negative with
    | true =>
      simp only [if_true, List.singleton_append] at hlit hn
      simp only [strconv.ParseInt, hlit, hdigits]
      have hle : decimalValue (d :: ds) ≤ 9223372036854775808 := by omega
      simp [hle, hn]
    | false =>
      simp only [Bool.false_eq_true, if_false, List.nil_append] at hlit hn
      have hd : d ≠ '-' ∧ d ≠ '+' := by
        simp only [allDigits, List.all_cons, Bool.and_eq_true] at hds
        have hd := hds.1
        simp only [decimalDigits, List.contains_iff_exists_mem_beq, List.mem_cons,
          List.mem_singleton, List.not_mem_nil, or_false, beq_iff_eq] at hd
        obtain ⟨x, hx, rfl⟩ := hd
        rcases hx with rfl | rfl | rfl | rfl | rfl | rfl | rfl | rfl | rfl | rfl <;> decide
      have hlt : decimalValue (d :: ds) < 9223372036854775808 := by omega
      simp only [strconv.ParseInt, hlit]
      split
      · rename_i heq
        simp only [List.cons.injEq] at heq
        exact absurd heq.1 hd.1
      · rename_i heq
        simp only [List.cons.injEq] at heq
        exact absurd heq.1 hd.2
      · simp [hdigits, hlt, hn]

theorem json.integerLiteral_unique (lit : String) (n m : Int) (hn : IntegerLiteral lit n)
    (hm : IntegerLiteral lit m) : n = m :=
  Option.some.inj ((json.parseInt_integerLiteral lit n hn).symm.trans
    (json.parseInt_integerLiteral lit m hm))

theorem json.fieldValues_cons (name : String) (kv : String × Json)
    (members : List (String × Json)) :
    fieldValues name (kv :: members)
      = if json.equalFold name kv.1 = true ∧ kv.2.isNull = false then
          kv.2 :: fieldValues name members
        else fieldValues name members := by
  simp only [fieldValues, List.filter_cons, json.equalFold_eq_keyMatches]
  cases hk : keyMatches name kv.1 with
  | false => simp
  | true =>
    cases hv : kv.2.isNull with
    | false => simp [hv]
    | true => simp [hv]

/-- Storing the members of an object in which every member keyed `Id` is an integer
numeral within `int64` or `null` and every member keyed `Name` is a string or `null`:
no error is added, and each field ends with the value of the last member keyed by it
that is not `null`, or as it was when there is none. -/
theorem json.foldl_storeMember (members : List (String × Json))
    (st : bunnyPullZone × Option GoError)
    (hid : ∀ v ∈ fieldValues "Id" members, ∃ lit n, v = .num lit ∧ IntegerLiteral lit n)
    (hname : ∀ v ∈ fieldValues "Name" members, ∃ s, v = .str s) :
    (members.foldl json.storeMember st).2 = st.2 ∧
      (fieldValues "Id" members = [] →
        (members.foldl json.storeMember st).1.ID = st.1.ID) ∧
      (∀ lit n, (fieldValues "Id" members).getLast? = some (.num lit) →
        IntegerLiteral lit n → (members.foldl json.storeMember st).1.ID = n) ∧
      (fieldValues "Name" members = [] →
        (members.foldl json.storeMember st).1.Name = st.1.Name) ∧
      (∀ s, (fieldValues "Name" members).getLast? = some (.str s) →
        (members.foldl json.storeMember st).1.Name = s) := by
  induction members generalizing st with
  | nil => simp [fieldValues]
  | cons kv rest ih =>
    obtain ⟨key, v⟩ := kv
    rw [List.foldl_cons]
    simp only [json.fieldValues_cons] at hid hname ⊢
    cases hi : json.equalFold "Id" key with
    | true =>
      have hn : json.equalFold "Name" key = false := json.equalFold_id_name key hi
      simp only [hi, hn, true_and, false_and, Bool.false_eq_true, if_false] at hid hname ⊢
      by_cases hnull : v.isNull = true
      · have hv : v = .null := by
          cases v <;> first | rfl | exact Bool.noConfusion hnull
        subst hv
        have hstore : json.storeMember st (key, .null) = st := by
          simp [json.storeMember, json.findField_id key hi]
        simp only [Json.isNull, Bool.true_eq_false, if_false] at hid ⊢
        rw [hstore]
        exact ih st hid hname
      rw [Bool.not_eq_true] at hnull
      simp only [hnull, if_true] at hid ⊢
      obtain ⟨lit0, n0, hv, hlit0⟩ := hid v (List.mem_cons_self _ _)
      subst hv
      have hstore : json.storeMember st (key, .num lit0) = ({ st.1 with ID := n0 }, st.2) := by
        simp [json.storeMember, json.findField_id key hi,
          json.parseInt_integerLiteral lit0 n0 hlit0]
      rw [hstore]
      obtain ⟨h1, h2, h3, h4, h5⟩ := ih ({ st.1 with ID := n0 }, st.2)
        (fun w hw => hid w (List.mem_cons_of_mem _ hw)) hname
      refine ⟨h1, fun h => absurd h (by simp), ?_, h4, h5⟩
      intro lit n hlast hlit
      cases hrest : fieldValues "Id" rest with
      | nil =>
        rw [hrest] at hlast
        simp only [List.getLast?_singleton, Option.some.injEq, Json.num.injEq] at hlast
        subst hlast
        rw [h2 hrest]
        exact json.integerLiteral_unique lit0 n0 n hlit0 hlit
      | cons b l =>
        rw [hrest, List.getLast?_cons_cons] at hlast
        exact h3 lit n (hrest ▸ hlast) hlit
    | false =>
      cases hn : json.equalFold "Name" key with
      | true =>
        simp only [hi, hn, true_and, false_and, Bool.false_eq_true, if_false] at hid hname ⊢
        by_cases hnull : v.isNull = true
        · have hv : v = .null := by
            cases v <;> first | rfl | exact Bool.noConfusion hnull
          subst hv
          have hstore : json.storeMember st (key, .null) = st := by
            simp [json.storeMember, json.findField_name key hn]
          simp only [Json.isNull, Bool.true_eq_false, if_false] at hname ⊢
          rw [hstore]
          exact ih st hid hname
        rw [Bool.not_eq_true] at hnull
        simp only [hnull, if_true] at hname ⊢
        obtain ⟨s0, hv⟩ := hname v (List.mem_cons_self _ _)
        subst hv
        have hstore : json.storeMember st (key, .str s0) = ({ st.1 with Name := s0 }, st.2) := by
          simp [json.storeMember, json.findField_name key hn]
        rw [hstore]
        obtain ⟨h1, h2, h3, h4, h5⟩ := ih ({ st.1 with Name := s0 }, st.2) hid
          (fun w hw => hname w (List.mem_cons_of_mem _ hw))
        refine ⟨h1, h2, h3, fun h => absurd h (by simp), ?_⟩
        intro s hlast
        cases hrest : fieldValues "Name" rest with
        | nil =>
          rw [hrest] at hlast
          simp only [List.getLast?_singleton, Option.some.injEq, Json.str.injEq] at hlast
          subst hlast
          exact h4 hrest
        | cons b l =>
          rw [hrest, List.getLast?_cons_cons] at hlast
          exact h5 s (hrest ▸ hlast)
      | false =>
        simp only [hi, hn, false_and, Bool.false_eq_true, if_false] at hid hname ⊢
        have hstore : json.storeMember st (key, v) = st := by
          simp [json.storeMember, json.findField_other key hi hn]
        rw [hstore]
        exact ih st hid hname

/-- A zone record decodes to its zone without error. -/
theorem json.decodePullZone_record (members : List (String × Json)) (zone : bunnyPullZone)
    (saved : Option GoError) (h : ZoneRecord members zone) :
    json.decodePullZone (.obj members) saved = (zone, saved) := by
  obtain ⟨hid, ⟨lit, hlast, hlit⟩, hname, hnlast⟩ := h
  obtain ⟨h1, _, h3, _, h5⟩ := json.foldl_storeMember members ({ ID := 0, Name := "" }, saved)
    hid hname
  have hID := h3 lit zone.ID hlast hlit
  have hName := h5 zone.Name hnlast
  simp only [json.decodePullZone]
  generalize members.foldl json.storeMember ({ ID := 0, Name := "" }, saved) = r at h1 hID hName
  obtain ⟨⟨i, nm⟩, e⟩ := r
  obtain ⟨zi, zn⟩ := zone
  simp only at h1 hID hName
  subst h1 hID hName
  rfl

/-- An array of zone records decodes to the zones of the records, in order. -/
theorem json.decodeElements_records (records : List (List (String × Json)))
    (zones : List bunnyPullZone) (saved : Option GoError)
    (h : List.Forall₂ ZoneRecord records zones) :
    json.decodeElements (records.map Json.obj) saved = (zones, saved) := by
  induction h with
  | nil => rfl
  | cons hrec _ ih =>
    simp [json.decodeElements, json.decodePullZone_record _ _ saved hrec, ih]

/-! ## C12: the zone listing -/

theorem sameChars_eq (l1 l2 : List Char) (h : sameChars l1 l2 = true) : l1 = l2 := by
  induction l1 generalizing l2 with
  | nil =>
    cases l2 with
    | nil => rfl
    | cons b bs => simp [sameChars] at h
  | cons a as ih =>
    cases l2 with
    | nil => simp [sameChars] at h
    | cons b bs =>
      simp only [sameChars, Bool.and_eq_true, beq_iff_eq] at h
      rw [h.1, ih bs h.2]

/-- A record with one member keyed `Id`, an integer numeral, and one member keyed
`Name`, a string, is a zone record. -/
theorem zoneRecord_of_single (members : List (String × Json)) (zone : bunnyPullZone)
    (lit : String) (hid : fieldValues "Id" members = [.num lit])
    (hlit : IntegerLiteral lit zone.ID)
    (hname : fieldValues "Name" members = [.str zone.Name]) :
    ZoneRecord members zone := by
  refine ⟨?_, ⟨lit, ?_, hlit⟩, ?_, ?_⟩
  · intro v hv
    rw [hid, List.mem_singleton] at hv
    exact ⟨lit, zone.ID, hv, hlit⟩
  · rw [hid]
    rfl
  · intro v hv
    rw [hname, List.mem_singleton] at hv
    exact ⟨zone.Name, hv⟩
  · rw [hname]
    rfl

/-- C12.  When the listing request is answered, the body is read without error and
is the text of a JSON array of `N` zone records, `listPullZones` returns no error
and `N` zones in the order of the array: the zone at each position has the `Id` of
the last member of the record keyed `Id` in any letter case, and the `Name` of the
last member keyed `Name` in any letter case (members that are `null` apart); the
members with other keys play no part.  For the empty array it returns the empty
sequence and no error. -/
theorem listPullZones_zone_records
    (fetch : List String → String → Except GoError ReadCloser) (p : Platform)
    (requests : List String) (body : ReadCloser)
    (records : List (List (String × Json))) (zones : List bunnyPullZone)
    (hdecoder : p.unmarshalPullZones = json.unmarshalPullZones)
    (hfetch : fetch requests "/pullzone" = .ok body)
    (hread : body.err = none)
    (hbody : JsonDocument body.data (.arr (records.map Json.obj)))
    (hrecords : List.Forall₂ ZoneRecord records zones) :
    (listPullZones fetch p requests).err = none ∧
      (listPullZones fetch p requests).pullZones = zones ∧
      zones.length = records.length ∧
      (records = [] → (listPullZones fetch p requests).pullZones = []) := by
  have hdec : json.unmarshalPullZones body.data = (zones, none) := by
    simp only [json.unmarshalPullZones, json.parse_document body.data _ hbody]
    exact json.decodeElements_records records zones none hrecords
  have hzones : (listPullZones fetch p requests).pullZones = zones := by
    simp [listPullZones, hfetch, hread, hdecoder, hdec]
  refine ⟨?_, hzones, hrecords.length_eq.symm, ?_⟩
  · simp [listPullZones, hfetch, hread, hdecoder, hdec]
  · intro hnil
    subst hnil
    rw [hzones]
    cases hrecords
    rfl

/-- C12 on the body of the test `TestPullZoneList`: two zones, the first with ID
34567 and Name `pullzonename2`, the second with ID 12345 and Name `pullzonename`. -/
theorem listPullZones_test_body :
    jsonPlatform.unmarshalPullZones = json.unmarshalPullZones ∧
      listingServer pullZonesBody [] "/pullzone"
        = .ok { data := pullZonesBody, err := none } ∧
      JsonDocument pullZonesBody (.arr (pullZonesRecords.map Json.obj)) ∧
      List.Forall₂ ZoneRecord pullZonesRecords
        [{ ID := 34567, Name := "pullzonename2" }, { ID := 12345, Name := "pullzonename" }] ∧
      (listPullZones (listingServer pullZonesBody) jsonPlatform []).err = none ∧
      (listPullZones (listingServer pullZonesBody) jsonPlatform []).pullZones
        = [{ ID := 34567, Name := "pullzonename2" }, { ID := 12345, Name := "pullzonename" }] :=
  have hbody : JsonDocument pullZonesBody (.arr (pullZonesRecords.map Json.obj)) :=
    ⟨[], pullZonesDocument, [], sameChars_eq _ _ (by decide), rfl, rfl, rfl, by decide, rfl⟩
  have hrecords : List.Forall₂ ZoneRecord pullZonesRecords
      [{ ID := 34567, Name := "pullzonename2" }, { ID := 12345, Name := "pullzonename" }] :=
    .cons
      (zoneRecord_of_single _ { ID := 34567, Name := "pullzonename2" } "34567" rfl
        ⟨false, "34567".data, rfl, by simp, rfl, rfl,
          by norm_num, by norm_num⟩ rfl)
      (.cons
        (zoneRecord_of_single _ { ID := 12345, Name := "pullzonename" } "12345" rfl
          ⟨false, "12345".data, rfl, by simp, rfl, rfl,
            by norm_num, by norm_num⟩ rfl)
        .nil)
  have h := listPullZones_zone_records (listingServer pullZonesBody) jsonPlatform []
    { data := pullZonesBody, err := none } pullZonesRecords _ rfl rfl rfl hbody hrecords
  ⟨rfl, rfl, hbody, hrecords, h.1, h.2.1⟩

/-- C12, a record whose members are not all ignored: the body
`[{"Id":1,"Name":"a","id":2}]` is a JSON array of one record with the `Id` 1, the
`Name` `a` and one more member, keyed `id`; `listPullZones` returns the zone with
the ID 2, the value of that member. -/
theorem listPullZones_case_variant_key :
    JsonDocument caseVariantBody
        (.arr [.obj [("Id", .num "1"), ("Name", .str "a"), ("id", .num "2")]]) ∧
      (listPullZones (listingServer caseVariantBody) jsonPlatform []).err = none ∧
      (listPullZones (listingServer caseVariantBody) jsonPlatform []).pullZones
        = [{ ID := 2, Name := "a" }] :=
  ⟨⟨[], caseVariantDocument, [], rfl, rfl, rfl, rfl, by decide, rfl⟩, rfl, rfl⟩

/-- C12 on the empty array: no zone and no error. -/
theorem listPullZones_empty_array :
    (listPullZones (listingServer "[]") jsonPlatform []).err = none ∧
      (listPullZones (listingServer "[]") jsonPlatform []).pullZones = [] :=
  ⟨rfl, rfl⟩

end BunnyCDN
